import Mathlib

/-!
# WelcomeSystem admin pages: paginated list controllers

A shallow embedding of the list controllers of the member, level and prize
management pages (`membermanagement.js`, `levelmanagement.js`,
`prizemanagement.js`).

* Page-level `let` variables and the DOM nodes the functions write become the
  fields of one state record per page.
* JavaScript numbers that hold page indices, sizes and totals are `Int`.
* `Math.ceil(total / pageSize)` is `mathCeilDiv`, which is meant for a positive
  divisor (`mathCeilDiv_eq_ceil` relates it to the ceiling of the rational
  quotient); the scripts only ever hold `pageSize = 10`.
* The markup assembled by `renderPagination` is a list of `PagerElem`.
* An `async` loader is split at its `await fetch(...)`: the part before it
  (`...Issue`) records the request in `fetches`; the part after it
  (`...Settle`) consumes a `FetchOutcome`.
* Template literals of the renderers are strings; the helpers of `utils.js`
  (`NISAUtils`, `NISAHttp`, `NISAStorage`) work on `JSValue`, on UTF-16 code
  units and on an explicit clock value where the script calls `Date.now()`.
-/

namespace WelcomeSystem

/-! ## Shared vocabulary -/

/-- Value of `Math.ceil(a / b)` for integer operands with `b > 0`. -/
def mathCeilDiv (a b : Int) : Int := -(Int.fdiv (-a) b)

/-- Code points removed by `String.prototype.trim` (WhiteSpace and LineTerminator). -/
def jsIsWhiteSpace (c : Char) : Bool :=
  let n := c.toNat
  n = 0x09 || n = 0x0A || n = 0x0B || n = 0x0C || n = 0x0D || n = 0x20 || n = 0xA0 ||
  n = 0x1680 || (0x2000 ≤ n && n ≤ 0x200A) || n = 0x2028 || n = 0x2029 || n = 0x202F ||
  n = 0x205F || n = 0x3000 || n = 0xFEFF

/-- The method `String.prototype.trim`. -/
def jsTrim (s : String) : String :=
  String.mk ((s.toList.dropWhile jsIsWhiteSpace).reverse.dropWhile jsIsWhiteSpace).reverse

/-- One element of the markup built by `renderPagination`. -/
inductive PagerElem where
  /-- The "previous page" button: `disabled` attribute and `changePage` argument. -/
  | prev (disabled : Bool) (target : Int)
  /-- A page-number button: `active` class and page number. -/
  | page (active : Bool) (i : Int)
  /-- The marker `<span>...</span>`. -/
  | ellipsis
  /-- The "next page" button: `disabled` attribute and `changePage` argument. -/
  | next (disabled : Bool) (target : Int)
  deriving DecidableEq, Repr

/-- What one iteration of the page-number loop appends for index `i`. -/
def pageLoopBody (currentPage totalPages i : Int) : List PagerElem :=
  if i = 1 ∨ i = totalPages ∨ (i ≥ currentPage - 2 ∧ i ≤ currentPage + 2) then
    [PagerElem.page (i == currentPage) i]
  else if i = currentPage - 3 ∨ i = currentPage + 3 then
    [PagerElem.ellipsis]
  else
    []

/-- The loop `for (let i = 1; i <= totalPages; i++)` appending to `paginationHTML`. -/
def pageLoop (currentPage totalPages : Int) (paginationHTML : List PagerElem) :
    List PagerElem :=
  (List.range' 1 totalPages.toNat).foldl
    (fun html (i : Nat) => html ++ pageLoopBody currentPage totalPages (i : Int)) paginationHTML

/-- The string `paginationHTML` at the end of `renderPagination` (past the
`totalPages <= 1` guard); the three pages build it with the same statements. -/
def paginationHTML (currentPage totalPages : Int) : List PagerElem :=
  let html := [PagerElem.prev (currentPage == 1) (currentPage - 1)]
  let html := pageLoop currentPage totalPages html
  html ++ [PagerElem.next (currentPage == totalPages) (currentPage + 1)]

/-- Page numbers of the page-number buttons in a piece of pager markup, in order. -/
def pageButtons : List PagerElem → List Int
  | [] => []
  | PagerElem.page _ i :: rest => i :: pageButtons rest
  | _ :: rest => pageButtons rest

/-- An entry of the button sequence the specification describes for the pager
(section 4.4): a page with its number, or an ellipsis marker. -/
inductive PageButton where
  | page (value : Int)
  | ellipsis
  deriving DecidableEq, Repr

/-- The button sequence shown by a piece of pager markup: its page-number
buttons and markers in order, without the previous/next buttons. -/
def buttonSequence : List PagerElem → List PageButton
  | [] => []
  | PagerElem.page _ i :: rest => PageButton.page i :: buttonSequence rest
  | PagerElem.ellipsis :: rest => PageButton.ellipsis :: buttonSequence rest
  | PagerElem.prev _ _ :: rest => buttonSequence rest
  | PagerElem.next _ _ :: rest => buttonSequence rest

/-- Following the specification's words ("collapse any gap larger than 1 into a
single ellipsis marker"): the pages after a page `last`, each preceded by one
marker exactly when it differs from its predecessor by more than 1. -/
def specGapMarkers (last : Int) : List Int → List PageButton
  | [] => []
  | b :: rest =>
    (if b - last > 1 then [PageButton.ellipsis, PageButton.page b] else [PageButton.page b])
      ++ specGapMarkers b rest

/-- Following the specification's words: the button sequence for a list of shown
pages, with one ellipsis marker between two consecutive pages exactly when they
differ by more than 1. -/
def specCollapseGaps : List Int → List PageButton
  | [] => []
  | a :: rest => PageButton.page a :: specGapMarkers a rest

/-- A call `fetch(url + '?' + params)`: path and the entries of the `URLSearchParams`. -/
structure Request where
  url : String
  params : List (String × String)
  deriving DecidableEq, Repr

/-- The JSON body of a listing response: `data.members` / `data.levels` /
`data.prizes` and `data.total` (`none` when absent or falsy). -/
structure ListBody (α : Type) where
  items : Option (List α)
  total : Option Int
  deriving Repr

/-- How the awaited listing `fetch` ends. -/
inductive FetchOutcome (α : Type) where
  /-- The promise of `fetch` rejects (network exception). -/
  | networkError
  /-- A response with the given status; `body = none` when `response.json()` rejects. -/
  | http (status : Nat) (body : Option (ListBody α))
  deriving Repr

/-- The property `response.ok`. -/
def responseOk (status : Nat) : Bool := 200 ≤ status && status ≤ 299

/-- Content of the table body node. -/
inductive TableView (α : Type) where
  /-- Markup of the served page, not yet written by a script. -/
  | initial
  /-- The spinner row written by `showLoading`. -/
  | loading
  /-- The placeholder row written by `showEmptyState`. -/
  | emptyState
  /-- One row per record. -/
  | rows (records : List α)
  deriving Repr

/-! ## Member management page (`membermanagement.js`) -/

namespace Members

/-- A record of `data.members`, with the fields `renderMembersTable` reads. -/
structure Member where
  _id : String
  stuId : String
  role : String
  points : Int
  passedLevelNames : List String
  creatTime : String
  deriving DecidableEq, Repr

/-- Page-level variables of `membermanagement.js` with the DOM nodes and the
network trace its list functions touch. -/
structure State where
  currentPage : Int
  pageSize : Int
  totalMembers : Int
  currentFilter : String
  currentSearch : String
  membersData : List Member
  /-- Value of the input `#searchInput`. -/
  searchInput : String
  /-- Value of the select `#roleFilter`. -/
  roleFilter : String
  /-- Content of `#membersTableBody`. -/
  membersTableBody : TableView Member
  /-- Content of `#pagination`. -/
  pagination : List PagerElem
  /-- Toasts shown by `showMessage`, as (message, type), oldest first. -/
  messages : List (String × String)
  /-- Listing requests passed to `fetch`, oldest first. -/
  fetches : List Request
  deriving Repr

/-- The variables as declared at the top of the script, before any event. -/
def init : State where
  currentPage := 1
  pageSize := 10
  totalMembers := 0
  currentFilter := "all"
  currentSearch := ""
  membersData := []
  searchInput := ""
  roleFilter := "all"
  membersTableBody := TableView.initial
  pagination := []
  messages := []
  fetches := []

def showLoading (s : State) : State :=
  { s with membersTableBody := TableView.loading }

def showEmptyState (s : State) : State :=
  { s with membersTableBody := TableView.emptyState }

def showMessage (message type : String) (s : State) : State :=
  { s with messages := s.messages ++ [(message, type)] }

def renderMembersTable (s : State) : State :=
  if s.membersData.length = 0 then showEmptyState s
  else { s with membersTableBody := TableView.rows s.membersData }

def renderPagination (s : State) : State :=
  let totalPages := mathCeilDiv s.totalMembers s.pageSize
  if totalPages ≤ 1 then { s with pagination := [] }
  else { s with pagination := paginationHTML s.currentPage totalPages }

/-- The query parameters `loadMembers` builds from the page variables. -/
def listParams (s : State) : List (String × String) :=
  let params := [("page", toString s.currentPage), ("limit", toString s.pageSize)]
  let params := if s.currentFilter ≠ "all" then params ++ [("role", s.currentFilter)] else params
  if s.currentSearch ≠ "" then params ++ [("search", s.currentSearch)] else params

/-- The function `loadMembers` up to and including the call of `fetch`. -/
def loadMembersIssue (s : State) : State :=
  let s := showLoading s
  { s with fetches := s.fetches ++ [{ url := "/api/admin/members", params := listParams s }] }

/-- The `catch` block of `loadMembers`. -/
def loadMembersCatch (s : State) : State :=
  showEmptyState (showMessage "加载成员列表失败" "error" s)

/-- The function `loadMembers` from the point where the awaited `fetch` settles. -/
def loadMembersSettle (r : FetchOutcome Member) (s : State) : State :=
  match r with
  | FetchOutcome.networkError => loadMembersCatch s
  | FetchOutcome.http status body =>
    if !responseOk status then loadMembersCatch s
    else match body with
      | none => loadMembersCatch s
      | some data =>
        let s := { s with membersData := data.items.getD [], totalMembers := data.total.getD 0 }
        renderPagination (renderMembersTable s)

/-- A whole run of `loadMembers` with nothing interleaved at its `await`. -/
def loadMembers (r : FetchOutcome Member) (s : State) : State :=
  loadMembersSettle r (loadMembersIssue s)

/-- The function `changePage`, up to the `fetch` issued by the `loadMembers` it starts. -/
def changePage (page : Int) (s : State) : State :=
  if page < 1 ∨ page > mathCeilDiv s.totalMembers s.pageSize then s
  else loadMembersIssue { s with currentPage := page }

def searchMembers (s : State) : State :=
  loadMembersIssue { s with currentSearch := jsTrim s.searchInput, currentPage := 1 }

def clearSearch (s : State) : State :=
  loadMembersIssue { s with searchInput := "", currentSearch := "", currentPage := 1 }

def filterMembers (s : State) : State :=
  loadMembersIssue { s with currentFilter := s.roleFilter, currentPage := 1 }

end Members

/-! ## Level management page (`levelmanagement.js`) -/

namespace Levels

/-- A record of `data.levels`, with the fields `renderLevelsTable` reads. -/
structure Level where
  _id : String
  name : String
  info : String
  points : Int
  isActive : Bool
  deriving DecidableEq, Repr

/-- Page-level variables of `levelmanagement.js` with the DOM nodes and the
network trace its list functions touch. -/
structure State where
  currentPage : Int
  pageSize : Int
  totalLevels : Int
  currentFilter : String
  currentSearch : String
  levelsData : List Level
  /-- Value of the input `#searchInput`. -/
  searchInput : String
  /-- Value of the select `#statusFilter`. -/
  statusFilter : String
  /-- Content of `#levelsTableBody`. -/
  levelsTableBody : TableView Level
  /-- Content of `#pagination`. -/
  pagination : List PagerElem
  /-- Toasts shown by `showMessage`, as (message, type), oldest first. -/
  messages : List (String × String)
  /-- Listing requests passed to `fetch`, oldest first. -/
  fetches : List Request
  deriving Repr

/-- The variables as declared at the top of the script, before any event. -/
def init : State where
  currentPage := 1
  pageSize := 10
  totalLevels := 0
  currentFilter := "all"
  currentSearch := ""
  levelsData := []
  searchInput := ""
  statusFilter := "all"
  levelsTableBody := TableView.initial
  pagination := []
  messages := []
  fetches := []

def showLoading (s : State) : State :=
  { s with levelsTableBody := TableView.loading }

def showEmptyState (s : State) : State :=
  { s with levelsTableBody := TableView.emptyState }

def showMessage (message type : String) (s : State) : State :=
  { s with messages := s.messages ++ [(message, type)] }

def renderLevelsTable (s : State) : State :=
  if s.levelsData.length = 0 then showEmptyState s
  else { s with levelsTableBody := TableView.rows s.levelsData }

def renderPagination (s : State) : State :=
  let totalPages := mathCeilDiv s.totalLevels s.pageSize
  if totalPages ≤ 1 then { s with pagination := [] }
  else { s with pagination := paginationHTML s.currentPage totalPages }

/-- The query parameters `loadLevels` builds from the page variables. -/
def listParams (s : State) : List (String × String) :=
  let params := [("page", toString s.currentPage), ("limit", toString s.pageSize)]
  let params := if s.currentFilter ≠ "all" then params ++ [("status", s.currentFilter)] else params
  if s.currentSearch ≠ "" then params ++ [("search", s.currentSearch)] else params

/-- The function `loadLevels` up to and including the call of `fetch`. -/
def loadLevelsIssue (s : State) : State :=
  let s := showLoading s
  { s with fetches := s.fetches ++ [{ url := "/api/admin/levels", params := listParams s }] }

/-- The `catch` block of `loadLevels`. -/
def loadLevelsCatch (s : State) : State :=
  showEmptyState (showMessage "加载关卡列表失败" "error" s)

/-- The function `loadLevels` from the point where the awaited `fetch` settles. -/
def loadLevelsSettle (r : FetchOutcome Level) (s : State) : State :=
  match r with
  | FetchOutcome.networkError => loadLevelsCatch s
  | FetchOutcome.http status body =>
    if !responseOk status then loadLevelsCatch s
    else match body with
      | none => loadLevelsCatch s
      | some data =>
        let s := { s with levelsData := data.items.getD [], totalLevels := data.total.getD 0 }
        renderPagination (renderLevelsTable s)

/-- A whole run of `loadLevels` with nothing interleaved at its `await`. -/
def loadLevels (r : FetchOutcome Level) (s : State) : State :=
  loadLevelsSettle r (loadLevelsIssue s)

/-- The function `changePage`, up to the `fetch` issued by the `loadLevels` it starts. -/
def changePage (page : Int) (s : State) : State :=
  if page < 1 ∨ page > mathCeilDiv s.totalLevels s.pageSize then s
  else loadLevelsIssue { s with currentPage := page }

def searchLevels (s : State) : State :=
  loadLevelsIssue { s with currentSearch := jsTrim s.searchInput, currentPage := 1 }

def clearSearch (s : State) : State :=
  loadLevelsIssue { s with searchInput := "", currentSearch := "", currentPage := 1 }

def filterLevels (s : State) : State :=
  loadLevelsIssue { s with currentFilter := s.statusFilter, currentPage := 1 }

end Levels

/-! ## Prize management page (`prizemanagement.js`) -/

namespace Prizes

/-- A JavaScript number as the prize page computes with it: `NaN`, a finite double
(given by the rational number it denotes) or an infinity. The values returned by
`parseFloat` are of this kind. -/
inductive ParsedFloat where
  | nan
  | finite (q : ℚ)
  | posInfinity
  | negInfinity
  deriving DecidableEq, Repr

/-- The expression `x || 0` for a number `x`. -/
def ParsedFloat.orZero : ParsedFloat → ParsedFloat
  | ParsedFloat.nan => ParsedFloat.finite 0
  | x => x

/-- The comparison `x < n` for a finite `n`. -/
def ParsedFloat.ltNum (x : ParsedFloat) (n : ℚ) : Bool :=
  match x with
  | ParsedFloat.nan => false
  | ParsedFloat.finite q => q < n
  | ParsedFloat.posInfinity => false
  | ParsedFloat.negInfinity => true

/-- The comparison `x > n` for a finite `n`. -/
def ParsedFloat.gtNum (x : ParsedFloat) (n : ℚ) : Bool :=
  match x with
  | ParsedFloat.nan => false
  | ParsedFloat.finite q => q > n
  | ParsedFloat.posInfinity => true
  | ParsedFloat.negInfinity => false

/-- The unary operator `-` on numbers. -/
def ParsedFloat.neg : ParsedFloat → ParsedFloat
  | ParsedFloat.nan => ParsedFloat.nan
  | ParsedFloat.finite q => ParsedFloat.finite (-q)
  | ParsedFloat.posInfinity => ParsedFloat.negInfinity
  | ParsedFloat.negInfinity => ParsedFloat.posInfinity

/-- The integer nearest to `y`, the even one of the two when `y` is half-way. -/
def roundHalfEven (y : ℚ) : Int :=
  let f := ⌊y⌋
  if y - f < 1 / 2 then f
  else if 1 / 2 < y - f then f + 1
  else if f % 2 = 0 then f else f + 1

/-- The exponent `e` for which the doubles around `x` are the multiples of
`2 ^ e`: 53 significant bits, and no finer than `2 ^ (-1074)`. -/
def ulpExponent (x : ℚ) : Int := max (Int.log 2 |x| - 52) (-1074)

/-- The double nearest to the real number `x`, the one with even last bit when
`x` is half-way between two, and an infinity from `2 ^ 1024` on: what an
arithmetic operation on doubles returns for the exact result `x`. -/
def roundDouble (x : ℚ) : ParsedFloat :=
  let e := ulpExponent x
  let v : ℚ := (roundHalfEven (x / 2 ^ e) : ℚ) * 2 ^ e
  if (2 : ℚ) ^ (1024 : ℤ) ≤ |v| then
    (if 0 < x then ParsedFloat.posInfinity else ParsedFloat.negInfinity)
  else ParsedFloat.finite v

/-- The operator `+` on numbers. -/
def ParsedFloat.add : ParsedFloat → ParsedFloat → ParsedFloat
  | ParsedFloat.nan, _ => ParsedFloat.nan
  | _, ParsedFloat.nan => ParsedFloat.nan
  | ParsedFloat.posInfinity, ParsedFloat.negInfinity => ParsedFloat.nan
  | ParsedFloat.negInfinity, ParsedFloat.posInfinity => ParsedFloat.nan
  | ParsedFloat.posInfinity, _ => ParsedFloat.posInfinity
  | _, ParsedFloat.posInfinity => ParsedFloat.posInfinity
  | ParsedFloat.negInfinity, _ => ParsedFloat.negInfinity
  | _, ParsedFloat.negInfinity => ParsedFloat.negInfinity
  | ParsedFloat.finite a, ParsedFloat.finite b => roundDouble (a + b)

/-- The operator `-` on two numbers. -/
def ParsedFloat.sub (a b : ParsedFloat) : ParsedFloat := a.add b.neg

/-- The function `Math.max` on two numbers. -/
def ParsedFloat.max : ParsedFloat → ParsedFloat → ParsedFloat
  | ParsedFloat.nan, _ => ParsedFloat.nan
  | _, ParsedFloat.nan => ParsedFloat.nan
  | ParsedFloat.posInfinity, _ => ParsedFloat.posInfinity
  | _, ParsedFloat.posInfinity => ParsedFloat.posInfinity
  | ParsedFloat.negInfinity, b => b
  | a, ParsedFloat.negInfinity => a
  | ParsedFloat.finite a, ParsedFloat.finite b => ParsedFloat.finite (Max.max a b)

/-- A record of `data.prizes`, with the fields the list code reads: `total` is
`none` when `p.total` is absent or falsy, `weight` is the number
`parseFloat(p.weight)`, `isActive` and `isDefault` are `none` when absent. -/
structure Prize where
  _id : String
  Name : String
  photo : Option String
  total : Option Int
  weight : ParsedFloat
  isActive : Option Bool
  isDefault : Option Bool
  deriving DecidableEq, Repr

/-- Page-level variables of `prizemanagement.js` with the DOM nodes and the
network trace its list functions touch. -/
structure State where
  currentPage : Int
  pageSize : Int
  totalPrizes : Int
  currentFilter : String
  currentSearch : String
  prizesData : List Prize
  /-- Value of the input `#searchInput`. -/
  searchInput : String
  /-- Content of `#prizesTableBody`. -/
  prizesTableBody : TableView Prize
  /-- Content of `#pagination`. -/
  pagination : List PagerElem
  /-- Toasts shown by `showMessage`, as (message, type), oldest first. -/
  messages : List (String × String)
  /-- Listing requests passed to `fetch`, oldest first. -/
  fetches : List Request
  deriving Repr

/-- The variables as declared at the top of the script, before any event. -/
def init : State where
  currentPage := 1
  pageSize := 10
  totalPrizes := 0
  currentFilter := "all"
  currentSearch := ""
  prizesData := []
  searchInput := ""
  prizesTableBody := TableView.initial
  pagination := []
  messages := []
  fetches := []

def showLoading (s : State) : State :=
  { s with prizesTableBody := TableView.loading }

def hideLoading (s : State) : State := s

def showEmptyState (s : State) : State :=
  { s with prizesTableBody := TableView.emptyState }

def showMessage (message type : String) (s : State) : State :=
  { s with messages := s.messages ++ [(message, type)] }

/-- The expression `Number(p.total || 0)`. -/
def totalNum (p : Prize) : Int := p.total.getD 0

/-- The list `filtered` computed at the top of `renderPrizesTable`. -/
def filtered (s : State) : List Prize :=
  if s.currentFilter = "available" then
    s.prizesData.filter
      (fun p => (p.isActive != some false) && (p.isDefault == some true || totalNum p > 0))
  else if s.currentFilter = "out_of_stock" then
    s.prizesData.filter (fun p => totalNum p == 0)
  else s.prizesData

def renderPrizesTable (s : State) : State :=
  if (filtered s).length = 0 then showEmptyState s
  else { s with prizesTableBody := TableView.rows (filtered s) }

def renderPagination (s : State) : State :=
  let totalPages := mathCeilDiv s.totalPrizes s.pageSize
  if totalPages ≤ 1 then { s with pagination := [] }
  else { s with pagination := paginationHTML s.currentPage totalPages }

/-- The query parameters `loadPrizes` builds from the page variables. -/
def listParams (s : State) : List (String × String) :=
  let params := [("page", toString s.currentPage), ("limit", toString s.pageSize)]
  if s.currentSearch ≠ "" then params ++ [("search", s.currentSearch)] else params

/-- The function `loadPrizes` up to and including the call of `fetch`. -/
def loadPrizesIssue (s : State) : State :=
  let s := showLoading s
  { s with fetches := s.fetches ++ [{ url := "/api/admin/prizes", params := listParams s }] }

/-- The `catch` block of `loadPrizes`. -/
def loadPrizesCatch (s : State) : State :=
  showEmptyState (showMessage "加载奖品列表失败" "error" (hideLoading s))

/-- The function `loadPrizes` from the point where the awaited `fetch` settles. -/
def loadPrizesSettle (r : FetchOutcome Prize) (s : State) : State :=
  match r with
  | FetchOutcome.networkError => loadPrizesCatch s
  | FetchOutcome.http status body =>
    if !responseOk status then loadPrizesCatch s
    else match body with
      | none => loadPrizesCatch s
      | some data =>
        let s := { s with prizesData := data.items.getD [], totalPrizes := data.total.getD 0 }
        renderPagination (renderPrizesTable (hideLoading s))

/-- A whole run of `loadPrizes` with nothing interleaved at its `await`. -/
def loadPrizes (r : FetchOutcome Prize) (s : State) : State :=
  loadPrizesSettle r (loadPrizesIssue s)

/-- The function `changePage`, up to the `fetch` issued by the `loadPrizes` it starts. -/
def changePage (page : Int) (s : State) : State :=
  if page < 1 ∨ page > mathCeilDiv s.totalPrizes s.pageSize then s
  else loadPrizesIssue { s with currentPage := page }

def searchPrizes (s : State) : State :=
  loadPrizesIssue { s with currentSearch := jsTrim s.searchInput, currentPage := 1 }

def clearSearch (s : State) : State :=
  loadPrizesIssue { s with searchInput := "", currentSearch := "", currentPage := 1 }

end Prizes

/-! ## Event sequences

The handlers run to completion one after another; a settled `fetch` resumes
its loader as an event of its own. -/

namespace Members

/-- What can happen on the member page, as far as the list controller goes. -/
inductive Event where
  /-- A call `changePage(page)`. -/
  | changePage (page : Int)
  /-- The user edits `#searchInput`. -/
  | typeSearch (value : String)
  /-- The user picks an option of `#roleFilter`. -/
  | selectRole (value : String)
  | searchMembers
  | clearSearch
  | filterMembers
  /-- A call of `loadMembers` from elsewhere (page load, after a save or a delete). -/
  | reload
  /-- The `fetch` awaited by a running `loadMembers` settles. -/
  | settle (r : FetchOutcome Member)

def step (s : State) : Event → State
  | Event.changePage page => changePage page s
  | Event.typeSearch value => { s with searchInput := value }
  | Event.selectRole value => { s with roleFilter := value }
  | Event.searchMembers => searchMembers s
  | Event.clearSearch => clearSearch s
  | Event.filterMembers => filterMembers s
  | Event.reload => loadMembersIssue s
  | Event.settle r => loadMembersSettle r s

/-- The state after a finite sequence of events. -/
def run (s : State) (events : List Event) : State := events.foldl step s

end Members

namespace Levels

/-- What can happen on the level page, as far as the list controller goes. -/
inductive Event where
  /-- A call `changePage(page)`. -/
  | changePage (page : Int)
  /-- The user edits `#searchInput`. -/
  | typeSearch (value : String)
  /-- The user picks an option of `#statusFilter`. -/
  | selectStatus (value : String)
  | searchLevels
  | clearSearch
  | filterLevels
  /-- A call of `loadLevels` from elsewhere (page load, after a save, delete or toggle). -/
  | reload
  /-- The `fetch` awaited by a running `loadLevels` settles. -/
  | settle (r : FetchOutcome Level)

def step (s : State) : Event → State
  | Event.changePage page => changePage page s
  | Event.typeSearch value => { s with searchInput := value }
  | Event.selectStatus value => { s with statusFilter := value }
  | Event.searchLevels => searchLevels s
  | Event.clearSearch => clearSearch s
  | Event.filterLevels => filterLevels s
  | Event.reload => loadLevelsIssue s
  | Event.settle r => loadLevelsSettle r s

/-- The state after a finite sequence of events. -/
def run (s : State) (events : List Event) : State := events.foldl step s

end Levels

namespace Prizes

/-- What can happen on the prize page, as far as the list controller goes. -/
inductive Event where
  /-- A call `changePage(page)`. -/
  | changePage (page : Int)
  /-- The user edits `#searchInput`. -/
  | typeSearch (value : String)
  | searchPrizes
  | clearSearch
  /-- A call of `loadPrizes` from elsewhere (page load, after a save, delete or toggle). -/
  | reload
  /-- The `fetch` awaited by a running `loadPrizes` settles. -/
  | settle (r : FetchOutcome Prize)

def step (s : State) : Event → State
  | Event.changePage page => changePage page s
  | Event.typeSearch value => { s with searchInput := value }
  | Event.searchPrizes => searchPrizes s
  | Event.clearSearch => clearSearch s
  | Event.reload => loadPrizesIssue s
  | Event.settle r => loadPrizesSettle r s

/-- The state after a finite sequence of events. -/
def run (s : State) (events : List Event) : State := events.foldl step s

end Prizes

/-- The four variables the specification calls the query state of the member
page: page, page size, search term and filter. -/
def Members.queryState (s : Members.State) : Int × Int × String × String :=
  (s.currentPage, s.pageSize, s.currentSearch, s.currentFilter)

/-- The four variables the specification calls the query state of the level
page: page, page size, search term and filter. -/
def Levels.queryState (s : Levels.State) : Int × Int × String × String :=
  (s.currentPage, s.pageSize, s.currentSearch, s.currentFilter)

/-- The four variables the specification calls the query state of the prize
page: page, page size, search term and filter. -/
def Prizes.queryState (s : Prizes.State) : Int × Int × String × String :=
  (s.currentPage, s.pageSize, s.currentSearch, s.currentFilter)

/-- The markup `html` is what `renderPagination` of one of the three pages writes
to `#pagination` when run with the given current page, total and page size. -/
def IsRenderedPager (current total pageSize : Int) (html : List PagerElem) : Prop :=
  (∃ s : Members.State, s.currentPage = current ∧ s.totalMembers = total
      ∧ s.pageSize = pageSize ∧ (Members.renderPagination s).pagination = html)
  ∨ (∃ s : Levels.State, s.currentPage = current ∧ s.totalLevels = total
      ∧ s.pageSize = pageSize ∧ (Levels.renderPagination s).pagination = html)
  ∨ (∃ s : Prizes.State, s.currentPage = current ∧ s.totalPrizes = total
      ∧ s.pageSize = pageSize ∧ (Prizes.renderPagination s).pagination = html)

/-! ## Markup written by the renderers

The template literals of the renderers, as strings: the literal text is taken
over character by character, each `${...}` is the string of its expression. -/

namespace Members

/-- The function `getRoleText`, for a role that is not a member name of
`Object.prototype`. -/
def getRoleText (role : String) : String :=
  if role = "user" then "普通成员"
  else if role = "admin" then "管理员"
  else if role = "super_admin" then "超级管理员"
  else role

/-- The function `formatDate` called with one argument; `toLocaleString` stands for
`new Date(dateString).toLocaleString('zh-CN')`. -/
def formatDate (toLocaleString : String → String) (dateString : String) : String :=
  if dateString = "" then "-" else toLocaleString dateString

/-- The row that `renderMembersTable` builds for one member. -/
def memberRowHTML (toLocaleString : String → String) (member : Member) : String :=
  "\n        <tr>\n            <td>"
    ++ member.stuId
    ++ "</td>\n            <td>\n                <span class=\"role-badge "
    ++ member.role
    ++ "\">\n                    "
    ++ getRoleText member.role
    ++ "\n                </span>\n            </td>\n            <td>"
    ++ toString member.points
    ++ "</td>\n            <td>\n                <div class=\"passed-levels\">\n                    "
    ++ (if member.passedLevelNames.length > 0 then ", ".intercalate member.passedLevelNames else "无")
    ++ "\n                </div>\n            </td>\n            <td>"
    ++ formatDate toLocaleString member.creatTime
    ++ "</td>\n            <td>\n                <button class=\"action-btn view\" onclick=\"viewMemberDetail('"
    ++ member._id
    ++ "')\" title=\"查看详情\">\n                    <i class=\"fas fa-eye\"></i>\n                </button>\n                <button class=\"action-btn edit\" onclick=\"editMember('"
    ++ member._id
    ++ "')\" title=\"编辑成员\">\n                    <i class=\"fas fa-edit\"></i>\n                </button>\n                <button class=\"action-btn delete\" onclick=\"deleteMember('"
    ++ member._id
    ++ "', '"
    ++ member.stuId
    ++ "')\" title=\"删除成员\">\n                    <i class=\"fas fa-trash\"></i>\n                </button>\n            </td>\n        </tr>\n    "

/-- The markup `renderMembersTable` assigns to `#membersTableBody` when
`membersData` is not empty. -/
def membersTableHTML (toLocaleString : String → String) (s : State) : String :=
  String.join (s.membersData.map (memberRowHTML toLocaleString))

end Members

namespace Levels

/-- The row that `renderLevelsTable` builds for one level. -/
def levelRowHTML (level : Level) : String :=
  "\n        <tr>\n            <td>\n                <strong>"
    ++ level.name
    ++ "</strong>\n            </td>\n            <td>\n                <div style=\"max-width: 300px; overflow: hidden; text-overflow: ellipsis;\">\n                    "
    ++ (if level.info ≠ "" then level.info else "-")
    ++ "\n                </div>\n            </td>\n            <td>\n                <span class=\"points-badge\">"
    ++ toString level.points
    ++ " 积分</span>\n            </td>\n            <td class=\"activation-controls\">\n                <div class=\"activation-row\">\n                    <label class=\"switch\">\n                        <input type=\"checkbox\" "
    ++ (if level.isActive then "checked" else "")
    ++ " \n                               onchange=\"toggleLevelActive('"
    ++ level._id
    ++ "', this.checked)\">\n                        <span class=\"slider round\"></span>\n                    </label>\n                    <div class=\"action-buttons\">\n                        <button class=\"action-btn edit\" onclick=\"editLevel('"
    ++ level._id
    ++ "')\" title=\"编辑关卡\">\n                            <i class=\"fas fa-edit\"></i>\n                        </button>\n                        <button class=\"action-btn delete\" onclick=\"deleteLevel('"
    ++ level._id
    ++ "', '"
    ++ level.name
    ++ "')\" title=\"删除关卡\">\n                            <i class=\"fas fa-trash\"></i>\n                        </button>\n                    </div>\n                </div>\n            </td>\n        </tr>\n    "

/-- The markup `renderLevelsTable` assigns to `#levelsTableBody` when `levelsData`
is not empty. -/
def levelsTableHTML (s : State) : String :=
  String.join (s.levelsData.map levelRowHTML)

end Levels

/-! ## Level introduction page (`levelintroduction.js`) -/

namespace LevelIntroduction

/-- A record of `data.levels` as `createLevelCard` reads it: an absent `name`,
`info` or `description` is the empty string, absent `points` are 0, and
`isActive` is `none` when absent. -/
structure Level where
  _id : String
  name : String
  info : String
  description : String
  points : Int
  isActive : Option Bool
  deriving DecidableEq, Repr

/-- What the HTML fragment serialisation writes for one character of a text node:
`&`, `<`, `>` and the no-break space become entities, any other character,
quotes included, is written as it is. -/
def escapeHtmlChar (c : Char) : List Char :=
  if c = '&' then "&amp;".toList
  else if c = '<' then "&lt;".toList
  else if c = '>' then "&gt;".toList
  else if c = Char.ofNat 0xA0 then "&nbsp;".toList
  else [c]

/-- The function `escapeHtml`: `div.textContent = text; return div.innerHTML`, and
the empty string for a falsy argument. -/
def escapeHtml (text : String) : String :=
  if text = "" then "" else String.mk (text.toList.flatMap escapeHtmlChar)

/-- The constant `levelInfo` of `createLevelCard`. -/
def levelInfo (level : Level) : String :=
  if level.info ≠ "" then level.info
  else if level.description ≠ "" then level.description
  else "暂无关卡说明"

/-- The constant `isActive` of `createLevelCard`: `level.isActive !== false`. -/
def isActive (level : Level) : Bool := level.isActive != some false

def statusClass (level : Level) : String := if isActive level then "active" else "inactive"

def statusText (level : Level) : String := if isActive level then "进行中" else "未开放"

/-- The element returned by `createLevelCard`. -/
structure Card where
  className : String
  innerHTML : String
  deriving DecidableEq, Repr

def createLevelCard (level : Level) : Card where
  className := "level-card " ++ (if level.isActive = some true then "" else "inactive")
  innerHTML :=
    "\n        <div class=\"level-header\">\n            <h3 class=\"level-name\">"
      ++ escapeHtml level.name
      ++ "</h3>\n            <div class=\"level-points\">\n                <i class=\"fas fa-coins\"></i>\n                "
      ++ toString level.points
      ++ " 积分\n            </div>\n        </div>\n        <div class=\"level-description\">\n            "
      ++ escapeHtml (levelInfo level)
      ++ "\n        </div>\n        <div class=\"level-status "
      ++ statusClass level
      ++ "\">\n            "
      ++ statusText level
      ++ "\n        </div>\n        <button class=\"view-detail-btn\" onclick=\"viewLevelDetail('"
      ++ level._id
      ++ "')\">\n            <i class=\"fas fa-info-circle\"></i> 查看详情\n        </button>\n    "

end LevelIntroduction

/-! ## Common utilities (`utils.js`)

Strings are read as their UTF-16 code units where the script counts or matches
them (`length`, regular expressions). A regular expression literal is a value
of `Regex`; `Regex.test` is the method `test` for the literals of the scripts,
which are sequences of quantified character classes between optional anchors. -/

/-- A JavaScript value built from `null`, booleans, numbers (integers here),
strings, arrays and plain objects; the properties of an object are listed in
the order of `Object.keys`. -/
inductive JSValue where
  | null
  | bool (b : Bool)
  | num (n : Int)
  | str (s : String)
  | arr (items : List JSValue)
  | obj (props : List (String × JSValue))
  deriving Repr

/-- The UTF-16 code units of a string. -/
def jsUnits (s : String) : List Nat :=
  s.toList.flatMap fun c =>
    if c.toNat < 0x10000 then [c.toNat]
    else [0xD800 + (c.toNat - 0x10000) / 0x400, 0xDC00 + (c.toNat - 0x10000) % 0x400]

/-- The property `length` of a string. -/
def jsLength (s : String) : Nat := (jsUnits s).length

/-- The method `String.prototype.startsWith`. -/
def jsStartsWith (s searchString : String) : Bool :=
  (jsUnits searchString).isPrefixOf (jsUnits s)

/-- The method `String.prototype.includes`. -/
def jsIncludes (s searchString : String) : Bool :=
  decide (jsUnits searchString <:+: jsUnits s)

/-- A character class with its quantifier `{min,max}`; a bare class has `{1,1}`,
and `max = none` stands for no upper bound. -/
structure RegexAtom where
  cls : Nat → Bool
  min : Nat
  max : Option Nat

/-- A regular expression literal without flags: `^`?, quantified classes, `$`?. -/
structure Regex where
  anchorStart : Bool
  atoms : List RegexAtom
  anchorEnd : Bool

/-- Whether the atoms match a prefix of the code units (the whole of them when the
pattern ends with `$`): some admissible repetition count of the first atom
leaves a rest that the other atoms match. -/
def matchAtoms (anchorEnd : Bool) : List RegexAtom → List Nat → Bool
  | [], units => !anchorEnd || units.isEmpty
  | a :: rest, units =>
    (List.range (units.length + 1)).any fun k =>
      decide (a.min ≤ k) && (match a.max with | none => true | some m => decide (k ≤ m))
        && (units.take k).all a.cls && matchAtoms anchorEnd rest (units.drop k)

/-- The method `RegExp.prototype.test` on a string. -/
def Regex.test (r : Regex) (s : String) : Bool :=
  if r.anchorStart then matchAtoms r.anchorEnd r.atoms (jsUnits s)
  else (List.range (jsLength s + 1)).any fun i =>
    matchAtoms r.anchorEnd r.atoms ((jsUnits s).drop i)

/-- The class `[a-z]`. -/
def clsLower (u : Nat) : Bool := 0x61 ≤ u && u ≤ 0x7A

/-- The class `[A-Z]`. -/
def clsUpper (u : Nat) : Bool := 0x41 ≤ u && u ≤ 0x5A

/-- The class `[0-9]`. -/
def clsDigit (u : Nat) : Bool := 0x30 ≤ u && u ≤ 0x39

/-- The class `[a-zA-Z0-9]`. -/
def clsAlnum (u : Nat) : Bool := clsLower u || clsUpper u || clsDigit u

namespace NISAUtils

/-- The closure variable `lastCall` of a throttled function starts at 0. -/
def throttleInit : Int := 0

/-- One call of the function returned by `throttle(func, delay)`: `now` is the
value of `Date.now()`, the first component is `lastCall` after the call, the
second the returned value (`none` for `undefined`). -/
def throttleCall {α β : Type} (func : α → β) (delay : Int) (lastCall : Int) (now : Int)
    (args : α) : Int × Option β :=
  if now - lastCall ≥ delay then (now, some (func args)) else (lastCall, none)

/-- The returned values of a sequence of calls, each given by its time and its
arguments, of one throttled function whose `lastCall` is as given. -/
def throttleRun {α β : Type} (func : α → β) (delay : Int) :
    Int → List (Int × α) → List (Option β)
  | _, [] => []
  | lastCall, (now, args) :: rest =>
    (throttleCall func delay lastCall now args).2
      :: throttleRun func delay (throttleCall func delay lastCall now args).1 rest

/-- The assignment `cloned[key] = value` on an object created by `{}`: the key
`__proto__` reaches the setter inherited from `Object.prototype`, which makes no
own property; any other key is overwritten in place or added at the end. -/
def assignProp (cloned : List (String × JSValue)) (key : String) (value : JSValue) :
    List (String × JSValue) :=
  if key = "__proto__" then cloned
  else if cloned.any (fun p => p.1 == key) then
    cloned.map (fun p => if p.1 = key then (p.1, value) else p)
  else cloned ++ [(key, value)]

mutual
/-- The function `deepClone`. -/
def deepClone : JSValue → JSValue
  | JSValue.arr items => JSValue.arr (deepCloneItems items)
  | JSValue.obj props => JSValue.obj (deepCloneProps [] props)
  | v => v
/-- The callback `item => this.deepClone(item)` mapped over an array. -/
def deepCloneItems : List JSValue → List JSValue
  | [] => []
  | item :: rest => deepClone item :: deepCloneItems rest
/-- The loop `Object.keys(obj).forEach(key => cloned[key] = this.deepClone(obj[key]))`
from a given `cloned`, over the properties not yet visited. -/
def deepCloneProps (cloned : List (String × JSValue)) :
    List (String × JSValue) → List (String × JSValue)
  | [] => cloned
  | (key, value) :: rest => deepCloneProps (assignProp cloned key (deepClone value)) rest
end

/-- The function `validateStuId`: the pattern `/^[a-zA-Z0-9]{6,20}$/`. -/
def validateStuId (stuId : String) : Bool :=
  Regex.test { anchorStart := true, atoms := [{ cls := clsAlnum, min := 6, max := some 20 }],
               anchorEnd := true } stuId

/-- The object returned by `validatePassword`. -/
structure PasswordResult where
  valid : Bool
  strength : Nat
  messages : List String
  deriving DecidableEq, Repr

/-- A pattern that is one bare class, such as `/[a-z]/`. -/
def oneOf (cls : Nat → Bool) : Regex :=
  { anchorStart := false, atoms := [{ cls := cls, min := 1, max := some 1 }],
    anchorEnd := false }

/-- The function `validatePassword`. -/
def validatePassword (password : String) : PasswordResult :=
  let result : PasswordResult := { valid := true, strength := 0, messages := [] }
  if password = "" then
    { result with valid := false, messages := result.messages ++ ["密码不能为空"] }
  else
    let result :=
      if jsLength password < 6 then
        { result with valid := false, messages := result.messages ++ ["密码长度至少6位"] }
      else result
    let result :=
      if jsLength password ≥ 8 then { result with strength := result.strength + 1 } else result
    let result :=
      if (oneOf clsLower).test password then { result with strength := result.strength + 1 }
      else result
    let result :=
      if (oneOf clsUpper).test password then { result with strength := result.strength + 1 }
      else result
    let result :=
      if (oneOf clsDigit).test password then { result with strength := result.strength + 1 }
      else result
    let result :=
      if (oneOf (fun u => !clsAlnum u)).test password then
        { result with strength := result.strength + 1 }
      else result
    result

end NISAUtils

namespace NISAHttp

/-- The constant `NISA_CONFIG.API_BASE_URL`. -/
def API_BASE_URL : String := "/api"

/-- The parts of a `Response` that `request` reads; `json` and `text` say how
`response.json()` and `response.text()` settle (a value, or the reason of the
rejection). -/
structure Response where
  status : Nat
  statusText : String
  /-- The value of `response.headers.get('content-type')`, `none` for `null`. -/
  contentType : Option String
  json : Except String JSValue
  text : Except String String

/-- How the promise of `fetch` settles. -/
inductive FetchResult where
  /-- The promise rejects with the given reason. -/
  | rejected (reason : String)
  | response (r : Response)

/-- The `options` argument of `request`, as far as `request` looks into it. -/
structure Options where
  method : Option String
  body : Option String
  headers : List (String × String)

/-- An object spread `{ ...base, ...over }` of string-valued properties. -/
def spread (base over : List (String × String)) : List (String × String) :=
  over.foldl
    (fun acc p =>
      if acc.any (fun q => q.1 == p.1) then acc.map (fun q => if q.1 = p.1 then p else q)
      else acc ++ [p])
    base

/-- A call of `fetch` made by `request`. -/
structure FetchCall where
  url : String
  method : Option String
  body : Option String
  headers : List (String × String)
  deriving DecidableEq, Repr

/-- What `request` throws: the error it creates for a response that is not ok, or
a rejection reason it passes on. -/
inductive Thrown where
  /-- The object `new Error("HTTP " + status + ": " + statusText)`. -/
  | httpError (status : Nat) (statusText : String)
  | reason (r : String)
  deriving DecidableEq, Repr

/-- The property `message` of a thrown value. -/
def Thrown.message : Thrown → String
  | Thrown.httpError status statusText => "HTTP " ++ toString status ++ ": " ++ statusText
  | Thrown.reason r => r

/-- What `request` resolves to. -/
inductive Body where
  | json (v : JSValue)
  | text (s : String)

/-- The constant `fullUrl` of `request`. -/
def fullUrl (url : String) : String :=
  if jsStartsWith url "http" then url else API_BASE_URL ++ url

/-- The function `NISAHttp.request`: the calls of `fetch` it makes and how its
promise settles, given how the `fetch` settles. -/
def request (url : String) (options : Options) (outcome : FetchResult) :
    List FetchCall × Except Thrown Body :=
  let call : FetchCall :=
    { url := fullUrl url, method := options.method, body := options.body,
      headers := spread [("X-Requested-With", "XMLHttpRequest")] options.headers }
  match outcome with
  | FetchResult.rejected reason => ([call], Except.error (Thrown.reason reason))
  | FetchResult.response response =>
    if !responseOk response.status then
      ([call], Except.error (Thrown.httpError response.status response.statusText))
    else
      match response.contentType with
      | some contentType =>
        if contentType ≠ "" && jsIncludes contentType "application/json" then
          match response.json with
          | Except.ok v => ([call], Except.ok (Body.json v))
          | Except.error e => ([call], Except.error (Thrown.reason e))
        else
          match response.text with
          | Except.ok s => ([call], Except.ok (Body.text s))
          | Except.error e => ([call], Except.error (Thrown.reason e))
      | none =>
        match response.text with
        | Except.ok s => ([call], Except.ok (Body.text s))
        | Except.error e => ([call], Except.error (Thrown.reason e))

end NISAHttp

namespace NISAStorage

/-- A string held by `localStorage`, by what `JSON.parse` makes of it: `json v` is
a text that parses to `v`, such as `JSON.stringify(v)`; `raw text` is a text
that `JSON.parse` rejects. -/
inductive StoredText where
  | json (v : JSValue)
  | raw (text : String)

/-- The content of `localStorage`: keys with their strings, in key order. -/
abbrev Store := List (String × StoredText)

/-- The method `localStorage.getItem`; `none` stands for `null`. -/
def getItem (store : Store) (key : String) : Option StoredText :=
  List.lookup key store

/-- The method `localStorage.removeItem`. -/
def removeItem (store : Store) (key : String) : Store :=
  store.filter (fun p => p.1 != key)

/-- The method `localStorage.setItem`. -/
def setItem (store : Store) (key : String) (value : StoredText) : Store :=
  if store.any (fun p => p.1 == key) then
    store.map (fun p => if p.1 = key then (p.1, value) else p)
  else store ++ [(key, value)]

/-- Whether a stored string is falsy, that is, empty. -/
def StoredText.isEmpty : StoredText → Bool
  | StoredText.json _ => false
  | StoredText.raw text => text = ""

/-- Reading a property of a parsed value: a `TypeError` (`none`) on `null`,
otherwise the property or `undefined` (`some none`). -/
def getProp : JSValue → String → Option (Option JSValue)
  | JSValue.null, _ => none
  | JSValue.obj props, name => some (List.lookup name props)
  | _, _ => some none

/-- Whether a value, or `undefined` (`none`), is truthy. -/
def truthy : Option JSValue → Bool
  | none => false
  | some JSValue.null => false
  | some (JSValue.bool b) => b
  | some (JSValue.num n) => n ≠ 0
  | some (JSValue.str s) => s ≠ ""
  | some (JSValue.arr _) => true
  | some (JSValue.obj _) => true

/-- The comparison `now > x` for a number `now`; `toNumber` stands for the
conversion of a string, an array or an object to a number (`none` for `NaN`). -/
def greaterThan (toNumber : JSValue → Option Int) (now : Int) : JSValue → Bool
  | JSValue.num n => now > n
  | JSValue.bool b => now > (if b then 1 else 0)
  | JSValue.null => now > 0
  | v => match toNumber v with
    | some n => now > n
    | none => false

/-- A number passed to `set` as `expires`: `NaN`, a finite number (a whole number
of milliseconds) or an infinity. -/
inductive JSNumber where
  | nan
  | finite (n : Int)
  | posInfinity
  | negInfinity
  deriving DecidableEq, Repr

/-- The expression `expires ? Date.now() + expires : null` of `set`; `none` stands
for `null`, also as the argument (omitted or `null`). -/
def expiresExpr (now : Int) (expires : Option JSNumber) : Option JSNumber :=
  match expires with
  | none => none
  | some JSNumber.nan => none
  | some (JSNumber.finite e) => if e ≠ 0 then some (JSNumber.finite (now + e)) else none
  | some JSNumber.posInfinity => some JSNumber.posInfinity
  | some JSNumber.negInfinity => some JSNumber.negInfinity

/-- The property `expires` of the stored item as `JSON.parse` reads it back:
`JSON.stringify` writes a finite number as it is, and `null` for `null`, for
`NaN` and for the infinities. -/
def expiresField (now : Int) (expires : Option JSNumber) : JSValue :=
  match expiresExpr now expires with
  | some (JSNumber.finite n) => JSValue.num n
  | _ => JSValue.null

/-- The function `NISAStorage.set`, called at time `now`; `expires = none` stands
for an omitted or `null` third argument. -/
def set (store : Store) (now : Int) (key : String) (value : JSValue)
    (expires : Option JSNumber) : Store :=
  let item := JSValue.obj [("value", value), ("expires", expiresField now expires)]
  setItem store ("nisa_" ++ key) (StoredText.json item)

/-- The function `NISAStorage.remove`. -/
def remove (store : Store) (key : String) : Store :=
  removeItem store ("nisa_" ++ key)

/-- The function `NISAStorage.get`, called at time `now`: the returned value
(`some JSValue.null` for `null`, `none` for `undefined`) and the store after the
call. -/
def get (toNumber : JSValue → Option Int) (store : Store) (now : Int) (key : String) :
    Option JSValue × Store :=
  match getItem store ("nisa_" ++ key) with
  | none => (some JSValue.null, store)
  | some item =>
    if item.isEmpty then (some JSValue.null, store)
    else
      match item with
      | StoredText.raw _ => (some JSValue.null, store)
      | StoredText.json parsed =>
        match getProp parsed "expires" with
        | none => (some JSValue.null, store)
        | some expires =>
          if truthy expires && (match expires with
              | some e => greaterThan toNumber now e
              | none => false) then
            (some JSValue.null, remove store key)
          else
            match getProp parsed "value" with
            | none => (some JSValue.null, store)
            | some v => (v, store)

end NISAStorage

/-- Following the claim's words: the time of the most recent invoking call in a
trace of calls, each given by its time and returned value, and `init` when no
call of the trace invoked the function. -/
def NISAUtils.specLastInvoked {β : Type} (init : Int) (trace : List (Int × Option β)) : Int :=
  trace.foldl (fun last p => if p.2.isSome then p.1 else last) init

namespace NISAUtils

mutual
/-- Whether the objects inside a value have pairwise different keys, none of
them `__proto__`. -/
def plainKeys : JSValue → Bool
  | JSValue.arr items => plainKeysItems items
  | JSValue.obj props =>
    decide ((props.map Prod.fst).Nodup) && !(props.map Prod.fst).contains "__proto__"
      && plainKeysProps props
  | _ => true
/-- The items of an array all satisfy `plainKeys`. -/
def plainKeysItems : List JSValue → Bool
  | [] => true
  | item :: rest => plainKeys item && plainKeysItems rest
/-- The property values of an object all satisfy `plainKeys`. -/
def plainKeysProps : List (String × JSValue) → Bool
  | [] => true
  | (_, value) :: rest => plainKeys value && plainKeysProps rest
end

end NISAUtils

namespace NISAStorage

/-- The function `NISAStorage.clear`: every key of the store, in turn, is removed
when it starts with "nisa_". -/
def clear (store : Store) : Store :=
  let keys := store.map Prod.fst
  keys.foldl (fun st key => if jsStartsWith key "nisa_" then removeItem st key else st) store

end NISAStorage

/-! ## Registration form (`Login/js/register.js`) -/

namespace RegisterHandler

/-- The input elements of the registration form. -/
inductive Input where
  | stuIdInput
  | passwordInput
  | confirmPasswordInput
  deriving DecidableEq, Repr

/-- What `validateForm` acts on: the text of the error box and whether it is
displayed, and the input that has the focus. -/
structure State where
  errorText : String
  errorDisplayed : Bool
  focused : Option Input
  deriving DecidableEq, Repr

/-- The method `showError`, on the error box. -/
def showError (s : State) (message : String) : State :=
  { s with errorText := message, errorDisplayed := true }

/-- The method `focus` of an input element. -/
def focus (s : State) (input : Input) : State :=
  { s with focused := some input }

/-- The literal `/^\d+$/`. -/
def stuIdPattern : Regex :=
  { anchorStart := true, atoms := [{ cls := clsDigit, min := 1, max := none }],
    anchorEnd := true }

/-- The method `RegisterHandler.validateForm`: the returned boolean and the state
after the call. -/
def validateForm (s : State) (stuId password confirmPassword : String) : Bool × State :=
  if stuId = "" then
    (false, focus (showError s "请输入学号") Input.stuIdInput)
  else if !stuIdPattern.test stuId then
    (false, focus (showError s "学号格式不正确，请输入数字") Input.stuIdInput)
  else if password = "" then
    (false, focus (showError s "请输入密码") Input.passwordInput)
  else if jsLength password < 6 then
    (false, focus (showError s "密码长度至少为6位") Input.passwordInput)
  else if password = stuId then
    (false, focus (showError s "密码不能与学号相同") Input.passwordInput)
  else if confirmPassword = "" then
    (false, focus (showError s "请确认密码") Input.confirmPasswordInput)
  else if password ≠ confirmPassword then
    (false, focus (showError s "两次输入的密码不一致") Input.confirmPasswordInput)
  else
    (true, s)

end RegisterHandler

/-! ## Navigation bar (`Common/js/navigation.js`) -/

namespace NavigationBar

/-- The object `permissions` of the user information; `pages = none` stands for a
missing (or otherwise falsy) property. -/
structure Permissions where
  pages : Option (List String)
  deriving DecidableEq, Repr

/-- The user information kept in `currentUser`; a missing property is `none`. -/
structure User where
  role : Option String
  permissions : Option Permissions
  deriving DecidableEq, Repr

/-- An element of `allNavigationItems`. -/
structure NavItem where
  id : String
  label : String
  icon : String
  href : String
  requiredPage : String
  deriving DecidableEq, Repr

/-- An element of the array returned by `getNavigationConfig`. -/
structure NavEntry where
  id : String
  label : String
  icon : String
  href : String
  requiredPage : String
  visible : Bool
  deriving DecidableEq, Repr

/-- The constant `allNavigationItems` of `getNavigationConfig`. -/
def allNavigationItems : List NavItem :=
  [ { id := "info", label := "个人信息", icon := "fas fa-user", href := "/info",
      requiredPage := "info" },
    { id := "lottery", label := "抽奖", icon := "fas fa-gift", href := "/lottery",
      requiredPage := "lottery" },
    { id := "levelintroduction", label := "关卡查看", icon := "fas fa-trophy",
      href := "/levelintroduction", requiredPage := "levelintroduction" },
    { id := "modifypoints", label := "分发积分", icon := "fas fa-coins",
      href := "/modifypoints", requiredPage := "modifypoints" },
    { id := "membermanagement", label := "成员管理", icon := "fas fa-users-cog",
      href := "/admin/membermanagement", requiredPage := "membermanagement" },
    { id := "levelmanagement", label := "关卡管理", icon := "fas fa-tasks",
      href := "/admin/levelmanagement", requiredPage := "levelmanagement" },
    { id := "prizemanagement", label := "奖品管理", icon := "fas fa-trophy",
      href := "/admin/prizemanagement", requiredPage := "prizemanagement" } ]

/-- The expression `this.currentUser?.role || 'user'`. -/
def userRole (currentUser : Option User) : String :=
  match currentUser with
  | some { role := some r, .. } => if r = "" then "user" else r
  | _ => "user"

/-- The expression `this.currentUser?.permissions || {}`. -/
def userPermissions (currentUser : Option User) : Permissions :=
  match currentUser with
  | some { permissions := some p, .. } => p
  | _ => { pages := none }

/-- The expression `userPermissions.pages || []`. -/
def allowedPages (currentUser : Option User) : List String :=
  match (userPermissions currentUser).pages with
  | some pages => pages
  | none => []

/-- The method `NavigationBar.getNavigationConfig`, on the value of `currentUser`. -/
def getNavigationConfig (currentUser : Option User) : List NavEntry :=
  let _userRole := userRole currentUser
  let allowedPages := allowedPages currentUser
  allNavigationItems.map fun item =>
    let visible := allowedPages.contains item.requiredPage
    { id := item.id, label := item.label, icon := item.icon, href := item.href,
      requiredPage := item.requiredPage, visible := visible }

/-- The constant `visibleNavs` of `render`. -/
def visibleNavs (currentUser : Option User) : List NavEntry :=
  (getNavigationConfig currentUser).filter fun nav => nav.visible

end NavigationBar

/-! ## Probability summary of the prize page -/

namespace Prizes

/-- The JSON body of the probability-summary response; a field is `none` when
it is not a number. -/
structure SummaryBody where
  totalProbability : Option ParsedFloat
  thanksProbability : Option ParsedFloat
  deriving DecidableEq, Repr

/-- How the awaited `fetch` of the probability summary ends. -/
inductive SummaryOutcome where
  /-- The promise of `fetch` rejects. -/
  | networkError
  /-- A response with the given status; `body = none` when `response.json()` rejects. -/
  | http (status : Nat) (body : Option SummaryBody)
  deriving DecidableEq, Repr

/-- The numbers formatted with `toFixed(1)` into `#totalProbability` and
`#thanksProbability`; `none` before anything is written. -/
structure ProbabilityDisplay where
  totalProbability : Option ParsedFloat
  thanksProbability : Option ParsedFloat
  deriving DecidableEq, Repr

/-- The expression `parseFloat(prize.weight) || 0`. -/
def weightNum (prize : Prize) : ParsedFloat := prize.weight.orZero

/-- The `try` block of `updateProbabilityInfo`: `Except.error` when it throws,
with what it had written until then. -/
def updateProbabilityInfoTry (d : ProbabilityDisplay) :
    SummaryOutcome → Except ProbabilityDisplay ProbabilityDisplay
  | SummaryOutcome.networkError => Except.error d
  | SummaryOutcome.http status body =>
    if responseOk status then
      match body with
      | none => Except.error d
      | some data =>
        match data.totalProbability with
        | none => Except.error d
        | some total =>
          let d1 := { d with totalProbability := some total }
          match data.thanksProbability with
          | none => Except.error d1
          | some thanks => Except.ok { d1 with thanksProbability := some thanks }
    else Except.error d

/-- The variable `totalProbability` of the `catch` block of
`updateProbabilityInfo`, after the `if`. -/
def localTotalProbability (prizesData : List Prize) : ParsedFloat :=
  if prizesData.length > 0 then
    let filteredPrizes :=
      prizesData.filter fun prize => prize.isActive != some false && prize.isDefault != some true
    filteredPrizes.foldl (fun sum prize => sum.add (weightNum prize)) (ParsedFloat.finite 0)
  else ParsedFloat.finite 0

/-- The `catch` block of `updateProbabilityInfo`. -/
def updateProbabilityInfoCatch (prizesData : List Prize) (d : ProbabilityDisplay) :
    ProbabilityDisplay :=
  let totalProbability := localTotalProbability prizesData
  let d1 := { d with totalProbability := some totalProbability }
  let thanksProb :=
    ParsedFloat.max (ParsedFloat.finite 0) ((ParsedFloat.finite 100).sub totalProbability)
  { d1 with thanksProbability := some thanksProb }

/-- The function `updateProbabilityInfo`, on the loaded prizes, the two display
elements and the outcome of the request. -/
def updateProbabilityInfo (prizesData : List Prize) (d : ProbabilityDisplay)
    (r : SummaryOutcome) : ProbabilityDisplay :=
  match updateProbabilityInfoTry d r with
  | Except.ok d1 => d1
  | Except.error d1 => updateProbabilityInfoCatch prizesData d1

end Prizes

/-! ## Saving a prize (`savePrize` of the prize page) -/

namespace Prizes

/-- What `savePrize` reads from the form: `formData.get('Name')` (the empty
string also for a missing field), `parseInt(formData.get('total'))` (`none` for
`NaN`), `parseFloat(formData.get('weight'))` and `formData.get('photo')`. -/
structure PrizeForm where
  Name : String
  total : Option Int
  weight : ParsedFloat
  photo : Option String
  deriving DecidableEq, Repr

/-- The object `prizeData` of `savePrize`. -/
structure PrizeData where
  Name : String
  total : Int
  weight : ParsedFloat
  photo : Option String
  deriving DecidableEq, Repr

/-- The body passed to `JSON.stringify` for a request of `savePrize`. -/
inductive Body where
  /-- The object with `weight` and `excludeId`. -/
  | validate (weight : ParsedFloat) (excludeId : Option String)
  /-- The object `prizeData`. -/
  | prize (data : PrizeData)
  deriving DecidableEq, Repr

/-- What `savePrize` does to the page and the network, in order. -/
inductive Effect where
  | showMessage (message type : String)
  | fetch (method url : String) (body : Body)
  /-- The dialog of `confirm`, with the total it mentions. -/
  | confirm (totalProbability : ℚ)
  | closePrizeModal
  | loadPrizes
  | loadPrizesStats
  | updateProbabilityInfo
  deriving DecidableEq, Repr

/-- The JSON body of a successful validation response: `valid` by truthiness,
`message` as the template prints it, `totalProbability` (`none` when absent). -/
structure ValidationResult where
  valid : Bool
  message : String
  totalProbability : Option ℚ
  deriving DecidableEq, Repr

/-- How the awaited validation `fetch` ends. -/
inductive ValidationOutcome where
  /-- The promise of `fetch` rejects. -/
  | networkError
  /-- A response with the given status; `body = none` when `response.json()` rejects. -/
  | http (status : Nat) (body : Option ValidationResult)
  deriving DecidableEq, Repr

/-- How the awaited create or update `fetch` ends. -/
inductive SaveOutcome where
  /-- The promise of `fetch` rejects with an error of the given message. -/
  | networkError (message : String)
  /-- A response with the given status; for a failure status, `body` is the
  message of the error with which `response.json()` rejects, or the property
  `detail` of the parsed body (`none` when absent or empty). -/
  | http (status : Nat) (body : Except String (Option String))
  deriving Repr

/-- The object literal `prizeData` at the top of `savePrize`. -/
def prizeData (form : PrizeForm) : PrizeData :=
  { Name := form.Name
    total := form.total.getD 0
    weight := form.weight.orZero
    photo := form.photo }

/-- Whether `editingPrizeId` is truthy. -/
def isEditing (editingPrizeId : Option String) : Bool :=
  match editingPrizeId with
  | some id => id ≠ ""
  | none => false

/-- The second `try` statement of `savePrize`. -/
def savePrizeSend (editingPrizeId : Option String) (lotteryModalOpen : Bool)
    (data : PrizeData) (save : SaveOutcome) : List Effect :=
  let request :=
    if isEditing editingPrizeId then
      Effect.fetch "PUT" ("/api/admin/prizes/" ++ editingPrizeId.getD "") (Body.prize data)
    else
      Effect.fetch "POST" "/api/admin/prizes" (Body.prize data)
  request ::
    match save with
    | SaveOutcome.networkError message => [Effect.showMessage message "error"]
    | SaveOutcome.http status body =>
      if !responseOk status then
        match body with
        | Except.error message => [Effect.showMessage message "error"]
        | Except.ok detail => [Effect.showMessage (detail.getD "操作失败") "error"]
      else
        [Effect.showMessage
            (if isEditing editingPrizeId then "奖品信息更新成功" else "奖品添加成功") "success",
          Effect.closePrizeModal, Effect.loadPrizes, Effect.loadPrizesStats]
        ++ (if lotteryModalOpen then [Effect.updateProbabilityInfo] else [])

/-- The function `savePrize`: its effects in order, given the form, the variable
`editingPrizeId`, whether the lottery modal is displayed, and how the two
requests and the `confirm` dialog end when they are reached. -/
def savePrize (editingPrizeId : Option String) (lotteryModalOpen : Bool) (form : PrizeForm)
    (validation : ValidationOutcome) (confirmAnswer : Bool) (save : SaveOutcome) :
    List Effect :=
  let data := prizeData form
  if data.Name = "" then
    [Effect.showMessage "请填写奖品名称" "error"]
  else if data.weight.ltNum 0 || data.weight.gtNum 100 then
    [Effect.showMessage "中奖概率必须在0%到100%之间" "error"]
  else
    Effect.fetch "POST" "/api/admin/prizes/validate-probability"
        (Body.validate data.weight editingPrizeId) ::
      match validation with
      | ValidationOutcome.networkError =>
        [Effect.showMessage "概率验证失败，请稍后重试" "error"]
      | ValidationOutcome.http status body =>
        if !responseOk status then
          [Effect.showMessage "概率验证失败，请稍后重试" "error"]
        else
          match body with
          | none => [Effect.showMessage "概率验证失败，请稍后重试" "error"]
          | some validationResult =>
            if !validationResult.valid then
              [Effect.showMessage ("概率验证失败：" ++ validationResult.message) "error"]
            else
              match validationResult.totalProbability with
              | some totalProbability =>
                if totalProbability > 100 then
                  Effect.confirm totalProbability ::
                    (if !confirmAnswer then []
                     else savePrizeSend editingPrizeId lotteryModalOpen data save)
                else savePrizeSend editingPrizeId lotteryModalOpen data save
              | none => savePrizeSend editingPrizeId lotteryModalOpen data save

/-- Whether an effect is a call of `fetch`. -/
def Effect.isFetch : Effect → Bool
  | Effect.fetch _ _ _ => true
  | _ => false

end Prizes

/-! ## Modals of the level page and its keyboard handler -/

namespace Levels

/-- The variables `editingLevelId` and `deletingLevelId` of `levelmanagement.js`
with the modal nodes its close functions touch; a modal is `true` when its
`style.display` is "block" and `false` when it is "none". -/
structure Modals where
  editingLevelId : Option String
  deletingLevelId : Option String
  /-- Display of `#levelModal`. -/
  levelModal : Bool
  /-- Display of `#levelDetailModal`. -/
  levelDetailModal : Bool
  /-- Display of `#deleteModal`. -/
  deleteModal : Bool
  /-- Text of `#deleteMessage`. -/
  deleteMessage : String
  deriving DecidableEq, Repr

/-- The list state of the page together with its modals. -/
structure Page where
  list : State
  modals : Modals
  deriving Repr

def closeLevelModal (m : Modals) : Modals :=
  { m with levelModal := false, editingLevelId := none }

def closeLevelDetailModal (m : Modals) : Modals :=
  { m with levelDetailModal := false }

def deleteLevel (levelId levelName : String) (m : Modals) : Modals :=
  { m with
    deletingLevelId := some levelId
    deleteMessage := "确定要删除关卡 \"" ++ levelName ++ "\" 吗？此操作不可恢复！"
    deleteModal := true }

def closeDeleteModal (m : Modals) : Modals :=
  { m with deleteModal := false, deletingLevelId := none }

/-- What the identifier `closeParticipantsModal` is bound to when the handlers
run: the script calls it but declares no function of that name (the functions
for participants were removed), so there is no binding. -/
def closeParticipantsModal : Option (Modals → Modals) := none

/-- The fields of a keyboard event that the handler reads: `e.key` and
`e.target.id`. -/
structure KeyEvent where
  key : String
  targetId : String
  deriving DecidableEq, Repr

/-- The first `if` body of the `keydown` handler: the page when it ends, and the
error with which it ends if a call throws. -/
def keydownEscape (p : Page) : Page × Option String :=
  let p1 := { p with modals := closeLevelModal p.modals }
  let p2 := { p1 with modals := closeLevelDetailModal p1.modals }
  match closeParticipantsModal with
  | none => (p2, some "ReferenceError: closeParticipantsModal is not defined")
  | some f =>
    let p3 := { p2 with modals := f p2.modals }
    ({ p3 with modals := closeDeleteModal p3.modals }, none)

/-- The `keydown` handler of `levelmanagement.js`: the page after the handler
and the error it throws, if any. -/
def keydown (e : KeyEvent) (p : Page) : Page × Option String :=
  let r := if e.key = "Escape" then keydownEscape p else (p, none)
  match r.2 with
  | some error => (r.1, some error)
  | none =>
    if e.key = "Enter" && e.targetId = "searchInput" then
      ({ r.1 with list := searchLevels r.1.list }, none)
    else (r.1, none)

end Levels

/-! ## Pager: which buttons are shown -/

theorem pageLoop_succ (c t : Int) (n : Nat) (init : List PagerElem) :
    (List.range' 1 (n + 1)).foldl (fun html (i : Nat) => html ++ pageLoopBody c t (i : Int)) init
      = (List.range' 1 n).foldl (fun html (i : Nat) => html ++ pageLoopBody c t (i : Int)) init
        ++ pageLoopBody c t ((n : Int) + 1) := by
  rw [List.range'_concat, List.foldl_append]
  simp [Nat.add_comm]

theorem pageButtons_append (xs ys : List PagerElem) :
    pageButtons (xs ++ ys) = pageButtons xs ++ pageButtons ys := by
  induction xs with
  | nil => rfl
  | cons x xs ih => cases x <;> simp [pageButtons, ih]

theorem buttonSequence_append (xs ys : List PagerElem) :
    buttonSequence (xs ++ ys) = buttonSequence xs ++ buttonSequence ys := by
  induction xs with
  | nil => rfl
  | cons x xs ih => cases x <;> simp [buttonSequence, ih]

theorem pageButtons_pageLoopBody (c t i : Int) :
    pageButtons (pageLoopBody c t i)
      = if i = 1 ∨ i = t ∨ (c - 2 ≤ i ∧ i ≤ c + 2) then [i] else [] := by
  unfold pageLoopBody
  by_cases h : i = 1 ∨ i = t ∨ (i ≥ c - 2 ∧ i ≤ c + 2)
  · rw [if_pos h, if_pos h]; rfl
  · rw [if_neg h, if_neg h]
    by_cases h3 : i = c - 3 ∨ i = c + 3
    · rw [if_pos h3]; rfl
    · rw [if_neg h3]; rfl

/-- Page buttons after the first `n` iterations of the loop. -/
theorem pageButtons_loop_prefix (c t : Int) (init : List PagerElem)
    (hinit : pageButtons init = []) (n : Nat) :
    (∀ i : Int, i ∈ pageButtons ((List.range' 1 n).foldl
        (fun html (i : Nat) => html ++ pageLoopBody c t (i : Int)) init)
      ↔ (1 ≤ i ∧ i ≤ n ∧ (i = 1 ∨ i = t ∨ (c - 2 ≤ i ∧ i ≤ c + 2))))
    ∧ (pageButtons ((List.range' 1 n).foldl
        (fun html (i : Nat) => html ++ pageLoopBody c t (i : Int)) init)).Pairwise (· < ·) := by
  induction n with
  | zero =>
    simp only [List.range'_zero, List.foldl_nil, hinit]
    refine ⟨fun i => ?_, List.Pairwise.nil⟩
    constructor
    · intro h; cases h
    · rintro ⟨h1, h2, _⟩
      have : (i : Int) ≤ 0 := by exact_mod_cast h2
      omega
  | succ n ih =>
    obtain ⟨ihm, ihp⟩ := ih
    rw [pageLoop_succ, pageButtons_append, pageButtons_pageLoopBody]
    by_cases h : ((n : Int) + 1 = 1 ∨ (n : Int) + 1 = t ∨ (c - 2 ≤ (n : Int) + 1 ∧ (n : Int) + 1 ≤ c + 2))
    · rw [if_pos h]
      constructor
      · intro i
        rw [List.mem_append, ihm, List.mem_singleton]
        push_cast
        constructor
        · rintro (⟨h1, h2, h3⟩ | rfl)
          · exact ⟨h1, by omega, h3⟩
          · exact ⟨by omega, le_refl _, h⟩
        · rintro ⟨h1, h2, h3⟩
          by_cases he : i = (n : Int) + 1
          · exact Or.inr he
          · exact Or.inl ⟨h1, by omega, h3⟩
      · rw [List.pairwise_append]
        refine ⟨ihp, List.pairwise_singleton _ _, ?_⟩
        intro a ha b hb
        rw [List.mem_singleton] at hb
        have := (ihm a).mp ha
        omega
    · rw [if_neg h, List.append_nil]
      refine ⟨fun i => ?_, ihp⟩
      rw [ihm]
      push_cast
      constructor
      · rintro ⟨h1, h2, h3⟩
        exact ⟨h1, by omega, h3⟩
      · rintro ⟨h1, h2, h3⟩
        refine ⟨h1, ?_, h3⟩
        by_contra hlt
        have he : i = (n : Int) + 1 := by omega
        rw [he] at h3
        exact h h3

/-- Page buttons of the finished markup, for any current page and page count. -/
theorem pageButtons_paginationHTML (c t : Int) (ht : 0 ≤ t) :
    (∀ i : Int, i ∈ pageButtons (paginationHTML c t)
      ↔ (1 ≤ i ∧ i ≤ t ∧ (i = 1 ∨ i = t ∨ (c - 2 ≤ i ∧ i ≤ c + 2))))
    ∧ (pageButtons (paginationHTML c t)).Pairwise (· < ·) := by
  have h := pageButtons_loop_prefix c t [PagerElem.prev (c == 1) (c - 1)] rfl t.toNat
  have hcast : ((t.toNat : Nat) : Int) = t := Int.toNat_of_nonneg ht
  rw [hcast] at h
  have hb : pageButtons (paginationHTML c t)
      = pageButtons ((List.range' 1 t.toNat).foldl
        (fun html (i : Nat) => html ++ pageLoopBody c t (i : Int))
        [PagerElem.prev (c == 1) (c - 1)]) := by
    unfold paginationHTML pageLoop
    simp only [pageButtons_append]
    simp [pageButtons]
  rw [hb]
  exact h

theorem buttonSequence_pageLoopBody (c t i : Int) :
    buttonSequence (pageLoopBody c t i)
      = if i = 1 ∨ i = t ∨ (c - 2 ≤ i ∧ i ≤ c + 2) then [PageButton.page i]
        else if i = c - 3 ∨ i = c + 3 then [PageButton.ellipsis] else [] := by
  unfold pageLoopBody
  by_cases h : i = 1 ∨ i = t ∨ (i ≥ c - 2 ∧ i ≤ c + 2)
  · rw [if_pos h, if_pos h]; rfl
  · rw [if_neg h, if_neg h]
    by_cases h3 : i = c - 3 ∨ i = c + 3
    · rw [if_pos h3, if_pos h3]; rfl
    · rw [if_neg h3, if_neg h3]; rfl

theorem specGapMarkers_concat (last : Int) (xs : List Int) (b : Int) :
    specGapMarkers last (xs ++ [b])
      = specGapMarkers last xs
        ++ (if b - (xs.getLast?.getD last) > 1 then [PageButton.ellipsis, PageButton.page b]
            else [PageButton.page b]) := by
  induction xs generalizing last with
  | nil => simp [specGapMarkers]
  | cons x xs ih =>
    rw [List.cons_append]
    simp only [specGapMarkers]
    rw [ih, List.getLast?_cons, Option.getD_some, List.append_assoc]

theorem specCollapseGaps_concat (xs : List Int) (l b : Int) (hl : xs.getLast? = some l) :
    specCollapseGaps (xs ++ [b])
      = specCollapseGaps xs
        ++ (if b - l > 1 then [PageButton.ellipsis, PageButton.page b]
            else [PageButton.page b]) := by
  cases xs with
  | nil => simp at hl
  | cons a rest =>
    rw [List.getLast?_cons] at hl
    have hla : rest.getLast?.getD a = l := by simpa using hl
    rw [List.cons_append]
    simp only [specCollapseGaps]
    rw [specGapMarkers_concat, hla, List.cons_append]

/-- Button sequence after the first `n ≥ 1` iterations of the loop, for a current
page inside `[1, t]`: the collapsed pages so far, the last page shown, and a
trailing marker exactly when one was appended after that page. -/
theorem buttonSequence_loop_prefix (c t : Int) (h1 : 1 ≤ c) (hc : c ≤ t)
    (init : List PagerElem) (hseq : buttonSequence init = []) (hpages : pageButtons init = [])
    (n : Nat) (hn1 : 1 ≤ n) (hnt : (n : Int) ≤ t) :
    ∃ l : Int,
      (pageButtons ((List.range' 1 n).foldl
        (fun html (i : Nat) => html ++ pageLoopBody c t (i : Int)) init)).getLast? = some l
      ∧ (((n : Int) < c - 2 ∧ l = 1) ∨ (c - 2 ≤ (n : Int) ∧ (n : Int) ≤ c + 2 ∧ l = n)
          ∨ (c + 3 ≤ (n : Int) ∧ (n : Int) < t ∧ l = c + 2) ∨ ((n : Int) = t ∧ l = t))
      ∧ buttonSequence ((List.range' 1 n).foldl
          (fun html (i : Nat) => html ++ pageLoopBody c t (i : Int)) init)
        = specCollapseGaps (pageButtons ((List.range' 1 n).foldl
            (fun html (i : Nat) => html ++ pageLoopBody c t (i : Int)) init))
          ++ (if ((n : Int) = c - 3 ∧ 4 < c) ∨ (c + 3 ≤ (n : Int) ∧ (n : Int) < t)
              then [PageButton.ellipsis] else []) := by
  induction n, hn1 using Nat.le_induction with
  | base =>
    have h0 : (List.range' 1 1).foldl
        (fun html (i : Nat) => html ++ pageLoopBody c t (i : Int)) init
          = init ++ pageLoopBody c t 1 := by
      simp [List.range']
    have hb : pageLoopBody c t 1 = [PagerElem.page ((1 : Int) == c) 1] := by
      unfold pageLoopBody; simp
    rw [h0, hb, pageButtons_append, buttonSequence_append, hseq, hpages]
    refine ⟨1, by simp [pageButtons], ?_, ?_⟩
    · simp only [Nat.cast_one]
      rcases le_or_lt c 3 with h | h
      · exact Or.inr (Or.inl ⟨by omega, by omega, trivial⟩)
      · exact Or.inl ⟨by omega, trivial⟩
    · have hp : ¬ ((((1 : Nat) : Int) = c - 3 ∧ 4 < c) ∨ (c + 3 ≤ ((1 : Nat) : Int) ∧ ((1 : Nat) : Int) < t)) := by
        simp only [Nat.cast_one]; omega
      rw [if_neg hp]
      simp [pageButtons, buttonSequence, specCollapseGaps, specGapMarkers]
  | succ n hn1 ih =>
    have hn1' : (1 : Int) ≤ (n : Int) := by exact_mod_cast hn1
    have hnt' : (n : Int) + 1 ≤ t := by exact_mod_cast hnt
    obtain ⟨l, hl, hL, hS⟩ := ih (by omega)
    rw [pageLoop_succ, pageButtons_append, buttonSequence_append, pageButtons_pageLoopBody,
      buttonSequence_pageLoopBody, hS]
    push_cast
    by_cases hbtn : ((n : Int) + 1 = 1 ∨ (n : Int) + 1 = t ∨ (c - 2 ≤ (n : Int) + 1 ∧ (n : Int) + 1 ≤ c + 2))
    · rw [if_pos hbtn, if_pos hbtn]
      refine ⟨(n : Int) + 1, by simp, by omega, ?_⟩
      rw [specCollapseGaps_concat _ l _ hl]
      have hp' : ¬ (((n : Int) + 1 = c - 3 ∧ 4 < c) ∨ (c + 3 ≤ (n : Int) + 1 ∧ (n : Int) + 1 < t)) := by
        omega
      rw [if_neg hp', List.append_nil, List.append_assoc]
      congr 1
      by_cases hp : ((n : Int) = c - 3 ∧ 4 < c) ∨ (c + 3 ≤ (n : Int) ∧ (n : Int) < t)
      · have hgap : (n : Int) + 1 - l > 1 := by omega
        rw [if_pos hp, if_pos hgap]; rfl
      · have hgap : ¬ ((n : Int) + 1 - l > 1) := by omega
        rw [if_neg hp, if_neg hgap]; rfl
    · rw [if_neg hbtn, if_neg hbtn, List.append_nil]
      by_cases h3 : (n : Int) + 1 = c - 3 ∨ (n : Int) + 1 = c + 3
      · rw [if_pos h3]
        refine ⟨l, hl, by omega, ?_⟩
        have hp : ¬ (((n : Int) = c - 3 ∧ 4 < c) ∨ (c + 3 ≤ (n : Int) ∧ (n : Int) < t)) := by omega
        have hp' : ((n : Int) + 1 = c - 3 ∧ 4 < c) ∨ (c + 3 ≤ (n : Int) + 1 ∧ (n : Int) + 1 < t) := by
          omega
        rw [if_neg hp, if_pos hp', List.append_nil]
      · rw [if_neg h3, List.append_nil]
        refine ⟨l, hl, by omega, ?_⟩
        by_cases hp : ((n : Int) = c - 3 ∧ 4 < c) ∨ (c + 3 ≤ (n : Int) ∧ (n : Int) < t)
        · have hp' : ((n : Int) + 1 = c - 3 ∧ 4 < c) ∨ (c + 3 ≤ (n : Int) + 1 ∧ (n : Int) + 1 < t) := by
            omega
          rw [if_pos hp, if_pos hp']
        · have hp' : ¬ (((n : Int) + 1 = c - 3 ∧ 4 < c) ∨ (c + 3 ≤ (n : Int) + 1 ∧ (n : Int) + 1 < t)) := by
            omega
          rw [if_neg hp, if_neg hp']

/-- The markup written by any of the three `renderPagination` functions. -/
theorem IsRenderedPager.eq {current total pageSize : Int} {html : List PagerElem}
    (h : IsRenderedPager current total pageSize html) :
    html = if mathCeilDiv total pageSize ≤ 1 then []
      else paginationHTML current (mathCeilDiv total pageSize) := by
  rcases h with ⟨s, rfl, rfl, rfl, rfl⟩ | ⟨s, rfl, rfl, rfl, rfl⟩ | ⟨s, rfl, rfl, rfl, rfl⟩
  · unfold Members.renderPagination
    by_cases hle : mathCeilDiv s.totalMembers s.pageSize ≤ 1 <;> simp [hle]
  · unfold Levels.renderPagination
    by_cases hle : mathCeilDiv s.totalLevels s.pageSize ≤ 1 <;> simp [hle]
  · unfold Prizes.renderPagination
    by_cases hle : mathCeilDiv s.totalPrizes s.pageSize ≤ 1 <;> simp [hle]

theorem IsRenderedPager.eq_of_two_le {current total pageSize : Int} {html : List PagerElem}
    (h : IsRenderedPager current total pageSize html)
    (h2 : 2 ≤ mathCeilDiv total pageSize) :
    html = paginationHTML current (mathCeilDiv total pageSize) := by
  rw [h.eq, if_neg (by omega)]

/-- Button sequence of the finished markup for a current page inside `[1, t]`. -/
theorem buttonSequence_paginationHTML (c t : Int) (h1 : 1 ≤ c) (hc : c ≤ t) :
    buttonSequence (paginationHTML c t) = specCollapseGaps (pageButtons (paginationHTML c t)) := by
  have ht : 0 ≤ t := by omega
  have hcast : ((t.toNat : Nat) : Int) = t := Int.toNat_of_nonneg ht
  have hn1 : 1 ≤ t.toNat := by
    have : (1 : Int) ≤ (t.toNat : Int) := by rw [hcast]; omega
    exact_mod_cast this
  obtain ⟨l, _, _, hS⟩ := buttonSequence_loop_prefix c t h1 hc
    [PagerElem.prev (c == 1) (c - 1)] rfl rfl t.toNat hn1 (by rw [hcast])
  rw [hcast] at hS
  have hp : ¬ ((t = c - 3 ∧ 4 < c) ∨ (c + 3 ≤ t ∧ t < t)) := by omega
  rw [if_neg hp, List.append_nil] at hS
  unfold paginationHTML pageLoop
  simp only [pageButtons_append, buttonSequence_append]
  simpa [pageButtons, buttonSequence] using hS

theorem mathCeilDiv_le_iff (a b n : Int) (hb : 0 < b) : mathCeilDiv a b ≤ n ↔ a ≤ n * b := by
  unfold mathCeilDiv
  rw [Int.fdiv_eq_ediv _ (le_of_lt hb)]
  have key : -n ≤ (-a) / b ↔ -n * b ≤ -a := Int.le_ediv_iff_mul_le hb
  rw [neg_mul] at key
  constructor
  · intro h
    have := key.mp (by omega)
    omega
  · intro h
    have := key.mpr (by omega)
    omega

theorem mathCeilDiv_eq_ceil (a b : Int) (hb : 0 < b) :
    mathCeilDiv a b = ⌈(a : ℚ) / (b : ℚ)⌉ := by
  have hbq : (0 : ℚ) < (b : ℚ) := by exact_mod_cast hb
  apply le_antisymm
  · rw [mathCeilDiv_le_iff a b _ hb]
    have h := Int.le_ceil ((a : ℚ) / (b : ℚ))
    rw [div_le_iff₀ hbq] at h
    exact_mod_cast h
  · rw [Int.ceil_le, div_le_iff₀ hbq]
    have h := (mathCeilDiv_le_iff a b (mathCeilDiv a b) hb).mp (le_refl _)
    exact_mod_cast h

/-! ## Claims about the pager -/

/-- C1: for a page count of at least 2 and a current page inside `[1, totalPages]`,
the page-number buttons written by `renderPagination` on the member, level and
prize pages are strictly increasing, hence without repetition, and are exactly
the pages `i` of `[1, totalPages]` with `i = 1`, `i = totalPages` or
`current - 2 ≤ i ≤ current + 2`. -/
theorem renderPagination_pageButtons (current total pageSize totalPages : Int)
    (html : List PagerElem) (hhtml : IsRenderedPager current total pageSize html)
    (htp : mathCeilDiv total pageSize = totalPages) (h2 : 2 ≤ totalPages)
    (h1 : 1 ≤ current) (hc : current ≤ totalPages) :
    (pageButtons html).Pairwise (· < ·) ∧ (pageButtons html).Nodup
    ∧ ∀ i : Int, i ∈ pageButtons html
        ↔ (1 ≤ i ∧ i ≤ totalPages
            ∧ (i = 1 ∨ i = totalPages ∨ (current - 2 ≤ i ∧ i ≤ current + 2))) := by
  subst htp
  rw [hhtml.eq_of_two_le h2]
  obtain ⟨hmem, hpw⟩ :=
    pageButtons_paginationHTML current (mathCeilDiv total pageSize) (by omega)
  exact ⟨hpw, hpw.imp (fun h => ne_of_lt h), hmem⟩

/-- Instance of C1 on the member page: 95 members, 10 per page, current page 5. -/
theorem renderPagination_pageButtons_witness :
    ((2 : Int) ≤ 10 ∧ (1 : Int) ≤ 5 ∧ (5 : Int) ≤ 10)
    ∧ ((pageButtons (Members.renderPagination
          { Members.init with totalMembers := 95, currentPage := 5 }).pagination).Pairwise (· < ·)
      ∧ (pageButtons (Members.renderPagination
          { Members.init with totalMembers := 95, currentPage := 5 }).pagination).Nodup
      ∧ ∀ i : Int, i ∈ pageButtons (Members.renderPagination
          { Members.init with totalMembers := 95, currentPage := 5 }).pagination
        ↔ (1 ≤ i ∧ i ≤ 10 ∧ (i = 1 ∨ i = 10 ∨ (5 - 2 ≤ i ∧ i ≤ 5 + 2)))) :=
  ⟨by decide,
   renderPagination_pageButtons 5 95 10 10 _
    (Or.inl ⟨{ Members.init with totalMembers := 95, currentPage := 5 }, rfl, rfl, rfl, rfl⟩)
    (by decide) (by decide) (by decide) (by decide)⟩

/-- C2: for a page count of at least 2 and a current page inside `[1, totalPages]`,
the button sequence written by `renderPagination` is its page buttons with one
ellipsis marker between two consecutive buttons exactly when their numbers
differ by more than 1; for current page 5 of 10 it is
`[1, ellipsis, 3, 4, 5, 6, 7, ellipsis, 10]`. -/
theorem renderPagination_buttonSequence (current total pageSize totalPages : Int)
    (html : List PagerElem) (hhtml : IsRenderedPager current total pageSize html)
    (htp : mathCeilDiv total pageSize = totalPages) (h2 : 2 ≤ totalPages)
    (h1 : 1 ≤ current) (hc : current ≤ totalPages) :
    buttonSequence html = specCollapseGaps (pageButtons html)
    ∧ (current = 5 → totalPages = 10 →
        buttonSequence html
          = [PageButton.page 1, PageButton.ellipsis, PageButton.page 3, PageButton.page 4,
             PageButton.page 5, PageButton.page 6, PageButton.page 7, PageButton.ellipsis,
             PageButton.page 10]) := by
  subst htp
  rw [hhtml.eq_of_two_le h2]
  refine ⟨buttonSequence_paginationHTML current _ h1 hc, ?_⟩
  intro h5 h10
  rw [h5, h10]
  decide

/-- Instance of C2 on the level page: 95 levels, 10 per page, current page 5. -/
theorem renderPagination_buttonSequence_witness :
    ((2 : Int) ≤ 10 ∧ (1 : Int) ≤ 5 ∧ (5 : Int) ≤ 10)
    ∧ buttonSequence (Levels.renderPagination
          { Levels.init with totalLevels := 95, currentPage := 5 }).pagination
        = [PageButton.page 1, PageButton.ellipsis, PageButton.page 3, PageButton.page 4,
           PageButton.page 5, PageButton.page 6, PageButton.page 7, PageButton.ellipsis,
           PageButton.page 10] :=
  ⟨by decide,
   (renderPagination_buttonSequence 5 95 10 10 _
    (Or.inr (Or.inl
      ⟨{ Levels.init with totalLevels := 95, currentPage := 5 }, rfl, rfl, rfl, rfl⟩))
    (by decide) (by decide) (by decide) (by decide)).2 rfl rfl⟩

/-- C3 as stated fails for a single page: with 5 members and 10 per page the page
count is 1, the current page 1 is in range, and `renderPagination` writes no
page button at all. -/
theorem renderPagination_single_page_counterexample :
    ((0 : Int) ≤ 5 ∧ (0 : Int) < 10 ∧ 1 ≤ mathCeilDiv 5 10
      ∧ (1 : Int) ≤ 1 ∧ 1 ≤ mathCeilDiv 5 10)
    ∧ (1 : Int) ∉ pageButtons (Members.renderPagination
          { Members.init with totalMembers := 5, currentPage := 1 }).pagination := by
  decide

/-- C3, amended: for `total ≥ 0` and `pageSize > 0` with a page count of at least 2
and a current page inside `[1, pageCount]`, the page buttons written by
`renderPagination` include page 1 and page `pageCount`; with a page count of at
most 1 the pager is emptied. -/
theorem renderPagination_first_last (current total pageSize : Int)
    (html : List PagerElem) (hhtml : IsRenderedPager current total pageSize html)
    (ht : 0 ≤ total) (hp : 0 < pageSize) :
    (2 ≤ mathCeilDiv total pageSize → 1 ≤ current → current ≤ mathCeilDiv total pageSize →
      (1 : Int) ∈ pageButtons html ∧ mathCeilDiv total pageSize ∈ pageButtons html)
    ∧ (mathCeilDiv total pageSize ≤ 1 → html = []) := by
  constructor
  · intro h2 _ _
    rw [hhtml.eq_of_two_le h2]
    obtain ⟨hmem, _⟩ :=
      pageButtons_paginationHTML current (mathCeilDiv total pageSize) (by omega)
    exact ⟨(hmem 1).mpr ⟨le_refl _, by omega, Or.inl rfl⟩,
      (hmem _).mpr ⟨by omega, le_refl _, Or.inr (Or.inl rfl)⟩⟩
  · intro hle
    rw [hhtml.eq, if_pos hle]

/-- Instance of amended C3 on the prize page: 95 prizes, 10 per page, current page 10. -/
theorem renderPagination_first_last_witness :
    ((0 : Int) ≤ 95 ∧ (0 : Int) < 10 ∧ 2 ≤ mathCeilDiv 95 10
      ∧ (1 : Int) ≤ 10 ∧ 10 ≤ mathCeilDiv 95 10)
    ∧ ((1 : Int) ∈ pageButtons (Prizes.renderPagination
          { Prizes.init with totalPrizes := 95, currentPage := 10 }).pagination
      ∧ mathCeilDiv 95 10 ∈ pageButtons (Prizes.renderPagination
          { Prizes.init with totalPrizes := 95, currentPage := 10 }).pagination) :=
  ⟨by decide,
   (renderPagination_first_last 10 95 10 _
    (Or.inr (Or.inr
      ⟨{ Prizes.init with totalPrizes := 95, currentPage := 10 }, rfl, rfl, rfl, rfl⟩))
    (by decide) (by decide)).1 (by decide) (by decide) (by decide)⟩

/-! ## Claims about the page count and `changePage` -/

theorem Members.changePage_eq_self_iff (n : Int) (s : Members.State) :
    Members.changePage n s = s ↔ (n < 1 ∨ n > mathCeilDiv s.totalMembers s.pageSize) := by
  unfold Members.changePage
  by_cases h : n < 1 ∨ n > mathCeilDiv s.totalMembers s.pageSize
  · simp [h]
  · rw [if_neg h]
    refine iff_of_false (fun heq => ?_) h
    have hlen := congrArg (fun st : Members.State => st.fetches.length) heq
    simp [Members.loadMembersIssue, Members.showLoading] at hlen

/-- C4: for `total ≥ 0` and `pageSize > 0` the page count of `renderPagination` and
the upper bound of `changePage` are both `ceil(total / pageSize)`, the least
`n ≥ 0` with `n * pageSize ≥ total`; for 95 records at 10 per page it is 10. -/
theorem pageCount_eq_ceil (total pageSize : Int) (ht : 0 ≤ total) (hp : 0 < pageSize) :
    mathCeilDiv total pageSize = ⌈(total : ℚ) / (pageSize : ℚ)⌉
    ∧ (0 ≤ mathCeilDiv total pageSize ∧ total ≤ mathCeilDiv total pageSize * pageSize
        ∧ ∀ n : Int, 0 ≤ n → total ≤ n * pageSize → mathCeilDiv total pageSize ≤ n)
    ∧ (∀ s : Members.State, s.totalMembers = total → s.pageSize = pageSize →
        (Members.renderPagination s).pagination
            = (if ⌈(total : ℚ) / (pageSize : ℚ)⌉ ≤ 1 then []
               else paginationHTML s.currentPage ⌈(total : ℚ) / (pageSize : ℚ)⌉)
          ∧ ∀ n : Int, Members.changePage n s = s
              ↔ (n < 1 ∨ n > ⌈(total : ℚ) / (pageSize : ℚ)⌉))
    ∧ (total = 95 → pageSize = 10 → mathCeilDiv total pageSize = 10) := by
  refine ⟨mathCeilDiv_eq_ceil total pageSize hp, ⟨?_, ?_, ?_⟩, ?_, ?_⟩
  · by_contra hneg
    have hle : mathCeilDiv total pageSize ≤ -1 := by omega
    rw [mathCeilDiv_le_iff _ _ _ hp] at hle
    omega
  · exact (mathCeilDiv_le_iff total pageSize _ hp).mp (le_refl _)
  · intro n _ hn
    exact (mathCeilDiv_le_iff total pageSize n hp).mpr hn
  · intro s hst hsp
    rw [← mathCeilDiv_eq_ceil total pageSize hp]
    constructor
    · have h : IsRenderedPager s.currentPage total pageSize
          (Members.renderPagination s).pagination := Or.inl ⟨s, rfl, hst, hsp, rfl⟩
      exact h.eq
    · intro n
      rw [Members.changePage_eq_self_iff, hst, hsp]
  · intro h95 h10
    rw [h95, h10]
    decide

/-- Instance of C4: 95 records at 10 per page give 10 pages. -/
theorem pageCount_eq_ceil_witness :
    ((0 : Int) ≤ 95 ∧ (0 : Int) < 10)
    ∧ mathCeilDiv 95 10 = ⌈((95 : Int) : ℚ) / ((10 : Int) : ℚ)⌉ ∧ mathCeilDiv 95 10 = 10 :=
  ⟨by decide, (pageCount_eq_ceil 95 10 (by decide) (by decide)).1,
   (pageCount_eq_ceil 95 10 (by decide) (by decide)).2.2.2 rfl rfl⟩

/-- C5: `changePage(n)` with `n < 1` or `n > ceil(total / pageSize)`, in particular
`n = 0` and `n = pageCount + 1`, returns at once on the member, level and prize
pages: the whole state (current page, page size, search, filter, loaded
records, total, and the list of issued fetches) is the one before the call. -/
theorem changePage_out_of_range (n : Int) :
    (∀ s : Members.State, 0 < s.pageSize →
      ((n < 1 ∨ n > mathCeilDiv s.totalMembers s.pageSize) → Members.changePage n s = s)
      ∧ Members.changePage 0 s = s
      ∧ Members.changePage (mathCeilDiv s.totalMembers s.pageSize + 1) s = s)
    ∧ (∀ s : Levels.State, 0 < s.pageSize →
      ((n < 1 ∨ n > mathCeilDiv s.totalLevels s.pageSize) → Levels.changePage n s = s)
      ∧ Levels.changePage 0 s = s
      ∧ Levels.changePage (mathCeilDiv s.totalLevels s.pageSize + 1) s = s)
    ∧ (∀ s : Prizes.State, 0 < s.pageSize →
      ((n < 1 ∨ n > mathCeilDiv s.totalPrizes s.pageSize) → Prizes.changePage n s = s)
      ∧ Prizes.changePage 0 s = s
      ∧ Prizes.changePage (mathCeilDiv s.totalPrizes s.pageSize + 1) s = s) := by
  refine ⟨fun s _ => ⟨fun h => ?_, ?_, ?_⟩, fun s _ => ⟨fun h => ?_, ?_, ?_⟩,
    fun s _ => ⟨fun h => ?_, ?_, ?_⟩⟩
  · unfold Members.changePage; rw [if_pos h]
  · unfold Members.changePage; rw [if_pos (Or.inl (by decide))]
  · unfold Members.changePage; rw [if_pos (Or.inr (by omega))]
  · unfold Levels.changePage; rw [if_pos h]
  · unfold Levels.changePage; rw [if_pos (Or.inl (by decide))]
  · unfold Levels.changePage; rw [if_pos (Or.inr (by omega))]
  · unfold Prizes.changePage; rw [if_pos h]
  · unfold Prizes.changePage; rw [if_pos (Or.inl (by decide))]
  · unfold Prizes.changePage; rw [if_pos (Or.inr (by omega))]

/-- Instance of C5 on the member page: with 95 members at 10 per page,
`changePage(11)` changes nothing. -/
theorem changePage_out_of_range_witness :
    ((0 : Int) < 10 ∧ (11 : Int) > mathCeilDiv 95 10)
    ∧ Members.changePage 11 { Members.init with totalMembers := 95, currentPage := 5 }
        = { Members.init with totalMembers := 95, currentPage := 5 } :=
  ⟨by decide,
   ((changePage_out_of_range 11).1
      { Members.init with totalMembers := 95, currentPage := 5 } (by decide)).1
    (Or.inr (by decide))⟩

theorem Members.changePage_in_range_members (p : Int) (s : Members.State)
    (h1 : 1 ≤ p) (hp : p ≤ mathCeilDiv s.totalMembers s.pageSize) :
    Members.changePage p s = Members.loadMembersIssue { s with currentPage := p } := by
  unfold Members.changePage
  rw [if_neg (by omega)]

theorem Levels.changePage_in_range_levels (p : Int) (s : Levels.State)
    (h1 : 1 ≤ p) (hp : p ≤ mathCeilDiv s.totalLevels s.pageSize) :
    Levels.changePage p s = Levels.loadLevelsIssue { s with currentPage := p } := by
  unfold Levels.changePage
  rw [if_neg (by omega)]

theorem Prizes.changePage_in_range_prizes (p : Int) (s : Prizes.State)
    (h1 : 1 ≤ p) (hp : p ≤ mathCeilDiv s.totalPrizes s.pageSize) :
    Prizes.changePage p s = Prizes.loadPrizesIssue { s with currentPage := p } := by
  unfold Prizes.changePage
  rw [if_neg (by omega)]

/-- C6 as stated fails: on the member page with 95 members at 10 per page and
current page 5, `changePage(5)` issues a fetch, and two calls in a row issue two. -/
theorem changePage_current_counterexample :
    ((1 : Int) ≤ 5 ∧ 5 ≤ mathCeilDiv 95 10
      ∧ ({ Members.init with totalMembers := 95, currentPage := 5 } : Members.State).currentPage = 5)
    ∧ (Members.changePage 5 { Members.init with totalMembers := 95, currentPage := 5 }).fetches
        = [{ url := "/api/admin/members", params := [("page", "5"), ("limit", "10")] }]
    ∧ (Members.changePage 5
        (Members.changePage 5 { Members.init with totalMembers := 95, currentPage := 5 })).fetches
        = [{ url := "/api/admin/members", params := [("page", "5"), ("limit", "10")] },
           { url := "/api/admin/members", params := [("page", "5"), ("limit", "10")] }] := by
  decide

/-- C6, amended: for every in-range page `p`, `changePage(p)` sets the current page
to `p`, leaves page size, search and filter as they are and issues one fetch for
page `p`, also when `p` is already the current page; two calls in a row issue
two fetches with the same request. -/
theorem changePage_in_range_fetches (p : Int) :
    (∀ s : Members.State, 0 < s.pageSize → 1 ≤ p →
      p ≤ mathCeilDiv s.totalMembers s.pageSize →
      Members.queryState (Members.changePage p s)
          = (p, s.pageSize, s.currentSearch, s.currentFilter)
      ∧ (Members.changePage p s).fetches
          = s.fetches ++ [{ url := "/api/admin/members",
                            params := Members.listParams { s with currentPage := p } }]
      ∧ (Members.changePage p (Members.changePage p s)).fetches
          = s.fetches ++ [{ url := "/api/admin/members",
                            params := Members.listParams { s with currentPage := p } },
                          { url := "/api/admin/members",
                            params := Members.listParams { s with currentPage := p } }])
    ∧ (∀ s : Levels.State, 0 < s.pageSize → 1 ≤ p →
      p ≤ mathCeilDiv s.totalLevels s.pageSize →
      Levels.queryState (Levels.changePage p s)
          = (p, s.pageSize, s.currentSearch, s.currentFilter)
      ∧ (Levels.changePage p s).fetches
          = s.fetches ++ [{ url := "/api/admin/levels",
                            params := Levels.listParams { s with currentPage := p } }]
      ∧ (Levels.changePage p (Levels.changePage p s)).fetches
          = s.fetches ++ [{ url := "/api/admin/levels",
                            params := Levels.listParams { s with currentPage := p } },
                          { url := "/api/admin/levels",
                            params := Levels.listParams { s with currentPage := p } }])
    ∧ (∀ s : Prizes.State, 0 < s.pageSize → 1 ≤ p →
      p ≤ mathCeilDiv s.totalPrizes s.pageSize →
      Prizes.queryState (Prizes.changePage p s)
          = (p, s.pageSize, s.currentSearch, s.currentFilter)
      ∧ (Prizes.changePage p s).fetches
          = s.fetches ++ [{ url := "/api/admin/prizes",
                            params := Prizes.listParams { s with currentPage := p } }]
      ∧ (Prizes.changePage p (Prizes.changePage p s)).fetches
          = s.fetches ++ [{ url := "/api/admin/prizes",
                            params := Prizes.listParams { s with currentPage := p } },
                          { url := "/api/admin/prizes",
                            params := Prizes.listParams { s with currentPage := p } }]) := by
  refine ⟨fun s _ h1 hp => ?_, fun s _ h1 hp => ?_, fun s _ h1 hp => ?_⟩
  · have e1 := Members.changePage_in_range_members p s h1 hp
    have e2 := Members.changePage_in_range_members p (Members.changePage p s) h1
      (by rw [e1]; exact hp)
    refine ⟨by rw [e1]; rfl, by rw [e1]; rfl, ?_⟩
    rw [e2, e1]
    simp [Members.loadMembersIssue, Members.showLoading, Members.listParams]
  · have e1 := Levels.changePage_in_range_levels p s h1 hp
    have e2 := Levels.changePage_in_range_levels p (Levels.changePage p s) h1
      (by rw [e1]; exact hp)
    refine ⟨by rw [e1]; rfl, by rw [e1]; rfl, ?_⟩
    rw [e2, e1]
    simp [Levels.loadLevelsIssue, Levels.showLoading, Levels.listParams]
  · have e1 := Prizes.changePage_in_range_prizes p s h1 hp
    have e2 := Prizes.changePage_in_range_prizes p (Prizes.changePage p s) h1
      (by rw [e1]; exact hp)
    refine ⟨by rw [e1]; rfl, by rw [e1]; rfl, ?_⟩
    rw [e2, e1]
    simp [Prizes.loadPrizesIssue, Prizes.showLoading, Prizes.listParams]

/-- Instance of amended C6 on the member page: page 5 of 10 requested twice while
it is the current page. -/
theorem changePage_in_range_fetches_witness :
    ((0 : Int) < 10 ∧ (1 : Int) ≤ 5 ∧ 5 ≤ mathCeilDiv 95 10)
    ∧ (Members.changePage 5
        (Members.changePage 5 { Members.init with totalMembers := 95, currentPage := 5 })).fetches
      = [] ++ [{ url := "/api/admin/members", params := [("page", "5"), ("limit", "10")] },
               { url := "/api/admin/members", params := [("page", "5"), ("limit", "10")] }] :=
  ⟨by decide,
   ((changePage_in_range_fetches 5).1
      { Members.init with totalMembers := 95, currentPage := 5 }
      (by decide) (by decide) (by decide)).2.2⟩

/-! ## Claims about search, filter and the page invariant -/

theorem Members.lookup_listParams_members (s : Members.State) :
    List.lookup "page" (Members.listParams s) = some (toString s.currentPage)
    ∧ List.lookup "limit" (Members.listParams s) = some (toString s.pageSize)
    ∧ List.lookup "search" (Members.listParams s)
        = if s.currentSearch ≠ "" then some s.currentSearch else none := by
  unfold Members.listParams
  by_cases hf : s.currentFilter ≠ "all" <;> by_cases hq : s.currentSearch ≠ "" <;>
    simp [hf, hq, List.lookup]

theorem Levels.lookup_listParams_levels (s : Levels.State) :
    List.lookup "page" (Levels.listParams s) = some (toString s.currentPage)
    ∧ List.lookup "limit" (Levels.listParams s) = some (toString s.pageSize)
    ∧ List.lookup "search" (Levels.listParams s)
        = if s.currentSearch ≠ "" then some s.currentSearch else none := by
  unfold Levels.listParams
  by_cases hf : s.currentFilter ≠ "all" <;> by_cases hq : s.currentSearch ≠ "" <;>
    simp [hf, hq, List.lookup]

theorem Prizes.lookup_listParams_prizes (s : Prizes.State) :
    List.lookup "page" (Prizes.listParams s) = some (toString s.currentPage)
    ∧ List.lookup "limit" (Prizes.listParams s) = some (toString s.pageSize)
    ∧ List.lookup "search" (Prizes.listParams s)
        = if s.currentSearch ≠ "" then some s.currentSearch else none := by
  unfold Prizes.listParams
  by_cases hq : s.currentSearch ≠ "" <;> simp [hq, List.lookup]

theorem toString_one : toString (1 : Int) = "1" := by decide

theorem jsTrim_zhangsan : jsTrim "张三" = "张三" := by decide

/-- C7: from every state, the search, clear-search and filter handlers of the
member and level pages and the search and clear-search handlers of the prize
page set the current page to 1, store the new search term (the trimmed content
of the search box, or the empty string on clear) or the chosen filter, keep the
page size and issue exactly one fetch, whose request carries `page=1` and, for a
non-empty term such as "张三", `search` equal to that term. -/
theorem search_filter_reset_page :
    (∀ s : Members.State,
      ((Members.searchMembers s).currentPage = 1
        ∧ (Members.searchMembers s).currentSearch = jsTrim s.searchInput
        ∧ (Members.searchMembers s).currentFilter = s.currentFilter
        ∧ (Members.searchMembers s).pageSize = s.pageSize
        ∧ ∃ r : Request, (Members.searchMembers s).fetches = s.fetches ++ [r]
            ∧ List.lookup "page" r.params = some "1"
            ∧ List.lookup "limit" r.params = some (toString s.pageSize)
            ∧ (jsTrim s.searchInput ≠ "" → List.lookup "search" r.params = some (jsTrim s.searchInput))
            ∧ (s.searchInput = "张三" → List.lookup "search" r.params = some "张三"))
      ∧ ((Members.clearSearch s).currentPage = 1
        ∧ (Members.clearSearch s).currentSearch = ("" : String)
        ∧ (Members.clearSearch s).currentFilter = s.currentFilter
        ∧ (Members.clearSearch s).pageSize = s.pageSize
        ∧ ∃ r : Request, (Members.clearSearch s).fetches = s.fetches ++ [r]
            ∧ List.lookup "page" r.params = some "1"
            ∧ List.lookup "limit" r.params = some (toString s.pageSize)
            ∧ (("" : String) ≠ "" → List.lookup "search" r.params = some (("" : String)))
            ∧ List.lookup "search" r.params = none)
      ∧ ((Members.filterMembers s).currentPage = 1
        ∧ (Members.filterMembers s).currentSearch = s.currentSearch
        ∧ (Members.filterMembers s).currentFilter = s.roleFilter
        ∧ (Members.filterMembers s).pageSize = s.pageSize
        ∧ ∃ r : Request, (Members.filterMembers s).fetches = s.fetches ++ [r]
            ∧ List.lookup "page" r.params = some "1"
            ∧ List.lookup "limit" r.params = some (toString s.pageSize)
            ∧ (s.currentSearch ≠ "" → List.lookup "search" r.params = some (s.currentSearch))))
    ∧ (∀ s : Levels.State,
      ((Levels.searchLevels s).currentPage = 1
        ∧ (Levels.searchLevels s).currentSearch = jsTrim s.searchInput
        ∧ (Levels.searchLevels s).currentFilter = s.currentFilter
        ∧ (Levels.searchLevels s).pageSize = s.pageSize
        ∧ ∃ r : Request, (Levels.searchLevels s).fetches = s.fetches ++ [r]
            ∧ List.lookup "page" r.params = some "1"
            ∧ List.lookup "limit" r.params = some (toString s.pageSize)
            ∧ (jsTrim s.searchInput ≠ "" → List.lookup "search" r.params = some (jsTrim s.searchInput))
            ∧ (s.searchInput = "张三" → List.lookup "search" r.params = some "张三"))
      ∧ ((Levels.clearSearch s).currentPage = 1
        ∧ (Levels.clearSearch s).currentSearch = ("" : String)
        ∧ (Levels.clearSearch s).currentFilter = s.currentFilter
        ∧ (Levels.clearSearch s).pageSize = s.pageSize
        ∧ ∃ r : Request, (Levels.clearSearch s).fetches = s.fetches ++ [r]
            ∧ List.lookup "page" r.params = some "1"
            ∧ List.lookup "limit" r.params = some (toString s.pageSize)
            ∧ (("" : String) ≠ "" → List.lookup "search" r.params = some (("" : String)))
            ∧ List.lookup "search" r.params = none)
      ∧ ((Levels.filterLevels s).currentPage = 1
        ∧ (Levels.filterLevels s).currentSearch = s.currentSearch
        ∧ (Levels.filterLevels s).currentFilter = s.statusFilter
        ∧ (Levels.filterLevels s).pageSize = s.pageSize
        ∧ ∃ r : Request, (Levels.filterLevels s).fetches = s.fetches ++ [r]
            ∧ List.lookup "page" r.params = some "1"
            ∧ List.lookup "limit" r.params = some (toString s.pageSize)
            ∧ (s.currentSearch ≠ "" → List.lookup "search" r.params = some (s.currentSearch))))
    ∧ (∀ s : Prizes.State,
      ((Prizes.searchPrizes s).currentPage = 1
        ∧ (Prizes.searchPrizes s).currentSearch = jsTrim s.searchInput
        ∧ (Prizes.searchPrizes s).currentFilter = s.currentFilter
        ∧ (Prizes.searchPrizes s).pageSize = s.pageSize
        ∧ ∃ r : Request, (Prizes.searchPrizes s).fetches = s.fetches ++ [r]
            ∧ List.lookup "page" r.params = some "1"
            ∧ List.lookup "limit" r.params = some (toString s.pageSize)
            ∧ (jsTrim s.searchInput ≠ "" → List.lookup "search" r.params = some (jsTrim s.searchInput))
            ∧ (s.searchInput = "张三" → List.lookup "search" r.params = some "张三"))
      ∧ ((Prizes.clearSearch s).currentPage = 1
        ∧ (Prizes.clearSearch s).currentSearch = ("" : String)
        ∧ (Prizes.clearSearch s).currentFilter = s.currentFilter
        ∧ (Prizes.clearSearch s).pageSize = s.pageSize
        ∧ ∃ r : Request, (Prizes.clearSearch s).fetches = s.fetches ++ [r]
            ∧ List.lookup "page" r.params = some "1"
            ∧ List.lookup "limit" r.params = some (toString s.pageSize)
            ∧ (("" : String) ≠ "" → List.lookup "search" r.params = some (("" : String)))
            ∧ List.lookup "search" r.params = none)) := by
  refine ⟨fun s => ⟨?_, ?_, ?_⟩, fun s => ⟨?_, ?_, ?_⟩, fun s => ⟨?_, ?_⟩⟩
  · obtain ⟨hp, hl, hq⟩ := Members.lookup_listParams_members
      { s with currentSearch := jsTrim s.searchInput, currentPage := 1 }
    refine ⟨rfl, rfl, rfl, rfl, _, rfl, by rw [← toString_one]; exact hp, hl, ?_, ?_⟩
    · intro hne
      exact hq.trans (if_pos hne)
    · intro hz
      have hne : jsTrim s.searchInput ≠ "" := by rw [hz]; decide
      have hterm : some (jsTrim s.searchInput) = some "张三" := by rw [hz, jsTrim_zhangsan]
      exact (hq.trans (if_pos hne)).trans hterm
  · obtain ⟨hp, hl, hq⟩ := Members.lookup_listParams_members
      { s with searchInput := "", currentSearch := "", currentPage := 1 }
    refine ⟨rfl, rfl, rfl, rfl, _, rfl, by rw [← toString_one]; exact hp, hl, ?_, ?_⟩
    · intro hne; exact absurd rfl hne
    · exact hq.trans (if_neg (by simp))
  · obtain ⟨hp, hl, hq⟩ := Members.lookup_listParams_members
      { s with currentFilter := s.roleFilter, currentPage := 1 }
    refine ⟨rfl, rfl, rfl, rfl, _, rfl, by rw [← toString_one]; exact hp, hl, ?_⟩
    intro hne
    exact hq.trans (if_pos hne)
  · obtain ⟨hp, hl, hq⟩ := Levels.lookup_listParams_levels
      { s with currentSearch := jsTrim s.searchInput, currentPage := 1 }
    refine ⟨rfl, rfl, rfl, rfl, _, rfl, by rw [← toString_one]; exact hp, hl, ?_, ?_⟩
    · intro hne
      exact hq.trans (if_pos hne)
    · intro hz
      have hne : jsTrim s.searchInput ≠ "" := by rw [hz]; decide
      have hterm : some (jsTrim s.searchInput) = some "张三" := by rw [hz, jsTrim_zhangsan]
      exact (hq.trans (if_pos hne)).trans hterm
  · obtain ⟨hp, hl, hq⟩ := Levels.lookup_listParams_levels
      { s with searchInput := "", currentSearch := "", currentPage := 1 }
    refine ⟨rfl, rfl, rfl, rfl, _, rfl, by rw [← toString_one]; exact hp, hl, ?_, ?_⟩
    · intro hne; exact absurd rfl hne
    · exact hq.trans (if_neg (by simp))
  · obtain ⟨hp, hl, hq⟩ := Levels.lookup_listParams_levels
      { s with currentFilter := s.statusFilter, currentPage := 1 }
    refine ⟨rfl, rfl, rfl, rfl, _, rfl, by rw [← toString_one]; exact hp, hl, ?_⟩
    intro hne
    exact hq.trans (if_pos hne)
  · obtain ⟨hp, hl, hq⟩ := Prizes.lookup_listParams_prizes
      { s with currentSearch := jsTrim s.searchInput, currentPage := 1 }
    refine ⟨rfl, rfl, rfl, rfl, _, rfl, by rw [← toString_one]; exact hp, hl, ?_, ?_⟩
    · intro hne
      exact hq.trans (if_pos hne)
    · intro hz
      have hne : jsTrim s.searchInput ≠ "" := by rw [hz]; decide
      have hterm : some (jsTrim s.searchInput) = some "张三" := by rw [hz, jsTrim_zhangsan]
      exact (hq.trans (if_pos hne)).trans hterm
  · obtain ⟨hp, hl, hq⟩ := Prizes.lookup_listParams_prizes
      { s with searchInput := "", currentSearch := "", currentPage := 1 }
    refine ⟨rfl, rfl, rfl, rfl, _, rfl, by rw [← toString_one]; exact hp, hl, ?_, ?_⟩
    · intro hne; exact absurd rfl hne
    · exact hq.trans (if_neg (by simp))

/-- Instance of C7 on the member page: "张三" in the search box while on page 5. -/
theorem search_filter_reset_page_witness :
    ({ Members.init with totalMembers := 95, currentPage := 5, searchInput := "张三" }
        : Members.State).searchInput = "张三"
    ∧ (Members.searchMembers
        { Members.init with totalMembers := 95, currentPage := 5, searchInput := "张三" }).currentPage
        = 1
    ∧ ∃ r : Request,
        (Members.searchMembers
          { Members.init with totalMembers := 95, currentPage := 5, searchInput := "张三" }).fetches
          = [] ++ [r]
        ∧ List.lookup "page" r.params = some "1"
        ∧ List.lookup "search" r.params = some "张三" := by
  obtain ⟨hpage, _, _, _, r, hf, hp, _, _, hz⟩ :=
    (search_filter_reset_page.1
      { Members.init with totalMembers := 95, currentPage := 5, searchInput := "张三" }).1
  exact ⟨rfl, hpage, r, hf, hp, hz rfl⟩

theorem Members.queryState_renderMembersTable (s : Members.State) :
    Members.queryState (Members.renderMembersTable s) = Members.queryState s
    ∧ (Members.renderMembersTable s).fetches = s.fetches
    ∧ (Members.renderMembersTable s).totalMembers = s.totalMembers := by
  unfold Members.renderMembersTable
  by_cases h : s.membersData.length = 0
  · rw [if_pos h]; exact ⟨rfl, rfl, rfl⟩
  · rw [if_neg h]; exact ⟨rfl, rfl, rfl⟩

theorem Members.queryState_renderPagination_members (s : Members.State) :
    Members.queryState (Members.renderPagination s) = Members.queryState s
    ∧ (Members.renderPagination s).fetches = s.fetches
    ∧ (Members.renderPagination s).totalMembers = s.totalMembers := by
  unfold Members.renderPagination
  by_cases h : mathCeilDiv s.totalMembers s.pageSize ≤ 1
  · dsimp only; rw [if_pos h]; exact ⟨rfl, rfl, rfl⟩
  · dsimp only; rw [if_neg h]; exact ⟨rfl, rfl, rfl⟩

theorem Members.loadMembersSettle_ok (s : Members.State) (status : Nat)
    (data : ListBody Members.Member) (hok : responseOk status = true) :
    Members.loadMembersSettle (FetchOutcome.http status (some data)) s
      = Members.renderPagination (Members.renderMembersTable
          { s with membersData := data.items.getD [], totalMembers := data.total.getD 0 }) := by
  simp [Members.loadMembersSettle, hok]

theorem Members.queryState_loadMembersSettle (r : FetchOutcome Members.Member) (s : Members.State) :
    Members.queryState (Members.loadMembersSettle r s) = Members.queryState s
    ∧ (Members.loadMembersSettle r s).fetches = s.fetches := by
  cases r with
  | networkError => exact ⟨rfl, rfl⟩
  | http status body =>
    by_cases hok : responseOk status = true
    · cases body with
      | none =>
        have e : Members.loadMembersSettle (FetchOutcome.http status none) s = Members.loadMembersCatch s := by
          simp [Members.loadMembersSettle]
        rw [e]; exact ⟨rfl, rfl⟩
      | some data =>
        rw [Members.loadMembersSettle_ok s status data hok]
        obtain ⟨hq1, hf1, _⟩ := Members.queryState_renderPagination_members (Members.renderMembersTable
          { s with membersData := data.items.getD [], totalMembers := data.total.getD 0 })
        obtain ⟨hq2, hf2, _⟩ := Members.queryState_renderMembersTable
          { s with membersData := data.items.getD [], totalMembers := data.total.getD 0 }
        exact ⟨hq1.trans hq2, hf1.trans hf2⟩
    · have e : Members.loadMembersSettle (FetchOutcome.http status body) s = Members.loadMembersCatch s := by
        simp [Members.loadMembersSettle, hok]
      rw [e]; exact ⟨rfl, rfl⟩

theorem Members.step_currentPage_members (s : Members.State) (e : Members.Event) (h : 1 ≤ s.currentPage) :
    1 ≤ (Members.step s e).currentPage := by
  cases e with
  | changePage page =>
    show 1 ≤ (Members.changePage page s).currentPage
    unfold Members.changePage
    by_cases hg : page < 1 ∨ page > mathCeilDiv s.totalMembers s.pageSize
    · rw [if_pos hg]; exact h
    · rw [if_neg hg]
      show 1 ≤ page
      omega
  | settle r =>
    have hq := congrArg Prod.fst (Members.queryState_loadMembersSettle r s).1
    have hq' : (Members.loadMembersSettle r s).currentPage = s.currentPage := hq
    show 1 ≤ (Members.loadMembersSettle r s).currentPage
    rw [hq']; exact h
  | _ => first | exact h | exact le_refl _

theorem Members.run_currentPage_members (events : List Members.Event) (s : Members.State)
    (h : 1 ≤ s.currentPage) : 1 ≤ (Members.run s events).currentPage := by
  induction events generalizing s with
  | nil => exact h
  | cons e rest ih => exact ih (Members.step s e) (Members.step_currentPage_members s e h)

theorem Levels.queryState_renderLevelsTable (s : Levels.State) :
    Levels.queryState (Levels.renderLevelsTable s) = Levels.queryState s
    ∧ (Levels.renderLevelsTable s).fetches = s.fetches
    ∧ (Levels.renderLevelsTable s).totalLevels = s.totalLevels := by
  unfold Levels.renderLevelsTable
  by_cases h : s.levelsData.length = 0
  · rw [if_pos h]; exact ⟨rfl, rfl, rfl⟩
  · rw [if_neg h]; exact ⟨rfl, rfl, rfl⟩

theorem Levels.queryState_renderPagination_levels (s : Levels.State) :
    Levels.queryState (Levels.renderPagination s) = Levels.queryState s
    ∧ (Levels.renderPagination s).fetches = s.fetches
    ∧ (Levels.renderPagination s).totalLevels = s.totalLevels := by
  unfold Levels.renderPagination
  by_cases h : mathCeilDiv s.totalLevels s.pageSize ≤ 1
  · dsimp only; rw [if_pos h]; exact ⟨rfl, rfl, rfl⟩
  · dsimp only; rw [if_neg h]; exact ⟨rfl, rfl, rfl⟩

theorem Levels.loadLevelsSettle_ok (s : Levels.State) (status : Nat)
    (data : ListBody Levels.Level) (hok : responseOk status = true) :
    Levels.loadLevelsSettle (FetchOutcome.http status (some data)) s
      = Levels.renderPagination (Levels.renderLevelsTable
          { s with levelsData := data.items.getD [], totalLevels := data.total.getD 0 }) := by
  simp [Levels.loadLevelsSettle, hok]

theorem Levels.queryState_loadLevelsSettle (r : FetchOutcome Levels.Level) (s : Levels.State) :
    Levels.queryState (Levels.loadLevelsSettle r s) = Levels.queryState s
    ∧ (Levels.loadLevelsSettle r s).fetches = s.fetches := by
  cases r with
  | networkError => exact ⟨rfl, rfl⟩
  | http status body =>
    by_cases hok : responseOk status = true
    · cases body with
      | none =>
        have e : Levels.loadLevelsSettle (FetchOutcome.http status none) s = Levels.loadLevelsCatch s := by
          simp [Levels.loadLevelsSettle]
        rw [e]; exact ⟨rfl, rfl⟩
      | some data =>
        rw [Levels.loadLevelsSettle_ok s status data hok]
        obtain ⟨hq1, hf1, _⟩ := Levels.queryState_renderPagination_levels (Levels.renderLevelsTable
          { s with levelsData := data.items.getD [], totalLevels := data.total.getD 0 })
        obtain ⟨hq2, hf2, _⟩ := Levels.queryState_renderLevelsTable
          { s with levelsData := data.items.getD [], totalLevels := data.total.getD 0 }
        exact ⟨hq1.trans hq2, hf1.trans hf2⟩
    · have e : Levels.loadLevelsSettle (FetchOutcome.http status body) s = Levels.loadLevelsCatch s := by
        simp [Levels.loadLevelsSettle, hok]
      rw [e]; exact ⟨rfl, rfl⟩

theorem Levels.step_currentPage_levels (s : Levels.State) (e : Levels.Event) (h : 1 ≤ s.currentPage) :
    1 ≤ (Levels.step s e).currentPage := by
  cases e with
  | changePage page =>
    show 1 ≤ (Levels.changePage page s).currentPage
    unfold Levels.changePage
    by_cases hg : page < 1 ∨ page > mathCeilDiv s.totalLevels s.pageSize
    · rw [if_pos hg]; exact h
    · rw [if_neg hg]
      show 1 ≤ page
      omega
  | settle r =>
    have hq := congrArg Prod.fst (Levels.queryState_loadLevelsSettle r s).1
    have hq' : (Levels.loadLevelsSettle r s).currentPage = s.currentPage := hq
    show 1 ≤ (Levels.loadLevelsSettle r s).currentPage
    rw [hq']; exact h
  | _ => first | exact h | exact le_refl _

theorem Levels.run_currentPage_levels (events : List Levels.Event) (s : Levels.State)
    (h : 1 ≤ s.currentPage) : 1 ≤ (Levels.run s events).currentPage := by
  induction events generalizing s with
  | nil => exact h
  | cons e rest ih => exact ih (Levels.step s e) (Levels.step_currentPage_levels s e h)

theorem Prizes.queryState_renderPrizesTable (s : Prizes.State) :
    Prizes.queryState (Prizes.renderPrizesTable s) = Prizes.queryState s
    ∧ (Prizes.renderPrizesTable s).fetches = s.fetches
    ∧ (Prizes.renderPrizesTable s).totalPrizes = s.totalPrizes := by
  unfold Prizes.renderPrizesTable
  by_cases h : (Prizes.filtered s).length = 0
  · rw [if_pos h]; exact ⟨rfl, rfl, rfl⟩
  · rw [if_neg h]; exact ⟨rfl, rfl, rfl⟩

theorem Prizes.queryState_renderPagination_prizes (s : Prizes.State) :
    Prizes.queryState (Prizes.renderPagination s) = Prizes.queryState s
    ∧ (Prizes.renderPagination s).fetches = s.fetches
    ∧ (Prizes.renderPagination s).totalPrizes = s.totalPrizes := by
  unfold Prizes.renderPagination
  by_cases h : mathCeilDiv s.totalPrizes s.pageSize ≤ 1
  · dsimp only; rw [if_pos h]; exact ⟨rfl, rfl, rfl⟩
  · dsimp only; rw [if_neg h]; exact ⟨rfl, rfl, rfl⟩

theorem Prizes.loadPrizesSettle_ok (s : Prizes.State) (status : Nat)
    (data : ListBody Prizes.Prize) (hok : responseOk status = true) :
    Prizes.loadPrizesSettle (FetchOutcome.http status (some data)) s
      = Prizes.renderPagination (Prizes.renderPrizesTable
          { s with prizesData := data.items.getD [], totalPrizes := data.total.getD 0 }) := by
  simp [Prizes.loadPrizesSettle, hok, Prizes.hideLoading]

theorem Prizes.queryState_loadPrizesSettle (r : FetchOutcome Prizes.Prize) (s : Prizes.State) :
    Prizes.queryState (Prizes.loadPrizesSettle r s) = Prizes.queryState s
    ∧ (Prizes.loadPrizesSettle r s).fetches = s.fetches := by
  cases r with
  | networkError => exact ⟨rfl, rfl⟩
  | http status body =>
    by_cases hok : responseOk status = true
    · cases body with
      | none =>
        have e : Prizes.loadPrizesSettle (FetchOutcome.http status none) s = Prizes.loadPrizesCatch s := by
          simp [Prizes.loadPrizesSettle]
        rw [e]; exact ⟨rfl, rfl⟩
      | some data =>
        rw [Prizes.loadPrizesSettle_ok s status data hok]
        obtain ⟨hq1, hf1, _⟩ := Prizes.queryState_renderPagination_prizes (Prizes.renderPrizesTable
          { s with prizesData := data.items.getD [], totalPrizes := data.total.getD 0 })
        obtain ⟨hq2, hf2, _⟩ := Prizes.queryState_renderPrizesTable
          { s with prizesData := data.items.getD [], totalPrizes := data.total.getD 0 }
        exact ⟨hq1.trans hq2, hf1.trans hf2⟩
    · have e : Prizes.loadPrizesSettle (FetchOutcome.http status body) s = Prizes.loadPrizesCatch s := by
        simp [Prizes.loadPrizesSettle, hok]
      rw [e]; exact ⟨rfl, rfl⟩

theorem Prizes.step_currentPage_prizes (s : Prizes.State) (e : Prizes.Event) (h : 1 ≤ s.currentPage) :
    1 ≤ (Prizes.step s e).currentPage := by
  cases e with
  | changePage page =>
    show 1 ≤ (Prizes.changePage page s).currentPage
    unfold Prizes.changePage
    by_cases hg : page < 1 ∨ page > mathCeilDiv s.totalPrizes s.pageSize
    · rw [if_pos hg]; exact h
    · rw [if_neg hg]
      show 1 ≤ page
      omega
  | settle r =>
    have hq := congrArg Prod.fst (Prizes.queryState_loadPrizesSettle r s).1
    have hq' : (Prizes.loadPrizesSettle r s).currentPage = s.currentPage := hq
    show 1 ≤ (Prizes.loadPrizesSettle r s).currentPage
    rw [hq']; exact h
  | _ => first | exact h | exact le_refl _

theorem Prizes.run_currentPage_prizes (events : List Prizes.Event) (s : Prizes.State)
    (h : 1 ≤ s.currentPage) : 1 ≤ (Prizes.run s events).currentPage := by
  induction events generalizing s with
  | nil => exact h
  | cons e rest ih => exact ih (Prizes.step s e) (Prizes.step_currentPage_prizes s e h)

/-- C8: starting from the initial state, every finite sequence of events on the
member, level or prize page (`changePage(n)` for any integer `n`, editing the
search box or the filter, search, clear-search, filter, starting a list load,
a list load settling with any outcome) leaves `currentPage ≥ 1`. -/
theorem currentPage_ge_one :
    (∀ events : List Members.Event, 1 ≤ (Members.run Members.init events).currentPage)
    ∧ (∀ events : List Levels.Event, 1 ≤ (Levels.run Levels.init events).currentPage)
    ∧ (∀ events : List Prizes.Event, 1 ≤ (Prizes.run Prizes.init events).currentPage) :=
  ⟨fun events => Members.run_currentPage_members events Members.init (le_refl _),
   fun events => Levels.run_currentPage_levels events Levels.init (le_refl _),
   fun events => Prizes.run_currentPage_prizes events Prizes.init (le_refl _)⟩

/-- C9 as stated fails: on page 10 of the member list (95 members, 10 per page) a
load that returns `total = 85` and no records ends with the current page still
10, above the page count 9, with the single fetch of that load and the pager
rendered for page 10. -/
theorem loadMembers_no_clamp_counterexample :
    ((0 : Int) < 85 ∧ (85 : Int) < (10 - 1) * 10)
    ∧ (Members.loadMembers (FetchOutcome.http 200 (some { items := some [], total := some 85 }))
        { Members.init with totalMembers := 95, currentPage := 10 }).totalMembers = 85
    ∧ (Members.loadMembers (FetchOutcome.http 200 (some { items := some [], total := some 85 }))
        { Members.init with totalMembers := 95, currentPage := 10 }).currentPage = 10
    ∧ mathCeilDiv 85 10 = 9
    ∧ (Members.loadMembers (FetchOutcome.http 200 (some { items := some [], total := some 85 }))
        { Members.init with totalMembers := 95, currentPage := 10 }).fetches
        = [{ url := "/api/admin/members", params := [("page", "10"), ("limit", "10")] }]
    ∧ (Members.loadMembers (FetchOutcome.http 200 (some { items := some [], total := some 85 }))
        { Members.init with totalMembers := 95, currentPage := 10 }).pagination
        = paginationHTML 10 9 := by
  decide

/-- C9, amended: a list fetch of the member page that completes with `total > 0`
leaves the current page as it was and issues no further fetch, so afterwards
`page ≤ ceil(total / pageSize)` holds exactly when the page held before is within
the page count of the returned total; when the returned total is smaller than
`(page - 1) * pageSize` the page stays above the page count. -/
theorem loadMembersSettle_keeps_page (s : Members.State) (status : Nat)
    (items : Option (List Members.Member)) (total : Int)
    (hok : responseOk status = true) (htotal : 0 < total) (hsize : 0 < s.pageSize) :
    (Members.loadMembersSettle
        (FetchOutcome.http status (some { items := items, total := some total })) s).currentPage
      = s.currentPage
    ∧ (Members.loadMembersSettle
        (FetchOutcome.http status (some { items := items, total := some total })) s).fetches
      = s.fetches
    ∧ (Members.loadMembersSettle
        (FetchOutcome.http status (some { items := items, total := some total })) s).totalMembers
      = total
    ∧ (Members.loadMembersSettle
        (FetchOutcome.http status (some { items := items, total := some total })) s).pageSize
      = s.pageSize
    ∧ ((Members.loadMembersSettle
          (FetchOutcome.http status (some { items := items, total := some total })) s).currentPage
        ≤ mathCeilDiv
            (Members.loadMembersSettle
              (FetchOutcome.http status
                (some { items := items, total := some total })) s).totalMembers
            (Members.loadMembersSettle
              (FetchOutcome.http status
                (some { items := items, total := some total })) s).pageSize
        ↔ s.currentPage ≤ mathCeilDiv total s.pageSize)
    ∧ (total < (s.currentPage - 1) * s.pageSize →
        mathCeilDiv total s.pageSize
          < (Members.loadMembersSettle
              (FetchOutcome.http status
                (some { items := items, total := some total })) s).currentPage) := by
  obtain ⟨hq, hf⟩ := Members.queryState_loadMembersSettle
    (FetchOutcome.http status (some { items := items, total := some total })) s
  have hcur : (Members.loadMembersSettle
      (FetchOutcome.http status (some { items := items, total := some total })) s).currentPage
      = s.currentPage := congrArg Prod.fst hq
  have hps : (Members.loadMembersSettle
      (FetchOutcome.http status (some { items := items, total := some total })) s).pageSize
      = s.pageSize := congrArg (fun q => q.2.1) hq
  have htot : (Members.loadMembersSettle
      (FetchOutcome.http status (some { items := items, total := some total })) s).totalMembers
      = total := by
    rw [Members.loadMembersSettle_ok s status _ hok]
    obtain ⟨_, _, ht1⟩ := Members.queryState_renderPagination_members (Members.renderMembersTable
      { s with membersData := items.getD [], totalMembers := total })
    obtain ⟨_, _, ht2⟩ := Members.queryState_renderMembersTable
      { s with membersData := items.getD [], totalMembers := total }
    exact ht1.trans ht2
  refine ⟨hcur, hf, htot, hps, by rw [hcur, htot, hps], ?_⟩
  · intro hsmall
    rw [hcur]
    have hle : mathCeilDiv total s.pageSize ≤ s.currentPage - 1 :=
      (mathCeilDiv_le_iff total s.pageSize _ hsize).mpr (le_of_lt hsmall)
    omega

/-- Instance of amended C9: page 10 of the member list, the load returns total 85. -/
theorem loadMembersSettle_keeps_page_witness :
    (responseOk 200 = true ∧ (0 : Int) < 85 ∧ (0 : Int) < 10 ∧ (85 : Int) < (10 - 1) * 10)
    ∧ mathCeilDiv 85 10
        < (Members.loadMembersSettle
            (FetchOutcome.http 200 (some { items := some [], total := some 85 }))
            { Members.init with totalMembers := 95, currentPage := 10 }).currentPage :=
  ⟨by decide,
   (loadMembersSettle_keeps_page { Members.init with totalMembers := 95, currentPage := 10 }
      200 (some []) 85 (by decide) (by decide) (by decide)).2.2.2.2.2 (by decide)⟩

/-- C10: for every state and every outcome of the listing fetch (a response with
any status and body, or a network exception), the loaders `loadMembers`,
`loadLevels` and `loadPrizes` (the part before the fetch, the part after it,
and a whole run) and the renderers they call leave `currentPage`, `pageSize`,
`currentSearch` and `currentFilter` unchanged. -/
theorem loaders_keep_queryState :
    (∀ (s : Members.State) (r : FetchOutcome Members.Member),
      Members.queryState (Members.loadMembersIssue s) = Members.queryState s
      ∧ Members.queryState (Members.loadMembersSettle r s) = Members.queryState s
      ∧ Members.queryState (Members.loadMembers r s) = Members.queryState s
      ∧ Members.queryState (Members.renderMembersTable s) = Members.queryState s
      ∧ Members.queryState (Members.renderPagination s) = Members.queryState s
      ∧ Members.queryState (Members.showLoading s) = Members.queryState s
      ∧ Members.queryState (Members.showEmptyState s) = Members.queryState s)
    ∧ (∀ (s : Levels.State) (r : FetchOutcome Levels.Level),
      Levels.queryState (Levels.loadLevelsIssue s) = Levels.queryState s
      ∧ Levels.queryState (Levels.loadLevelsSettle r s) = Levels.queryState s
      ∧ Levels.queryState (Levels.loadLevels r s) = Levels.queryState s
      ∧ Levels.queryState (Levels.renderLevelsTable s) = Levels.queryState s
      ∧ Levels.queryState (Levels.renderPagination s) = Levels.queryState s
      ∧ Levels.queryState (Levels.showLoading s) = Levels.queryState s
      ∧ Levels.queryState (Levels.showEmptyState s) = Levels.queryState s)
    ∧ (∀ (s : Prizes.State) (r : FetchOutcome Prizes.Prize),
      Prizes.queryState (Prizes.loadPrizesIssue s) = Prizes.queryState s
      ∧ Prizes.queryState (Prizes.loadPrizesSettle r s) = Prizes.queryState s
      ∧ Prizes.queryState (Prizes.loadPrizes r s) = Prizes.queryState s
      ∧ Prizes.queryState (Prizes.renderPrizesTable s) = Prizes.queryState s
      ∧ Prizes.queryState (Prizes.renderPagination s) = Prizes.queryState s
      ∧ Prizes.queryState (Prizes.showLoading s) = Prizes.queryState s
      ∧ Prizes.queryState (Prizes.showEmptyState s) = Prizes.queryState s) := by
  refine ⟨fun s r => ?_, fun s r => ?_, fun s r => ?_⟩
  · exact ⟨rfl, (Members.queryState_loadMembersSettle r s).1,
      (Members.queryState_loadMembersSettle r (Members.loadMembersIssue s)).1,
      (Members.queryState_renderMembersTable s).1,
      (Members.queryState_renderPagination_members s).1, rfl, rfl⟩
  · exact ⟨rfl, (Levels.queryState_loadLevelsSettle r s).1,
      (Levels.queryState_loadLevelsSettle r (Levels.loadLevelsIssue s)).1,
      (Levels.queryState_renderLevelsTable s).1,
      (Levels.queryState_renderPagination_levels s).1, rfl, rfl⟩
  · exact ⟨rfl, (Prizes.queryState_loadPrizesSettle r s).1,
      (Prizes.queryState_loadPrizesSettle r (Prizes.loadPrizesIssue s)).1,
      (Prizes.queryState_renderPrizesTable s).1,
      (Prizes.queryState_renderPagination_prizes s).1, rfl, rfl⟩

/-! ## Claims about failed loads, the request and overlapping loads -/

theorem Members.loadMembersSettle_failed (s : Members.State) (r : FetchOutcome Members.Member)
    (h : r = FetchOutcome.networkError
      ∨ (∃ status body, r = FetchOutcome.http status body ∧ responseOk status = false)
      ∨ (∃ status, r = FetchOutcome.http status none)) :
    Members.loadMembersSettle r s = Members.loadMembersCatch s := by
  rcases h with rfl | ⟨status, body, rfl, hno⟩ | ⟨status, rfl⟩
  · rfl
  · simp [Members.loadMembersSettle, hno]
  · by_cases hok : responseOk status = true <;> simp [Members.loadMembersSettle, hok]

theorem Members.listParams_congr_members (s₁ s₂ : Members.State)
    (h : Members.queryState s₁ = Members.queryState s₂) : Members.listParams s₁ = Members.listParams s₂ := by
  have h1 : s₁.currentPage = s₂.currentPage := congrArg Prod.fst h
  have h2 : s₁.pageSize = s₂.pageSize := congrArg (fun q => q.2.1) h
  have h3 : s₁.currentSearch = s₂.currentSearch := congrArg (fun q => q.2.2.1) h
  have h4 : s₁.currentFilter = s₂.currentFilter := congrArg (fun q => q.2.2.2) h
  unfold Members.listParams
  rw [h1, h2, h3, h4]

theorem Levels.loadLevelsSettle_failed (s : Levels.State) (r : FetchOutcome Levels.Level)
    (h : r = FetchOutcome.networkError
      ∨ (∃ status body, r = FetchOutcome.http status body ∧ responseOk status = false)
      ∨ (∃ status, r = FetchOutcome.http status none)) :
    Levels.loadLevelsSettle r s = Levels.loadLevelsCatch s := by
  rcases h with rfl | ⟨status, body, rfl, hno⟩ | ⟨status, rfl⟩
  · rfl
  · simp [Levels.loadLevelsSettle, hno]
  · by_cases hok : responseOk status = true <;> simp [Levels.loadLevelsSettle, hok]

theorem Levels.listParams_congr_levels (s₁ s₂ : Levels.State)
    (h : Levels.queryState s₁ = Levels.queryState s₂) : Levels.listParams s₁ = Levels.listParams s₂ := by
  have h1 : s₁.currentPage = s₂.currentPage := congrArg Prod.fst h
  have h2 : s₁.pageSize = s₂.pageSize := congrArg (fun q => q.2.1) h
  have h3 : s₁.currentSearch = s₂.currentSearch := congrArg (fun q => q.2.2.1) h
  have h4 : s₁.currentFilter = s₂.currentFilter := congrArg (fun q => q.2.2.2) h
  unfold Levels.listParams
  rw [h1, h2, h3, h4]

theorem Prizes.loadPrizesSettle_failed (s : Prizes.State) (r : FetchOutcome Prizes.Prize)
    (h : r = FetchOutcome.networkError
      ∨ (∃ status body, r = FetchOutcome.http status body ∧ responseOk status = false)
      ∨ (∃ status, r = FetchOutcome.http status none)) :
    Prizes.loadPrizesSettle r s = Prizes.loadPrizesCatch s := by
  rcases h with rfl | ⟨status, body, rfl, hno⟩ | ⟨status, rfl⟩
  · rfl
  · simp [Prizes.loadPrizesSettle, hno]
  · by_cases hok : responseOk status = true <;> simp [Prizes.loadPrizesSettle, hok]

theorem Prizes.listParams_congr_prizes (s₁ s₂ : Prizes.State)
    (h : Prizes.queryState s₁ = Prizes.queryState s₂) : Prizes.listParams s₁ = Prizes.listParams s₂ := by
  have h1 : s₁.currentPage = s₂.currentPage := congrArg Prod.fst h
  have h2 : s₁.pageSize = s₂.pageSize := congrArg (fun q => q.2.1) h
  have h3 : s₁.currentSearch = s₂.currentSearch := congrArg (fun q => q.2.2.1) h
  have h4 : s₁.currentFilter = s₂.currentFilter := congrArg (fun q => q.2.2.2) h
  unfold Prizes.listParams
  rw [h1, h2, h3]

/-- C11: when the listing fetch ends with a non-2xx status (such as 500), with a
network exception or with an unreadable body, the loader of the member, level
or prize page leaves the table showing the empty-state row and the query state
unchanged, and calling the loader again issues the same request as the failed
one, the request parameters being a function of the query state alone. -/
theorem failed_load_retry :
    (∀ (s : Members.State) (r : FetchOutcome Members.Member),
      (r = FetchOutcome.networkError
        ∨ (∃ status body, r = FetchOutcome.http status body ∧ responseOk status = false)
        ∨ (∃ status, r = FetchOutcome.http status none)) →
      (Members.loadMembers r s).membersTableBody = TableView.emptyState
      ∧ Members.queryState (Members.loadMembers r s) = Members.queryState s
      ∧ (Members.loadMembersIssue (Members.loadMembers r s)).fetches
          = s.fetches ++ [{ url := "/api/admin/members", params := Members.listParams s },
                          { url := "/api/admin/members", params := Members.listParams s }]
      ∧ ∀ s₁ s₂ : Members.State, Members.queryState s₁ = Members.queryState s₂ →
          Members.listParams s₁ = Members.listParams s₂)
    ∧ (∀ (s : Levels.State) (r : FetchOutcome Levels.Level),
      (r = FetchOutcome.networkError
        ∨ (∃ status body, r = FetchOutcome.http status body ∧ responseOk status = false)
        ∨ (∃ status, r = FetchOutcome.http status none)) →
      (Levels.loadLevels r s).levelsTableBody = TableView.emptyState
      ∧ Levels.queryState (Levels.loadLevels r s) = Levels.queryState s
      ∧ (Levels.loadLevelsIssue (Levels.loadLevels r s)).fetches
          = s.fetches ++ [{ url := "/api/admin/levels", params := Levels.listParams s },
                          { url := "/api/admin/levels", params := Levels.listParams s }]
      ∧ ∀ s₁ s₂ : Levels.State, Levels.queryState s₁ = Levels.queryState s₂ →
          Levels.listParams s₁ = Levels.listParams s₂)
    ∧ (∀ (s : Prizes.State) (r : FetchOutcome Prizes.Prize),
      (r = FetchOutcome.networkError
        ∨ (∃ status body, r = FetchOutcome.http status body ∧ responseOk status = false)
        ∨ (∃ status, r = FetchOutcome.http status none)) →
      (Prizes.loadPrizes r s).prizesTableBody = TableView.emptyState
      ∧ Prizes.queryState (Prizes.loadPrizes r s) = Prizes.queryState s
      ∧ (Prizes.loadPrizesIssue (Prizes.loadPrizes r s)).fetches
          = s.fetches ++ [{ url := "/api/admin/prizes", params := Prizes.listParams s },
                          { url := "/api/admin/prizes", params := Prizes.listParams s }]
      ∧ ∀ s₁ s₂ : Prizes.State, Prizes.queryState s₁ = Prizes.queryState s₂ →
          Prizes.listParams s₁ = Prizes.listParams s₂) := by
  refine ⟨fun s r h => ?_, fun s r h => ?_, fun s r h => ?_⟩
  · have e : Members.loadMembers r s = Members.loadMembersCatch (Members.loadMembersIssue s) :=
      Members.loadMembersSettle_failed (Members.loadMembersIssue s) r h
    rw [e]
    refine ⟨rfl, rfl, ?_, Members.listParams_congr_members⟩
    simp [Members.loadMembersIssue, Members.loadMembersCatch, Members.showLoading, Members.showEmptyState,
      Members.showMessage, Members.listParams]
  · have e : Levels.loadLevels r s = Levels.loadLevelsCatch (Levels.loadLevelsIssue s) :=
      Levels.loadLevelsSettle_failed (Levels.loadLevelsIssue s) r h
    rw [e]
    refine ⟨rfl, rfl, ?_, Levels.listParams_congr_levels⟩
    simp [Levels.loadLevelsIssue, Levels.loadLevelsCatch, Levels.showLoading, Levels.showEmptyState,
      Levels.showMessage, Levels.listParams]
  · have e : Prizes.loadPrizes r s = Prizes.loadPrizesCatch (Prizes.loadPrizesIssue s) :=
      Prizes.loadPrizesSettle_failed (Prizes.loadPrizesIssue s) r h
    rw [e]
    refine ⟨rfl, rfl, ?_, Prizes.listParams_congr_prizes⟩
    simp [Prizes.loadPrizesIssue, Prizes.loadPrizesCatch, Prizes.showLoading, Prizes.showEmptyState,
      Prizes.showMessage, Prizes.listParams, Prizes.hideLoading]

/-- Instance of C11 on the member page: HTTP 500 on page 3 with a search term. -/
theorem failed_load_retry_witness :
    responseOk 500 = false
    ∧ (Members.loadMembers (FetchOutcome.http 500 none)
        { Members.init with totalMembers := 95, currentPage := 3, currentSearch := "张三" }
        ).membersTableBody = TableView.emptyState
    ∧ (Members.loadMembersIssue (Members.loadMembers (FetchOutcome.http 500 none)
        { Members.init with totalMembers := 95, currentPage := 3, currentSearch := "张三" })
        ).fetches
      = [] ++ [{ url := "/api/admin/members",
                 params := [("page", "3"), ("limit", "10"), ("search", "张三")] },
               { url := "/api/admin/members",
                 params := [("page", "3"), ("limit", "10"), ("search", "张三")] }] := by
  obtain ⟨h1, _, h3, _⟩ := failed_load_retry.1
    { Members.init with totalMembers := 95, currentPage := 3, currentSearch := "张三" }
    (FetchOutcome.http 500 none) (Or.inr (Or.inl ⟨500, none, rfl, by decide⟩))
  exact ⟨by decide, h1, h3⟩

theorem Members.lookup_role_listParams (s : Members.State) :
    List.lookup "role" (Members.listParams s)
      = if s.currentFilter ≠ "all" then some s.currentFilter else none := by
  unfold Members.listParams
  by_cases hf : s.currentFilter ≠ "all" <;> by_cases hq : s.currentSearch ≠ "" <;>
    simp [hf, hq, List.lookup]

theorem Levels.lookup_status_listParams (s : Levels.State) :
    List.lookup "status" (Levels.listParams s)
      = if s.currentFilter ≠ "all" then some s.currentFilter else none := by
  unfold Levels.listParams
  by_cases hf : s.currentFilter ≠ "all" <;> by_cases hq : s.currentSearch ≠ "" <;>
    simp [hf, hq, List.lookup]

theorem Prizes.keys_listParams (s : Prizes.State) (k v : String)
    (h : (k, v) ∈ Prizes.listParams s) : k = "page" ∨ k = "limit" ∨ k = "search" := by
  unfold Prizes.listParams at h
  by_cases hq : s.currentSearch ≠ ""
  · simp only [if_pos hq, List.mem_append, List.mem_cons, List.mem_singleton, Prod.mk.injEq,
      List.not_mem_nil, or_false] at h
    rcases h with (⟨hk, _⟩ | ⟨hk, _⟩) | ⟨hk, _⟩
    · exact Or.inl hk
    · exact Or.inr (Or.inl hk)
    · exact Or.inr (Or.inr hk)
  · simp only [if_neg hq, List.mem_cons, List.mem_singleton, Prod.mk.injEq,
      List.not_mem_nil, or_false] at h
    rcases h with ⟨hk, _⟩ | ⟨hk, _⟩
    · exact Or.inl hk
    · exact Or.inr (Or.inl hk)

/-- C12 as stated fails: for the query state of a freshly loaded member page
(page 1, page size 10, empty search, filter "all") the request carries `page`
and `limit` only; and on the prize page with filter "available" and search
"杯" the request carries no filter. -/
theorem listParams_counterexample :
    (Members.loadMembersIssue Members.init).fetches
        = [{ url := "/api/admin/members", params := [("page", "1"), ("limit", "10")] }]
    ∧ List.lookup "search" (Members.listParams Members.init) = none
    ∧ List.lookup "role" (Members.listParams Members.init) = none
    ∧ (Prizes.loadPrizesIssue
        { Prizes.init with currentFilter := "available", currentSearch := "杯" }).fetches
        = [{ url := "/api/admin/prizes",
             params := [("page", "1"), ("limit", "10"), ("search", "杯")] }] := by
  decide

/-- C12, amended: each call of `loadMembers`, `loadLevels` or `loadPrizes` performs
exactly one call to its listing endpoint; the request always carries `page` and
`limit` (the page size) with the values of the query state, carries `search`
exactly when the search term is non-empty, carries the filter (as `role` on the
member page, as `status` on the level page) exactly when it is not "all", and
on the prize page carries no filter parameter at all. -/
theorem listParams_spec :
    (∀ s : Members.State,
      (Members.loadMembersIssue s).fetches
          = s.fetches ++ [{ url := "/api/admin/members", params := Members.listParams s }]
      ∧ List.lookup "page" (Members.listParams s) = some (toString s.currentPage)
      ∧ List.lookup "limit" (Members.listParams s) = some (toString s.pageSize)
      ∧ List.lookup "search" (Members.listParams s)
          = (if s.currentSearch ≠ "" then some s.currentSearch else none)
      ∧ List.lookup "role" (Members.listParams s)
          = (if s.currentFilter ≠ "all" then some s.currentFilter else none))
    ∧ (∀ s : Levels.State,
      (Levels.loadLevelsIssue s).fetches
          = s.fetches ++ [{ url := "/api/admin/levels", params := Levels.listParams s }]
      ∧ List.lookup "page" (Levels.listParams s) = some (toString s.currentPage)
      ∧ List.lookup "limit" (Levels.listParams s) = some (toString s.pageSize)
      ∧ List.lookup "search" (Levels.listParams s)
          = (if s.currentSearch ≠ "" then some s.currentSearch else none)
      ∧ List.lookup "status" (Levels.listParams s)
          = (if s.currentFilter ≠ "all" then some s.currentFilter else none))
    ∧ (∀ s : Prizes.State,
      (Prizes.loadPrizesIssue s).fetches
          = s.fetches ++ [{ url := "/api/admin/prizes", params := Prizes.listParams s }]
      ∧ List.lookup "page" (Prizes.listParams s) = some (toString s.currentPage)
      ∧ List.lookup "limit" (Prizes.listParams s) = some (toString s.pageSize)
      ∧ List.lookup "search" (Prizes.listParams s)
          = (if s.currentSearch ≠ "" then some s.currentSearch else none)
      ∧ ∀ k v : String, (k, v) ∈ Prizes.listParams s →
          k = "page" ∨ k = "limit" ∨ k = "search") := by
  refine ⟨fun s => ?_, fun s => ?_, fun s => ?_⟩
  · obtain ⟨hp, hl, hq⟩ := Members.lookup_listParams_members s
    exact ⟨rfl, hp, hl, hq, Members.lookup_role_listParams s⟩
  · obtain ⟨hp, hl, hq⟩ := Levels.lookup_listParams_levels s
    exact ⟨rfl, hp, hl, hq, Levels.lookup_status_listParams s⟩
  · obtain ⟨hp, hl, hq⟩ := Prizes.lookup_listParams_prizes s
    exact ⟨rfl, hp, hl, hq, Prizes.keys_listParams s⟩

/-- Instance of amended C12 on the level page: page 2, filter "active", search "迎新". -/
theorem listParams_spec_witness :
    (Levels.loadLevelsIssue
      { Levels.init with totalLevels := 30, currentPage := 2, currentFilter := "active",
                         currentSearch := "迎新" }).fetches
      = [] ++ [{ url := "/api/admin/levels",
                 params := [("page", "2"), ("limit", "10"), ("status", "active"),
                            ("search", "迎新")] }] :=
  (listParams_spec.2.1
    { Levels.init with totalLevels := 30, currentPage := 2, currentFilter := "active",
                       currentSearch := "迎新" }).1

theorem Members.loadMembersSettle_ok_fields (s : Members.State) (status : Nat)
    (data : ListBody Members.Member) (hok : responseOk status = true) :
    (Members.loadMembersSettle (FetchOutcome.http status (some data)) s).membersData
        = data.items.getD []
    ∧ (Members.loadMembersSettle (FetchOutcome.http status (some data)) s).totalMembers
        = data.total.getD 0
    ∧ (Members.loadMembersSettle (FetchOutcome.http status (some data)) s).membersTableBody
        = (if (data.items.getD []).length = 0 then TableView.emptyState
           else TableView.rows (data.items.getD []))
    ∧ (Members.loadMembersSettle (FetchOutcome.http status (some data)) s).currentPage
        = s.currentPage
    ∧ (Members.loadMembersSettle (FetchOutcome.http status (some data)) s).fetches
        = s.fetches := by
  rw [Members.loadMembersSettle_ok s status data hok]
  unfold Members.renderPagination Members.renderMembersTable Members.showEmptyState
  by_cases hlen : (data.items.getD []).length = 0 <;>
    by_cases hle : mathCeilDiv (data.total.getD 0) s.pageSize ≤ 1 <;>
    simp [hlen, hle]

/-- C13 as stated fails: on the member page (25 members, page 1) load A is issued
for page 1, `changePage(2)` issues load B, B settles with the record of page 2
and total 24, then A settles with the record of page 1 and total 25; the table
and the total end as those of A while the current page is 2. -/
theorem stale_response_counterexample :
    (Members.run { Members.init with totalMembers := 25 }
      [Members.Event.reload, Members.Event.changePage 2,
       Members.Event.settle (FetchOutcome.http 200 (some
         { items := some [{ _id := "b", stuId := "2024002", role := "user", points := 0,
                            passedLevelNames := [], creatTime := "" }],
           total := some 24 })),
       Members.Event.settle (FetchOutcome.http 200 (some
         { items := some [{ _id := "a", stuId := "2024001", role := "user", points := 0,
                            passedLevelNames := [], creatTime := "" }],
           total := some 25 }))]).fetches
      = [{ url := "/api/admin/members", params := [("page", "1"), ("limit", "10")] },
         { url := "/api/admin/members", params := [("page", "2"), ("limit", "10")] }]
    ∧ (Members.run { Members.init with totalMembers := 25 }
      [Members.Event.reload, Members.Event.changePage 2,
       Members.Event.settle (FetchOutcome.http 200 (some
         { items := some [{ _id := "b", stuId := "2024002", role := "user", points := 0,
                            passedLevelNames := [], creatTime := "" }],
           total := some 24 })),
       Members.Event.settle (FetchOutcome.http 200 (some
         { items := some [{ _id := "a", stuId := "2024001", role := "user", points := 0,
                            passedLevelNames := [], creatTime := "" }],
           total := some 25 }))]).membersTableBody
      = TableView.rows [{ _id := "a", stuId := "2024001", role := "user", points := 0,
                          passedLevelNames := [], creatTime := "" }]
    ∧ (Members.run { Members.init with totalMembers := 25 }
      [Members.Event.reload, Members.Event.changePage 2,
       Members.Event.settle (FetchOutcome.http 200 (some
         { items := some [{ _id := "b", stuId := "2024002", role := "user", points := 0,
                            passedLevelNames := [], creatTime := "" }],
           total := some 24 })),
       Members.Event.settle (FetchOutcome.http 200 (some
         { items := some [{ _id := "a", stuId := "2024001", role := "user", points := 0,
                            passedLevelNames := [], creatTime := "" }],
           total := some 25 }))]).totalMembers = 25
    ∧ (Members.run { Members.init with totalMembers := 25 }
      [Members.Event.reload, Members.Event.changePage 2,
       Members.Event.settle (FetchOutcome.http 200 (some
         { items := some [{ _id := "b", stuId := "2024002", role := "user", points := 0,
                            passedLevelNames := [], creatTime := "" }],
           total := some 24 })),
       Members.Event.settle (FetchOutcome.http 200 (some
         { items := some [{ _id := "a", stuId := "2024001", role := "user", points := 0,
                            passedLevelNames := [], creatTime := "" }],
           total := some 25 }))]).currentPage = 2 :=
  ⟨by decide, rfl, by decide, by decide⟩

/-- C13, amended: if load A is issued first (for page 1) and `changePage(2)` then
issues load B, and A settles after B, both with a readable 2xx response, the
records, the table and the total of the member page end as those of A's
response, the one that settled last, while the current page is 2: responses
are applied in the order they arrive and none is discarded. -/
theorem stale_response_wins (s : Members.State) (statusA statusB : Nat)
    (dataA dataB : ListBody Members.Member)
    (hA : responseOk statusA = true) (hB : responseOk statusB = true)
    (hpage : s.currentPage = 1) (hrange : 2 ≤ mathCeilDiv s.totalMembers s.pageSize) :
    (Members.run s
      [Members.Event.reload, Members.Event.changePage 2,
       Members.Event.settle (FetchOutcome.http statusB (some dataB)),
       Members.Event.settle (FetchOutcome.http statusA (some dataA))]).fetches
      = s.fetches ++ [{ url := "/api/admin/members", params := Members.listParams s },
                      { url := "/api/admin/members",
                        params := Members.listParams { s with currentPage := 2 } }]
    ∧ (Members.run s
      [Members.Event.reload, Members.Event.changePage 2,
       Members.Event.settle (FetchOutcome.http statusB (some dataB)),
       Members.Event.settle (FetchOutcome.http statusA (some dataA))]).membersData
      = dataA.items.getD []
    ∧ (Members.run s
      [Members.Event.reload, Members.Event.changePage 2,
       Members.Event.settle (FetchOutcome.http statusB (some dataB)),
       Members.Event.settle (FetchOutcome.http statusA (some dataA))]).membersTableBody
      = (if (dataA.items.getD []).length = 0 then TableView.emptyState
         else TableView.rows (dataA.items.getD []))
    ∧ (Members.run s
      [Members.Event.reload, Members.Event.changePage 2,
       Members.Event.settle (FetchOutcome.http statusB (some dataB)),
       Members.Event.settle (FetchOutcome.http statusA (some dataA))]).totalMembers
      = dataA.total.getD 0
    ∧ (Members.run s
      [Members.Event.reload, Members.Event.changePage 2,
       Members.Event.settle (FetchOutcome.http statusB (some dataB)),
       Members.Event.settle (FetchOutcome.http statusA (some dataA))]).currentPage = 2 := by
  have hrun : Members.run s
      [Members.Event.reload, Members.Event.changePage 2,
       Members.Event.settle (FetchOutcome.http statusB (some dataB)),
       Members.Event.settle (FetchOutcome.http statusA (some dataA))]
      = Members.loadMembersSettle (FetchOutcome.http statusA (some dataA))
          (Members.loadMembersSettle (FetchOutcome.http statusB (some dataB))
            (Members.changePage 2 (Members.loadMembersIssue s))) := rfl
  have hchange : Members.changePage 2 (Members.loadMembersIssue s)
      = Members.loadMembersIssue { Members.loadMembersIssue s with currentPage := 2 } :=
    Members.changePage_in_range_members 2 (Members.loadMembersIssue s) (by decide) hrange
  obtain ⟨a1, a2, a3, a4, a5⟩ := Members.loadMembersSettle_ok_fields
    (Members.loadMembersSettle (FetchOutcome.http statusB (some dataB))
      (Members.changePage 2 (Members.loadMembersIssue s))) statusA dataA hA
  obtain ⟨_, _, _, b4, b5⟩ := Members.loadMembersSettle_ok_fields
    (Members.changePage 2 (Members.loadMembersIssue s)) statusB dataB hB
  rw [hrun]
  refine ⟨?_, a1, a3, a2, ?_⟩
  · rw [a5, b5, hchange]
    simp [Members.loadMembersIssue, Members.showLoading, Members.listParams]
  · rw [a4, b4, hchange]
    rfl

/-- Instance of amended C13: the run of the counterexample, read through the theorem. -/
theorem stale_response_wins_witness :
    (responseOk 200 = true
      ∧ ({ Members.init with totalMembers := 25 } : Members.State).currentPage = 1
      ∧ 2 ≤ mathCeilDiv 25 10)
    ∧ (Members.run { Members.init with totalMembers := 25 }
      [Members.Event.reload, Members.Event.changePage 2,
       Members.Event.settle (FetchOutcome.http 200 (some
         { items := some [{ _id := "b", stuId := "2024002", role := "user", points := 0,
                            passedLevelNames := [], creatTime := "" }],
           total := some 24 })),
       Members.Event.settle (FetchOutcome.http 200 (some
         { items := some [{ _id := "a", stuId := "2024001", role := "user", points := 0,
                            passedLevelNames := [], creatTime := "" }],
           total := some 25 }))]).membersData
      = [{ _id := "a", stuId := "2024001", role := "user", points := 0,
           passedLevelNames := [], creatTime := "" }] :=
  ⟨by decide,
   (stale_response_wins { Members.init with totalMembers := 25 } 200 200
      { items := some [{ _id := "a", stuId := "2024001", role := "user", points := 0,
                         passedLevelNames := [], creatTime := "" }],
        total := some 25 }
      { items := some [{ _id := "b", stuId := "2024002", role := "user", points := 0,
                         passedLevelNames := [], creatTime := "" }],
        total := some 24 }
      (by decide) (by decide) rfl (by decide)).2.1⟩

/-! ## Claims about escaping in the renderers -/

theorem LevelIntroduction.toList_escapeHtml (text : String) :
    (LevelIntroduction.escapeHtml text).toList
      = text.toList.flatMap LevelIntroduction.escapeHtmlChar := by
  unfold LevelIntroduction.escapeHtml
  by_cases h : text = ""
  · subst h; rfl
  · rw [if_neg h]
    rfl

theorem LevelIntroduction.mem_escapeHtmlChar (c x : Char)
    (h : x ∈ LevelIntroduction.escapeHtmlChar c) : x ≠ '<' ∧ x ≠ '>' := by
  unfold LevelIntroduction.escapeHtmlChar at h
  split_ifs at h with h1 h2 h3 h4
  · have : x ∈ ['&', 'a', 'm', 'p', ';'] := h
    simp only [List.mem_cons, List.mem_singleton, List.not_mem_nil, or_false] at this
    rcases this with rfl | rfl | rfl | rfl | rfl <;> decide
  · have : x ∈ ['&', 'l', 't', ';'] := h
    simp only [List.mem_cons, List.mem_singleton, List.not_mem_nil, or_false] at this
    rcases this with rfl | rfl | rfl | rfl <;> decide
  · have : x ∈ ['&', 'g', 't', ';'] := h
    simp only [List.mem_cons, List.mem_singleton, List.not_mem_nil, or_false] at this
    rcases this with rfl | rfl | rfl | rfl <;> decide
  · have : x ∈ ['&', 'n', 'b', 's', 'p', ';'] := h
    simp only [List.mem_cons, List.mem_singleton, List.not_mem_nil, or_false] at this
    rcases this with rfl | rfl | rfl | rfl | rfl | rfl <;> decide
  · rw [List.mem_singleton] at h
    subst h
    exact ⟨h2, h3⟩

theorem LevelIntroduction.amp_head_split (e pre rest : List Char) (h : '&' ∉ e)
    (heq : '&' :: e = pre ++ '&' :: rest) : pre = [] ∧ rest = e := by
  cases pre with
  | nil =>
    simp only [List.nil_append, List.cons.injEq, true_and] at heq
    exact ⟨rfl, heq.symm⟩
  | cons x pre =>
    simp only [List.cons_append, List.cons.injEq] at heq
    exact absurd (by rw [heq.2]; simp) h

/-- An `&` in what `escapeHtmlChar` writes for one character opens an entity. -/
theorem LevelIntroduction.amp_in_escapeHtmlChar (c : Char) (pre rest : List Char)
    (heq : LevelIntroduction.escapeHtmlChar c = pre ++ '&' :: rest) :
    pre = [] ∧ (rest = "amp;".toList ∨ rest = "lt;".toList ∨ rest = "gt;".toList
      ∨ rest = "nbsp;".toList) := by
  unfold LevelIntroduction.escapeHtmlChar at heq
  split_ifs at heq with h1 h2 h3 h4
  · obtain ⟨hp, hr⟩ := LevelIntroduction.amp_head_split ['a', 'm', 'p', ';'] pre rest
      (by decide) heq
    exact ⟨hp, Or.inl hr⟩
  · obtain ⟨hp, hr⟩ := LevelIntroduction.amp_head_split ['l', 't', ';'] pre rest
      (by decide) heq
    exact ⟨hp, Or.inr (Or.inl hr)⟩
  · obtain ⟨hp, hr⟩ := LevelIntroduction.amp_head_split ['g', 't', ';'] pre rest
      (by decide) heq
    exact ⟨hp, Or.inr (Or.inr (Or.inl hr))⟩
  · obtain ⟨hp, hr⟩ := LevelIntroduction.amp_head_split ['n', 'b', 's', 'p', ';'] pre rest
      (by decide) heq
    exact ⟨hp, Or.inr (Or.inr (Or.inr hr))⟩
  · cases pre with
    | nil =>
      simp only [List.nil_append, List.cons.injEq] at heq
      exact absurd heq.1 h1
    | cons x pre =>
      simp only [List.cons_append, List.cons.injEq] at heq
      exact absurd heq.2 (by simp)

/-- An `&` in the escaped form of a text opens one of the four entities. -/
theorem LevelIntroduction.amp_in_flatMap (l : List Char) (pre post : List Char)
    (heq : l.flatMap LevelIntroduction.escapeHtmlChar = pre ++ '&' :: post) :
    "amp;".toList <+: post ∨ "lt;".toList <+: post ∨ "gt;".toList <+: post
      ∨ "nbsp;".toList <+: post := by
  induction l generalizing pre with
  | nil =>
    simp only [List.flatMap_nil] at heq
    exact absurd heq.symm (by simp)
  | cons c l ih =>
    rw [List.flatMap_cons, List.append_eq_append_iff] at heq
    rcases heq with ⟨a, _, ha⟩ | ⟨b, hb, hpost⟩
    · exact ih a ha
    · cases b with
      | nil =>
        simp only [List.nil_append] at hpost
        exact ih [] hpost.symm
      | cons x b =>
        simp only [List.cons_append, List.cons.injEq] at hpost
        obtain ⟨hx, hpost⟩ := hpost
        subst hx
        obtain ⟨_, hent⟩ := LevelIntroduction.amp_in_escapeHtmlChar c pre b hb
        rw [hpost]
        rcases hent with h | h | h | h
        · exact Or.inl ⟨_, by rw [h]⟩
        · exact Or.inr (Or.inl ⟨_, by rw [h]⟩)
        · exact Or.inr (Or.inr (Or.inl ⟨_, by rw [h]⟩))
        · exact Or.inr (Or.inr (Or.inr ⟨_, by rw [h]⟩))

theorem LevelIntroduction.flatMap_escapeHtmlChar_plain (l : List Char)
    (h : ∀ c ∈ l, c ≠ '&' ∧ c ≠ '<' ∧ c ≠ '>' ∧ c ≠ Char.ofNat 0xA0) :
    l.flatMap LevelIntroduction.escapeHtmlChar = l := by
  induction l with
  | nil => rfl
  | cons c l ih =>
    obtain ⟨h1, h2, h3, h4⟩ := h c (List.mem_cons_self _ _)
    rw [List.flatMap_cons, ih (fun d hd => h d (List.mem_cons_of_mem _ hd))]
    simp [LevelIntroduction.escapeHtmlChar, h1, h2, h3, h4]

set_option maxRecDepth 100000 in
/-- C14 as stated fails for quotes even where the code escapes: `createLevelCard`
for a level named `say "hi" & <b>` writes the two double quotes of the name as
they are (`&`, `<` and `>` become entities). -/
theorem createLevelCard_quote_counterexample :
    LevelIntroduction.escapeHtml "say \"hi\" & <b>" = "say \"hi\" &amp; &lt;b&gt;"
    ∧ (LevelIntroduction.createLevelCard
        { _id := "L1", name := "say \"hi\" & <b>", info := "", description := "",
          points := 5, isActive := none }).innerHTML
      = "\n        <div class=\"level-header\">\n            <h3 class=\"level-name\">say \"hi\" &amp; &lt;b&gt;</h3>\n            <div class=\"level-points\">\n                <i class=\"fas fa-coins\"></i>\n                5 积分\n            </div>\n        </div>\n        <div class=\"level-description\">\n            暂无关卡说明\n        </div>\n        <div class=\"level-status active\">\n            进行中\n        </div>\n        <button class=\"view-detail-btn\" onclick=\"viewLevelDetail('L1')\">\n            <i class=\"fas fa-info-circle\"></i> 查看详情\n        </button>\n    " := by
  decide

set_option maxRecDepth 100000 in
/-- What `renderMembersTable` writes for a member whose `stuId` is
`<img src=x onerror=alert(1)>`: the text is embedded as it is, twice. -/
theorem memberRowHTML_raw_example (toLocaleString : String → String) :
    Members.membersTableHTML toLocaleString
        { Members.init with membersData :=
            [{ _id := "m1", stuId := "<img src=x onerror=alert(1)>", role := "user",
               points := 0, passedLevelNames := [], creatTime := "" }] }
      = "\n        <tr>\n            <td><img src=x onerror=alert(1)></td>\n            <td>\n                <span class=\"role-badge user\">\n                    普通成员\n                </span>\n            </td>\n            <td>0</td>\n            <td>\n                <div class=\"passed-levels\">\n                    无\n                </div>\n            </td>\n            <td>-</td>\n            <td>\n                <button class=\"action-btn view\" onclick=\"viewMemberDetail('m1')\" title=\"查看详情\">\n                    <i class=\"fas fa-eye\"></i>\n                </button>\n                <button class=\"action-btn edit\" onclick=\"editMember('m1')\" title=\"编辑成员\">\n                    <i class=\"fas fa-edit\"></i>\n                </button>\n                <button class=\"action-btn delete\" onclick=\"deleteMember('m1', '<img src=x onerror=alert(1)>')\" title=\"删除成员\">\n                    <i class=\"fas fa-trash\"></i>\n                </button>\n            </td>\n        </tr>\n    " := by
  rfl

set_option maxRecDepth 100000 in
/-- What `renderLevelsTable` writes for a level whose `name` is
`<script>alert(1)</script>`: the text is embedded as it is, twice. -/
theorem levelRowHTML_raw_example :
    Levels.levelsTableHTML
        { Levels.init with levelsData :=
            [{ _id := "l1", name := "<script>alert(1)</script>", info := "", points := 10,
               isActive := true }] }
      = "\n        <tr>\n            <td>\n                <strong><script>alert(1)</script></strong>\n            </td>\n            <td>\n                <div style=\"max-width: 300px; overflow: hidden; text-overflow: ellipsis;\">\n                    -\n                </div>\n            </td>\n            <td>\n                <span class=\"points-badge\">10 积分</span>\n            </td>\n            <td class=\"activation-controls\">\n                <div class=\"activation-row\">\n                    <label class=\"switch\">\n                        <input type=\"checkbox\" checked \n                               onchange=\"toggleLevelActive('l1', this.checked)\">\n                        <span class=\"slider round\"></span>\n                    </label>\n                    <div class=\"action-buttons\">\n                        <button class=\"action-btn edit\" onclick=\"editLevel('l1')\" title=\"编辑关卡\">\n                            <i class=\"fas fa-edit\"></i>\n                        </button>\n                        <button class=\"action-btn delete\" onclick=\"deleteLevel('l1', '<script>alert(1)</script>')\" title=\"删除关卡\">\n                            <i class=\"fas fa-trash\"></i>\n                        </button>\n                    </div>\n                </div>\n            </td>\n        </tr>\n    " := by
  rfl

theorem string_toList_append (s t : String) :
    (s ++ t).toList = s.toList ++ t.toList := rfl

theorem digitChar_ne_angle (k : Nat) (hk : k < 10) :
    Nat.digitChar k ≠ '<' ∧ Nat.digitChar k ≠ '>' := by
  interval_cases k <;> decide

theorem toDigitsCore_no_angle (fuel n : Nat) (ds : List Char)
    (h : '<' ∉ ds ∧ '>' ∉ ds) :
    '<' ∉ Nat.toDigitsCore 10 fuel n ds ∧ '>' ∉ Nat.toDigitsCore 10 fuel n ds := by
  induction fuel generalizing n ds with
  | zero => exact h
  | succ fuel ih =>
    have hd := digitChar_ne_angle (n % 10) (Nat.mod_lt _ (by norm_num))
    have hcons : '<' ∉ Nat.digitChar (n % 10) :: ds ∧ '>' ∉ Nat.digitChar (n % 10) :: ds := by
      constructor
      · intro hm
        rcases List.mem_cons.1 hm with h1 | h1
        · exact hd.1 h1.symm
        · exact h.1 h1
      · intro hm
        rcases List.mem_cons.1 hm with h1 | h1
        · exact hd.2 h1.symm
        · exact h.2 h1
    unfold Nat.toDigitsCore
    dsimp only
    split_ifs
    · exact hcons
    · exact ih (n / 10) _ hcons

theorem toString_nat_no_angle (n : Nat) :
    '<' ∉ (toString n).toList ∧ '>' ∉ (toString n).toList := by
  show '<' ∉ (Nat.repr n).toList ∧ '>' ∉ (Nat.repr n).toList
  unfold Nat.repr Nat.toDigits
  exact toDigitsCore_no_angle (n + 1) n [] ⟨List.not_mem_nil _, List.not_mem_nil _⟩

theorem toString_int_no_angle (n : Int) :
    '<' ∉ (toString n).toList ∧ '>' ∉ (toString n).toList := by
  cases n with
  | ofNat m => exact toString_nat_no_angle m
  | negSucc m =>
    have h := toString_nat_no_angle (m + 1)
    show '<' ∉ ("-" ++ toString (m + 1)).toList ∧ '>' ∉ ("-" ++ toString (m + 1)).toList
    rw [string_toList_append]
    constructor
    · intro hm
      rcases List.mem_append.1 hm with h1 | h1
      · revert h1; decide
      · exact h.1 h1
    · intro hm
      rcases List.mem_append.1 hm with h1 | h1
      · revert h1; decide
      · exact h.2 h1

theorem escapeHtml_no_angle (text : String) :
    '<' ∉ (LevelIntroduction.escapeHtml text).toList
      ∧ '>' ∉ (LevelIntroduction.escapeHtml text).toList := by
  rw [LevelIntroduction.toList_escapeHtml]
  constructor
  · intro hmem
    obtain ⟨c, _, hc⟩ := List.mem_flatMap.mp hmem
    exact (LevelIntroduction.mem_escapeHtmlChar c _ hc).1 rfl
  · intro hmem
    obtain ⟨c, _, hc⟩ := List.mem_flatMap.mp hmem
    exact (LevelIntroduction.mem_escapeHtmlChar c _ hc).2 rfl

set_option maxRecDepth 100000 in
/-- C14, amended: the markup produced by `createLevelCard` is the fixed template
with `escapeHtml(name)` as the content of the heading and `escapeHtml(info)` as
the content of the description, so it depends on the level name and the level
info only through their `escapeHtml` forms; `escapeHtml` writes no `<` and no
`>`, writes `&` only as the first character of `&amp;`, `&lt;`, `&gt;` or
`&nbsp;`, and leaves a text without `&`, `<`, `>` and no-break space (quotes
included) as it is; hence every `<` and `>` of the markup belongs to the
template or to the level id, whatever the name and the info are. -/
theorem createLevelCard_escapes :
    (∀ l₁ l₂ : LevelIntroduction.Level,
      l₁._id = l₂._id → l₁.points = l₂.points → l₁.isActive = l₂.isActive →
      LevelIntroduction.escapeHtml l₁.name = LevelIntroduction.escapeHtml l₂.name →
      LevelIntroduction.escapeHtml (LevelIntroduction.levelInfo l₁)
        = LevelIntroduction.escapeHtml (LevelIntroduction.levelInfo l₂) →
      (LevelIntroduction.createLevelCard l₁).innerHTML
        = (LevelIntroduction.createLevelCard l₂).innerHTML)
    ∧ (∀ text : String, '<' ∉ (LevelIntroduction.escapeHtml text).toList
        ∧ '>' ∉ (LevelIntroduction.escapeHtml text).toList)
    ∧ (∀ (text : String) (pre post : List Char),
        (LevelIntroduction.escapeHtml text).toList = pre ++ '&' :: post →
        "amp;".toList <+: post ∨ "lt;".toList <+: post ∨ "gt;".toList <+: post
          ∨ "nbsp;".toList <+: post)
    ∧ (∀ text : String,
        (∀ c ∈ text.toList, c ≠ '&' ∧ c ≠ '<' ∧ c ≠ '>' ∧ c ≠ Char.ofNat 0xA0) →
        LevelIntroduction.escapeHtml text = text)
    ∧ (∀ level : LevelIntroduction.Level,
        (LevelIntroduction.createLevelCard level).innerHTML
          = "\n        <div class=\"level-header\">\n            <h3 class=\"level-name\">"
          ++ LevelIntroduction.escapeHtml level.name
          ++ "</h3>\n            <div class=\"level-points\">\n                <i class=\"fas fa-coins\"></i>\n                "
          ++ toString level.points
          ++ " 积分\n            </div>\n        </div>\n        <div class=\"level-description\">\n            "
          ++ LevelIntroduction.escapeHtml (LevelIntroduction.levelInfo level)
          ++ "\n        </div>\n        <div class=\"level-status "
          ++ LevelIntroduction.statusClass level
          ++ "\">\n            "
          ++ LevelIntroduction.statusText level
          ++ "\n        </div>\n        <button class=\"view-detail-btn\" onclick=\"viewLevelDetail('"
          ++ level._id
          ++ "')\">\n            <i class=\"fas fa-info-circle\"></i> 查看详情\n        </button>\n    ")
    ∧ (∀ level : LevelIntroduction.Level,
        (LevelIntroduction.createLevelCard level).innerHTML.toList.count '<'
            = 16 + level._id.toList.count '<'
          ∧ (LevelIntroduction.createLevelCard level).innerHTML.toList.count '>'
            = 16 + level._id.toList.count '>') := by
  refine ⟨?_, ?_, ?_, ?_, fun _ => rfl, ?_⟩
  · intro l₁ l₂ hid hpoints hactive hname hinfo
    unfold LevelIntroduction.createLevelCard LevelIntroduction.statusClass
      LevelIntroduction.statusText LevelIntroduction.isActive
    simp only [hid, hpoints, hactive, hname, hinfo]
  · intro text
    rw [LevelIntroduction.toList_escapeHtml]
    constructor
    · intro hmem
      obtain ⟨c, _, hc⟩ := List.mem_flatMap.mp hmem
      exact (LevelIntroduction.mem_escapeHtmlChar c _ hc).1 rfl
    · intro hmem
      obtain ⟨c, _, hc⟩ := List.mem_flatMap.mp hmem
      exact (LevelIntroduction.mem_escapeHtmlChar c _ hc).2 rfl
  · intro text pre post heq
    rw [LevelIntroduction.toList_escapeHtml] at heq
    exact LevelIntroduction.amp_in_flatMap text.toList pre post heq
  · intro text hplain
    have h := LevelIntroduction.toList_escapeHtml text
    rw [LevelIntroduction.flatMap_escapeHtmlChar_plain text.toList hplain] at h
    exact String.ext h
  · intro level
    have hn := escapeHtml_no_angle level.name
    have hi := escapeHtml_no_angle (LevelIntroduction.levelInfo level)
    have hp := toString_int_no_angle level.points
    have hsc : LevelIntroduction.statusClass level = "active"
        ∨ LevelIntroduction.statusClass level = "inactive" := by
      unfold LevelIntroduction.statusClass
      split_ifs
      · exact Or.inl rfl
      · exact Or.inr rfl
    have hst : LevelIntroduction.statusText level = "进行中"
        ∨ LevelIntroduction.statusText level = "未开放" := by
      unfold LevelIntroduction.statusText
      split_ifs
      · exact Or.inl rfl
      · exact Or.inr rfl
    have hsc0 : (LevelIntroduction.statusClass level).toList.count '<' = 0
        ∧ (LevelIntroduction.statusClass level).toList.count '>' = 0 := by
      rcases hsc with h | h <;> rw [h] <;> decide
    have hst0 : (LevelIntroduction.statusText level).toList.count '<' = 0
        ∧ (LevelIntroduction.statusText level).toList.count '>' = 0 := by
      rcases hst with h | h <;> rw [h] <;> decide
    unfold LevelIntroduction.createLevelCard
    simp only [string_toList_append, List.count_append]
    rw [List.count_eq_zero.2 hn.1, List.count_eq_zero.2 hn.2, List.count_eq_zero.2 hi.1,
      List.count_eq_zero.2 hi.2, List.count_eq_zero.2 hp.1, List.count_eq_zero.2 hp.2,
      hsc0.1, hsc0.2, hst0.1, hst0.2]
    have hlt0 : List.count '<' "\n        <div class=\"level-header\">\n            <h3 class=\"level-name\">".toList = 2 := by decide
    have hgt0 : List.count '>' "\n        <div class=\"level-header\">\n            <h3 class=\"level-name\">".toList = 2 := by decide
    have hlt1 : List.count '<' "</h3>\n            <div class=\"level-points\">\n                <i class=\"fas fa-coins\"></i>\n                ".toList = 4 := by decide
    have hgt1 : List.count '>' "</h3>\n            <div class=\"level-points\">\n                <i class=\"fas fa-coins\"></i>\n                ".toList = 4 := by decide
    have hlt2 : List.count '<' " 积分\n            </div>\n        </div>\n        <div class=\"level-description\">\n            ".toList = 3 := by decide
    have hgt2 : List.count '>' " 积分\n            </div>\n        </div>\n        <div class=\"level-description\">\n            ".toList = 3 := by decide
    have hlt3 : List.count '<' "\n        </div>\n        <div class=\"level-status ".toList = 2 := by decide
    have hgt3 : List.count '>' "\n        </div>\n        <div class=\"level-status ".toList = 1 := by decide
    have hlt4 : List.count '<' "\">\n            ".toList = 0 := by decide
    have hgt4 : List.count '>' "\">\n            ".toList = 1 := by decide
    have hlt5 : List.count '<' "\n        </div>\n        <button class=\"view-detail-btn\" onclick=\"viewLevelDetail('".toList = 2 := by decide
    have hgt5 : List.count '>' "\n        </div>\n        <button class=\"view-detail-btn\" onclick=\"viewLevelDetail('".toList = 1 := by decide
    have hlt6 : List.count '<' "')\">\n            <i class=\"fas fa-info-circle\"></i> 查看详情\n        </button>\n    ".toList = 3 := by decide
    have hgt6 : List.count '>' "')\">\n            <i class=\"fas fa-info-circle\"></i> 查看详情\n        </button>\n    ".toList = 4 := by decide
    rw [hlt0, hgt0, hlt1, hgt1, hlt2, hgt2, hlt3, hgt3, hlt4, hgt4, hlt5, hgt5, hlt6, hgt6]
    constructor <;> omega

/-- Instance of amended C14: two levels whose names are `<b>`, and the escaped
form `&lt;b&gt;` of that name. -/
theorem createLevelCard_escapes_witness :
    '<' ∉ (LevelIntroduction.escapeHtml "<b>").toList
    ∧ ((LevelIntroduction.escapeHtml "<b>").toList = [] ++ '&' :: "lt;b&gt;".toList
        ∧ ("amp;".toList <+: "lt;b&gt;".toList ∨ "lt;".toList <+: "lt;b&gt;".toList
            ∨ "gt;".toList <+: "lt;b&gt;".toList ∨ "nbsp;".toList <+: "lt;b&gt;".toList))
    ∧ (LevelIntroduction.createLevelCard
          { _id := "L1", name := "<b>", info := "", description := "x", points := 5,
            isActive := none }).innerHTML
        = (LevelIntroduction.createLevelCard
          { _id := "L1", name := "<b>", info := "x", description := "", points := 5,
            isActive := none }).innerHTML :=
  ⟨(createLevelCard_escapes.2.1 "<b>").1,
   ⟨by decide, createLevelCard_escapes.2.2.1 "<b>" [] "lt;b&gt;".toList (by decide)⟩,
   createLevelCard_escapes.1 _ _ rfl rfl rfl rfl (by decide)⟩

/-! ## Claims about `NISAHttp.request` -/

theorem jsIncludes_ne_empty (s : String) (h : jsIncludes s "application/json" = true) :
    s ≠ "" := by
  intro hs
  subst hs
  revert h
  decide

theorem NISAHttp.request_calls (url : String) (options : NISAHttp.Options)
    (outcome : NISAHttp.FetchResult) :
    (NISAHttp.request url options outcome).1
      = [{ url := NISAHttp.fullUrl url, method := options.method, body := options.body,
           headers := NISAHttp.spread [("X-Requested-With", "XMLHttpRequest")]
             options.headers }] := by
  unfold NISAHttp.request
  cases outcome with
  | rejected reason => rfl
  | response r =>
    dsimp only
    split_ifs
    · rfl
    · cases r.contentType with
      | none => dsimp only; cases r.text <;> rfl
      | some ct =>
        dsimp only
        split_ifs
        · cases r.json <;> rfl
        · cases r.text <;> rfl

/-- C15: `NISAHttp.request` calls `fetch` exactly once whatever the outcome, with
the argument itself as URL when it starts with "http" and "/api" followed by the
argument otherwise; for a response it throws the error with message
"HTTP status: statusText" exactly when the response is not ok; for an ok
response it settles as `response.json()` does when the content type contains
"application/json" and as `response.text()` does otherwise. -/
theorem request_spec (url : String) (options : NISAHttp.Options)
    (outcome : NISAHttp.FetchResult) :
    ((NISAHttp.request url options outcome).1.length = 1
      ∧ (NISAHttp.request url options outcome).1.map NISAHttp.FetchCall.url
          = [if jsStartsWith url "http" then url else "/api" ++ url])
    ∧ ∀ r : NISAHttp.Response, outcome = NISAHttp.FetchResult.response r →
        ((∃ status statusText, (NISAHttp.request url options outcome).2
              = Except.error (NISAHttp.Thrown.httpError status statusText))
          ↔ responseOk r.status = false)
        ∧ (responseOk r.status = false →
            (NISAHttp.request url options outcome).2
              = Except.error (NISAHttp.Thrown.httpError r.status r.statusText)
            ∧ (NISAHttp.Thrown.httpError r.status r.statusText).message
              = "HTTP " ++ toString r.status ++ ": " ++ r.statusText)
        ∧ (responseOk r.status = true →
            (∃ ct, r.contentType = some ct ∧ jsIncludes ct "application/json" = true) →
            (NISAHttp.request url options outcome).2
              = match r.json with
                | Except.ok v => Except.ok (NISAHttp.Body.json v)
                | Except.error e => Except.error (NISAHttp.Thrown.reason e))
        ∧ (responseOk r.status = true →
            (r.contentType = none
              ∨ ∃ ct, r.contentType = some ct ∧ jsIncludes ct "application/json" = false) →
            (NISAHttp.request url options outcome).2
              = match r.text with
                | Except.ok s => Except.ok (NISAHttp.Body.text s)
                | Except.error e => Except.error (NISAHttp.Thrown.reason e)) := by
  refine ⟨⟨by rw [NISAHttp.request_calls]; rfl, by rw [NISAHttp.request_calls]; rfl⟩, ?_⟩
  intro r hr
  subst hr
  have hjson : ∀ ct, r.contentType = some ct → jsIncludes ct "application/json" = true →
      responseOk r.status = true →
      (NISAHttp.request url options (NISAHttp.FetchResult.response r)).2
        = match r.json with
          | Except.ok v => Except.ok (NISAHttp.Body.json v)
          | Except.error e => Except.error (NISAHttp.Thrown.reason e) := by
    intro ct hct hinc hok
    have hne := jsIncludes_ne_empty ct hinc
    unfold NISAHttp.request
    simp only [hok, hct, hinc, hne, ne_eq, not_false_eq_true, decide_True, Bool.and_self,
      Bool.not_true, Bool.false_eq_true, if_false, if_true]
    cases r.json <;> rfl
  have htext : (r.contentType = none
        ∨ ∃ ct, r.contentType = some ct ∧ jsIncludes ct "application/json" = false) →
      responseOk r.status = true →
      (NISAHttp.request url options (NISAHttp.FetchResult.response r)).2
        = match r.text with
          | Except.ok s => Except.ok (NISAHttp.Body.text s)
          | Except.error e => Except.error (NISAHttp.Thrown.reason e) := by
    intro hct hok
    unfold NISAHttp.request
    rcases hct with hnone | ⟨ct, hct, hinc⟩
    · simp only [hok, hnone, Bool.not_true, Bool.false_eq_true, if_false]
      cases r.text <;> rfl
    · simp only [hok, hct, hinc, Bool.and_false, Bool.not_true, Bool.false_eq_true, if_false]
      cases r.text <;> rfl
  have hbad : responseOk r.status = false →
      (NISAHttp.request url options (NISAHttp.FetchResult.response r)).2
        = Except.error (NISAHttp.Thrown.httpError r.status r.statusText) := by
    intro hno
    unfold NISAHttp.request
    simp only [hno, Bool.not_false, if_true]
  refine ⟨⟨?_, fun hno => ⟨_, _, hbad hno⟩⟩, fun hno => ⟨hbad hno, rfl⟩,
    fun hok ⟨ct, hct, hinc⟩ => hjson ct hct hinc hok, fun hok hct => htext hct hok⟩
  rintro ⟨status, statusText, hthrow⟩
  by_contra hok
  have hok : responseOk r.status = true := by
    cases h : responseOk r.status
    · exact absurd h hok
    · rfl
  cases hc : r.contentType with
  | none =>
    rw [htext (Or.inl hc) hok] at hthrow
    cases ht : r.text <;> rw [ht] at hthrow <;> cases hthrow
  | some ct =>
    cases hinc : jsIncludes ct "application/json"
    · rw [htext (Or.inr ⟨ct, hc, hinc⟩) hok] at hthrow
      cases ht : r.text <;> rw [ht] at hthrow <;> cases hthrow
    · rw [hjson ct hc hinc hok] at hthrow
      cases hj : r.json <;> rw [hj] at hthrow <;> cases hthrow

/-- Instance of C15: `request("/user/info")` answered with status 500. -/
theorem request_spec_witness :
    responseOk 500 = false
    ∧ (NISAHttp.request "/user/info" { method := some "GET", body := none, headers := [] }
        (NISAHttp.FetchResult.response
          { status := 500, statusText := "Internal Server Error", contentType := none,
            json := Except.error "", text := Except.ok "" })).1.map NISAHttp.FetchCall.url
      = [if jsStartsWith "/user/info" "http" then "/user/info" else "/api" ++ "/user/info"]
    ∧ (NISAHttp.Thrown.httpError 500 "Internal Server Error").message
      = "HTTP " ++ toString 500 ++ ": " ++ "Internal Server Error" :=
  ⟨by decide,
   (request_spec "/user/info" { method := some "GET", body := none, headers := [] }
      (NISAHttp.FetchResult.response
        { status := 500, statusText := "Internal Server Error", contentType := none,
          json := Except.error "", text := Except.ok "" })).1.2,
   (((request_spec "/user/info" { method := some "GET", body := none, headers := [] }
      (NISAHttp.FetchResult.response
        { status := 500, statusText := "Internal Server Error", contentType := none,
          json := Except.error "", text := Except.ok "" })).2 _ rfl).2.1 (by decide)).2⟩

/-! ## Claims about the validators of `NISAUtils` -/

theorem matchAtoms_single_anchored (cls : Nat → Bool) (min max : Nat) (units : List Nat) :
    matchAtoms true [{ cls := cls, min := min, max := some max }] units = true
      ↔ (min ≤ units.length ∧ units.length ≤ max ∧ ∀ u ∈ units, cls u = true) := by
  simp only [matchAtoms, List.any_eq_true, List.mem_range, Bool.and_eq_true, decide_eq_true_eq,
    List.all_eq_true, Bool.not_true, Bool.false_or, List.isEmpty_iff, List.drop_eq_nil_iff]
  constructor
  · rintro ⟨k, hk, ⟨⟨hmin, hmax⟩, hall⟩, hdrop⟩
    have hk' : k = units.length := by omega
    subst hk'
    rw [List.take_length] at hall
    exact ⟨hmin, hmax, hall⟩
  · rintro ⟨hmin, hmax, hall⟩
    exact ⟨units.length, by omega, ⟨⟨hmin, hmax⟩, by rw [List.take_length]; exact hall⟩, le_refl _⟩

theorem clsAlnum_lt (u : Nat) (h : clsAlnum u = true) : u < 0x80 := by
  simp only [clsAlnum, clsLower, clsUpper, clsDigit, Bool.or_eq_true, Bool.and_eq_true,
    decide_eq_true_eq] at h
  omega

theorem jsUnits_all_alnum (s : String) :
    (∀ u ∈ jsUnits s, clsAlnum u = true) ↔ (∀ c ∈ s.toList, clsAlnum c.toNat = true) := by
  unfold jsUnits
  constructor
  · intro h c hc
    by_cases hb : c.toNat < 0x10000
    · apply h
      rw [List.mem_flatMap]
      exact ⟨c, hc, by simp [hb]⟩
    · exfalso
      have hmem : 0xD800 + (c.toNat - 0x10000) / 0x400 ∈ s.toList.flatMap fun c =>
          if c.toNat < 0x10000 then [c.toNat]
          else [0xD800 + (c.toNat - 0x10000) / 0x400, 0xDC00 + (c.toNat - 0x10000) % 0x400] := by
        rw [List.mem_flatMap]
        exact ⟨c, hc, by simp [hb]⟩
      have := clsAlnum_lt _ (h _ hmem)
      omega
  · intro h u hu
    rw [List.mem_flatMap] at hu
    obtain ⟨c, hc, hu⟩ := hu
    have hlt := clsAlnum_lt _ (h c hc)
    rw [if_pos (by omega), List.mem_singleton] at hu
    rw [hu]; exact h c hc

theorem jsLength_of_bmp (s : String) (h : ∀ c ∈ s.toList, c.toNat < 0x10000) :
    jsLength s = s.length := by
  unfold jsLength jsUnits
  show _ = s.toList.length
  generalize s.toList = l at h
  induction l with
  | nil => rfl
  | cons c l ih =>
    rw [List.flatMap_cons, List.length_append, ih (fun d hd => h d (List.mem_cons_of_mem _ hd)),
      if_pos (h c (List.mem_cons_self _ _))]
    simp [Nat.add_comm]

theorem uint32_le_iff (a b : UInt32) : a ≤ b ↔ a.toNat ≤ b.toNat := by
  simp [UInt32.le_def, BitVec.le_def, UInt32.toNat]

theorem clsAlnum_toNat (c : Char) : clsAlnum c.toNat = c.isAlphanum := by
  simp only [clsAlnum, clsLower, clsUpper, clsDigit, Char.isAlphanum, Char.isAlpha, Char.isUpper,
    Char.isLower, Char.isDigit, Char.toNat, uint32_le_iff, ge_iff_le]
  have e1 : (97 : UInt32).toNat = 97 := rfl
  have e2 : (122 : UInt32).toNat = 122 := rfl
  have e3 : (65 : UInt32).toNat = 65 := rfl
  have e4 : (90 : UInt32).toNat = 90 := rfl
  have e5 : (48 : UInt32).toNat = 48 := rfl
  have e6 : (57 : UInt32).toNat = 57 := rfl
  rw [e1, e2, e3, e4, e5, e6]
  cases decide (97 ≤ c.val.toNat) <;> cases decide (c.val.toNat ≤ 122) <;>
    cases decide (65 ≤ c.val.toNat) <;> cases decide (c.val.toNat ≤ 90) <;>
    cases decide (48 ≤ c.val.toNat) <;> cases decide (c.val.toNat ≤ 57) <;> rfl

theorem jsLength_eq_zero_iff (s : String) : jsLength s = 0 ↔ s = "" := by
  unfold jsLength jsUnits
  constructor
  · intro h
    apply String.ext
    show s.toList = []
    cases hl : s.toList with
    | nil => rfl
    | cons c l =>
      rw [hl, List.flatMap_cons, List.length_append] at h
      by_cases hb : c.toNat < 0x10000
      · rw [if_pos hb] at h; simp at h
      · rw [if_neg hb] at h; simp at h
  · intro h
    subst h
    rfl

theorem validatePassword_nonempty (p : String) (hp : p ≠ "") :
    (NISAUtils.validatePassword p).valid = decide (6 ≤ jsLength p)
    ∧ (NISAUtils.validatePassword p).messages
        = if jsLength p < 6 then ["密码长度至少6位"] else [] := by
  unfold NISAUtils.validatePassword
  simp only [if_neg hp]
  by_cases h6 : jsLength p < 6
  · have h6' : ¬ 6 ≤ jsLength p := by omega
    simp only [h6, h6', if_true, decide_False]
    split_ifs <;> exact ⟨rfl, rfl⟩
  · have h6' : 6 ≤ jsLength p := by omega
    simp only [h6, h6', if_false, decide_True]
    split_ifs <;> exact ⟨rfl, rfl⟩

/-- C16: `validateStuId(s)` is true exactly when `s` has between 6 and 20
characters and each of them is an ASCII letter or digit. -/
theorem validateStuId_iff (s : String) :
    NISAUtils.validateStuId s = true
      ↔ (6 ≤ s.length ∧ s.length ≤ 20 ∧ ∀ c ∈ s.toList, c.isAlphanum = true) := by
  unfold NISAUtils.validateStuId Regex.test
  simp only [if_true]
  rw [matchAtoms_single_anchored, jsUnits_all_alnum]
  have hiff : (∀ c ∈ s.toList, clsAlnum c.toNat = true)
      ↔ (∀ c ∈ s.toList, c.isAlphanum = true) := by
    constructor
    · intro h c hc; rw [← clsAlnum_toNat]; exact h c hc
    · intro h c hc; rw [clsAlnum_toNat]; exact h c hc
  rw [hiff]
  constructor
  · rintro ⟨h1, h2, h3⟩
    have hlen : jsLength s = s.length := jsLength_of_bmp s (fun c hc => by
      have := clsAlnum_lt _ (hiff.mpr h3 c hc); omega)
    unfold jsLength at hlen
    rw [hlen] at h1 h2
    exact ⟨h1, h2, h3⟩
  · rintro ⟨h1, h2, h3⟩
    have hlen : jsLength s = s.length := jsLength_of_bmp s (fun c hc => by
      have := clsAlnum_lt _ (hiff.mpr h3 c hc); omega)
    unfold jsLength at hlen
    rw [hlen]
    exact ⟨h1, h2, h3⟩

/-- Instance of C16: "nisa2024" is accepted, through the right-to-left direction. -/
theorem validateStuId_iff_witness :
    (6 ≤ "nisa2024".length ∧ "nisa2024".length ≤ 20
      ∧ ∀ c ∈ "nisa2024".toList, c.isAlphanum = true)
    ∧ NISAUtils.validateStuId "nisa2024" = true :=
  ⟨by decide, (validateStuId_iff "nisa2024").mpr (by decide)⟩

/-- C17: `validatePassword(p).valid` is true exactly when the length of `p` is at
least 6; for the empty `p` the result has strength 0 and the single message
'密码不能为空'; for a length from 1 to 5 the messages are exactly
'密码长度至少6位'; a valid result has no message. The length is the `length`
property, which is the number of characters when all of them are in the Basic
Multilingual Plane. -/
theorem validatePassword_spec (p : String) :
    ((NISAUtils.validatePassword p).valid = true ↔ 6 ≤ jsLength p)
    ∧ (p = "" → NISAUtils.validatePassword p
        = { valid := false, strength := 0, messages := ["密码不能为空"] })
    ∧ (1 ≤ jsLength p → jsLength p ≤ 5 →
        (NISAUtils.validatePassword p).messages = ["密码长度至少6位"])
    ∧ ((NISAUtils.validatePassword p).valid = true →
        (NISAUtils.validatePassword p).messages = [])
    ∧ (jsLength p = 0 ↔ p = "")
    ∧ ((∀ c ∈ p.toList, c.toNat < 0x10000) → jsLength p = p.length) := by
  have hvalid : (NISAUtils.validatePassword p).valid = true ↔ 6 ≤ jsLength p := by
    by_cases hp : p = ""
    · subst hp
      constructor
      · intro h; revert h; decide
      · intro h; revert h; decide
    · rw [(validatePassword_nonempty p hp).1, decide_eq_true_eq]
  refine ⟨hvalid, ?_, ?_, ?_, jsLength_eq_zero_iff p, jsLength_of_bmp p⟩
  · intro hp
    subst hp
    rfl
  · intro h1 h5
    have hp : p ≠ "" := fun h => by
      have := (jsLength_eq_zero_iff p).mpr h
      omega
    rw [(validatePassword_nonempty p hp).2, if_pos (by omega)]
  · intro hv
    have h6 := hvalid.mp hv
    have hp : p ≠ "" := fun h => by
      have := (jsLength_eq_zero_iff p).mpr h
      omega
    rw [(validatePassword_nonempty p hp).2, if_neg (by omega)]

/-- Instance of C17: the password "abc" has length 3 and the one message. -/
theorem validatePassword_spec_witness :
    (1 ≤ jsLength "abc" ∧ jsLength "abc" ≤ 5)
    ∧ (NISAUtils.validatePassword "abc").messages = ["密码长度至少6位"] :=
  ⟨by decide, (validatePassword_spec "abc").2.2.1 (by decide) (by decide)⟩

/-! ## Claims about `NISAUtils.throttle` -/

theorem throttleCall_fst {α β : Type} (func : α → β) (delay L0 t : Int) (a : α) :
    (NISAUtils.throttleCall func delay L0 t a).1
      = if (NISAUtils.throttleCall func delay L0 t a).2.isSome then t else L0 := by
  unfold NISAUtils.throttleCall
  by_cases h : t - L0 ≥ delay
  · rw [if_pos h]; rfl
  · rw [if_neg h]; rfl

theorem throttleRun_length {α β : Type} (func : α → β) (delay : Int) (calls : List (Int × α)) :
    ∀ L0 : Int, (NISAUtils.throttleRun func delay L0 calls).length = calls.length := by
  induction calls with
  | nil => intro L0; rfl
  | cons c rest ih =>
    intro L0
    obtain ⟨t, a⟩ := c
    simp only [NISAUtils.throttleRun, List.length_cons, ih]

theorem throttleRun_getElem {α β : Type} (func : α → β) (delay : Int)
    (calls : List (Int × α)) :
    ∀ (L0 : Int) (i : Nat) (t : Int) (a : α), calls[i]? = some (t, a) →
      (NISAUtils.throttleRun func delay L0 calls)[i]?
        = some (if t - NISAUtils.specLastInvoked L0
              (((calls.map Prod.fst).zip (NISAUtils.throttleRun func delay L0 calls)).take i) ≥ delay
            then some (func a) else none) := by
  induction calls with
  | nil => intro L0 i t a h; simp at h
  | cons c rest ih =>
    intro L0 i t a h
    obtain ⟨t0, a0⟩ := c
    cases i with
    | zero =>
      simp only [List.getElem?_cons_zero, Option.some.injEq, Prod.mk.injEq] at h
      obtain ⟨rfl, rfl⟩ := h
      simp only [NISAUtils.throttleRun, List.getElem?_cons_zero, List.take_zero, NISAUtils.specLastInvoked,
        List.foldl_nil, NISAUtils.throttleCall]
      by_cases hc : t0 - L0 ≥ delay
      · rw [if_pos hc, if_pos hc]
      · rw [if_neg hc, if_neg hc]
    | succ i =>
      simp only [List.getElem?_cons_succ] at h
      have hih := ih (NISAUtils.throttleCall func delay L0 t0 a0).1 i t a h
      simp only [NISAUtils.throttleRun, List.getElem?_cons_succ, List.map_cons, List.zip_cons_cons,
        List.take_succ_cons, NISAUtils.specLastInvoked, List.foldl_cons]
      rw [hih, throttleCall_fst]
      rfl

theorem specLastInvoked_cases {β : Type} (trace : List (Int × Option β)) :
    ∀ L0 : Int, NISAUtils.specLastInvoked L0 trace = L0
      ∨ ∃ p ∈ trace, NISAUtils.specLastInvoked L0 trace = p.1 := by
  induction trace with
  | nil => intro L0; exact Or.inl rfl
  | cons q tr ih =>
    intro L0
    simp only [NISAUtils.specLastInvoked, List.foldl_cons]
    rcases ih (if q.2.isSome then q.1 else L0) with h | ⟨p, hp, h⟩
    · by_cases hq : q.2.isSome = true
      · right
        refine ⟨q, List.mem_cons_self _ _, ?_⟩
        simp only [NISAUtils.specLastInvoked, hq, if_true] at h
        simp only [hq, if_true]
        exact h
      · left
        simp only [NISAUtils.specLastInvoked, hq] at h
        simp only [hq]
        exact h
    · right
      exact ⟨p, List.mem_cons_of_mem _ hp, h⟩

theorem le_specLastInvoked {β : Type} (trace : List (Int × Option β)) :
    ∀ L0 : Int, (trace.map Prod.fst).Pairwise (· ≤ ·) →
      ∀ p ∈ trace, p.2.isSome = true → p.1 ≤ NISAUtils.specLastInvoked L0 trace := by
  induction trace with
  | nil => intro L0 _ p hp; cases hp
  | cons q tr ih =>
    intro L0 hsorted p hp hsome
    rw [List.map_cons, List.pairwise_cons] at hsorted
    obtain ⟨hq, htr⟩ := hsorted
    have hunfold : NISAUtils.specLastInvoked L0 (q :: tr)
        = NISAUtils.specLastInvoked (if q.2.isSome then q.1 else L0) tr := by
      simp only [NISAUtils.specLastInvoked, List.foldl_cons]
    rw [hunfold]
    rcases List.mem_cons.mp hp with rfl | hmem
    · rw [if_pos hsome]
      rcases specLastInvoked_cases tr p.1 with h | ⟨p', hp', h⟩
      · rw [h]
      · rw [h]
        exact hq p'.1 (List.mem_map_of_mem _ hp')
    · exact ih _ htr p hmem hsome

/-- C18: for every sequence of calls of a function returned by
`throttle(func, delay)`, a call at time `t` invokes `func` with its arguments and
returns the result exactly when `t - L ≥ delay`, where `L` is the time of the
most recent invoking call before it (0 when there is none), and returns
`undefined` otherwise; when the times are non-decreasing, two invoking calls
are at least `delay` apart. -/
theorem throttle_spec {α β : Type} (func : α → β) (delay : Int) (calls : List (Int × α)) :
    (NISAUtils.throttleRun func delay NISAUtils.throttleInit calls).length = calls.length
    ∧ (∀ (i : Nat) (t : Int) (a : α), calls[i]? = some (t, a) →
        (NISAUtils.throttleRun func delay NISAUtils.throttleInit calls)[i]?
          = some (if t - NISAUtils.specLastInvoked 0
                (((calls.map Prod.fst).zip
                  (NISAUtils.throttleRun func delay NISAUtils.throttleInit calls)).take i) ≥ delay
              then some (func a) else none))
    ∧ ((calls.map Prod.fst).Pairwise (· ≤ ·) →
        ∀ (i j : Nat) (ti tj : Int) (ai aj : α) (yi yj : β), i < j →
          calls[i]? = some (ti, ai) → calls[j]? = some (tj, aj) →
          (NISAUtils.throttleRun func delay NISAUtils.throttleInit calls)[i]? = some (some yi) →
          (NISAUtils.throttleRun func delay NISAUtils.throttleInit calls)[j]? = some (some yj) →
          delay ≤ tj - ti) := by
  refine ⟨throttleRun_length func delay calls _, throttleRun_getElem func delay calls _, ?_⟩
  intro hsorted i j ti tj ai aj yi yj hij hi hj hri hrj
  have hj' := throttleRun_getElem func delay calls NISAUtils.throttleInit j tj aj hj
  rw [hrj] at hj'
  have hcond : tj - NISAUtils.specLastInvoked NISAUtils.throttleInit
      (((calls.map Prod.fst).zip (NISAUtils.throttleRun func delay NISAUtils.throttleInit calls)).take j)
        ≥ delay := by
    by_contra hno
    rw [if_neg hno] at hj'
    cases hj'
  have hmem : (ti, some yi)
      ∈ ((calls.map Prod.fst).zip (NISAUtils.throttleRun func delay NISAUtils.throttleInit calls)).take j := by
    apply List.getElem?_mem (n := i)
    rw [List.getElem?_take_of_lt hij, List.getElem?_zip_eq_some]
    exact ⟨by rw [List.getElem?_map, hi]; rfl, hri⟩
  have hsorted' : ((((calls.map Prod.fst).zip
      (NISAUtils.throttleRun func delay NISAUtils.throttleInit calls)).take j).map Prod.fst).Pairwise (· ≤ ·) := by
    rw [List.map_take, List.map_fst_zip _ _ (by
      rw [List.length_map, throttleRun_length])]
    exact List.Pairwise.sublist (List.take_sublist _ _) hsorted
  have hle := le_specLastInvoked _ NISAUtils.throttleInit hsorted' (ti, some yi) hmem rfl
  have hle' : ti ≤ NISAUtils.specLastInvoked NISAUtils.throttleInit
      (((calls.map Prod.fst).zip (NISAUtils.throttleRun func delay NISAUtils.throttleInit calls)).take j) := hle
  omega


/-- Instance of C18: calls at 1000, 1100 and 1300 with a delay of 300; the second is
suppressed, being 100 after the first. -/
theorem throttle_spec_witness :
    ([((1000 : Int), (1 : Nat)), (1100, 2), (1300, 3)] : List (Int × Nat))[1]? = some (1100, 2)
    ∧ (NISAUtils.throttleRun (fun n : Nat => n + 1) 300 NISAUtils.throttleInit
        [(1000, 1), (1100, 2), (1300, 3)])[1]?
      = some (if 1100 - NISAUtils.specLastInvoked 0
            ((([((1000 : Int), (1 : Nat)), (1100, 2), (1300, 3)].map Prod.fst).zip
              (NISAUtils.throttleRun (fun n : Nat => n + 1) 300 NISAUtils.throttleInit
                [(1000, 1), (1100, 2), (1300, 3)])).take 1) ≥ 300
          then some ((fun n : Nat => n + 1) 2) else none)
    ∧ (NISAUtils.throttleRun (fun n : Nat => n + 1) 300 NISAUtils.throttleInit
        [(1000, 1), (1100, 2), (1300, 3)]) = [some 2, none, some 4] :=
  ⟨rfl,
   (throttle_spec (fun n : Nat => n + 1) 300 [(1000, 1), (1100, 2), (1300, 3)]).2.1
     1 1100 2 rfl,
   by decide⟩

/-! ## Claims about `NISAUtils.deepClone` -/

theorem assignProp_fresh (cloned : List (String × JSValue)) (key : String) (value : JSValue)
    (hproto : key ≠ "__proto__") (hfresh : key ∉ cloned.map Prod.fst) :
    NISAUtils.assignProp cloned key value = cloned ++ [(key, value)] := by
  unfold NISAUtils.assignProp
  rw [if_neg hproto]
  have hany : cloned.any (fun p => p.1 == key) = false := by
    rw [List.any_eq_false]
    intro p hp
    simp only [beq_iff_eq]
    intro heq
    exact hfresh (heq ▸ List.mem_map_of_mem Prod.fst hp)
  rw [hany]
  rfl

mutual
theorem deepClone_eq_self : ∀ v : JSValue, NISAUtils.plainKeys v = true → NISAUtils.deepClone v = v
  | JSValue.null, _ => rfl
  | JSValue.bool _, _ => rfl
  | JSValue.num _, _ => rfl
  | JSValue.str _, _ => rfl
  | JSValue.arr items, h => by
    simp only [NISAUtils.plainKeys] at h
    simp only [NISAUtils.deepClone, deepCloneItems_eq_self items h]
  | JSValue.obj props, h => by
    simp only [NISAUtils.plainKeys, Bool.and_eq_true, decide_eq_true_eq, Bool.not_eq_true',
      List.contains_eq_any_beq, List.any_eq_false] at h
    obtain ⟨⟨hnodup, hproto⟩, hprops⟩ := h
    have := deepCloneProps_eq props [] hprops hnodup
      (fun k hk => by
        intro hkp
        have := hproto k hk
        simp [hkp] at this)
      (fun k _ hk => by cases hk)
    simp only [NISAUtils.deepClone, this, List.nil_append]
theorem deepCloneItems_eq_self : ∀ items : List JSValue, NISAUtils.plainKeysItems items = true →
    NISAUtils.deepCloneItems items = items
  | [], _ => rfl
  | item :: rest, h => by
    simp only [NISAUtils.plainKeysItems, Bool.and_eq_true] at h
    simp only [NISAUtils.deepCloneItems, deepClone_eq_self item h.1, deepCloneItems_eq_self rest h.2]
theorem deepCloneProps_eq : ∀ (props cloned : List (String × JSValue)),
    NISAUtils.plainKeysProps props = true → (props.map Prod.fst).Nodup →
    (∀ k ∈ props.map Prod.fst, k ≠ "__proto__") →
    (∀ k ∈ props.map Prod.fst, k ∉ cloned.map Prod.fst) →
    NISAUtils.deepCloneProps cloned props = cloned ++ props
  | [], cloned, _, _, _, _ => by simp [NISAUtils.deepCloneProps]
  | (key, value) :: rest, cloned, h, hnodup, hproto, hfresh => by
    simp only [NISAUtils.plainKeysProps, Bool.and_eq_true] at h
    simp only [List.map_cons, List.nodup_cons] at hnodup
    simp only [NISAUtils.deepCloneProps, deepClone_eq_self value h.1]
    rw [assignProp_fresh cloned key value (hproto key (by simp)) (hfresh key (by simp))]
    rw [deepCloneProps_eq rest (cloned ++ [(key, value)]) h.2 hnodup.2
      (fun k hk => hproto k (by simp [hk]))
      (fun k hk => by
        simp only [List.map_append, List.map_cons, List.map_nil, List.mem_append,
          List.mem_singleton, not_or]
        refine ⟨hfresh k (by simp [hk]), ?_⟩
        rintro rfl
        exact hnodup.1 hk)]
    simp
end

/-- C19 fails on the code for an object with an own property `__proto__` (as
`JSON.parse` creates it): `deepClone` returns an object without that property,
both when its value is a number and when it is an object. -/
theorem deepClone_proto_key_example :
    NISAUtils.deepClone (JSValue.obj [("a", JSValue.num 1), ("__proto__", JSValue.num 2)])
      = JSValue.obj [("a", JSValue.num 1)]
    ∧ NISAUtils.deepClone
        (JSValue.arr [JSValue.obj [("__proto__", JSValue.obj [("b", JSValue.num 2)])]])
      = JSValue.arr [JSValue.obj []] :=
  ⟨rfl, rfl⟩

/-! ## Claims about `NISAStorage` -/

theorem lookup_map_replace (store : NISAStorage.Store) (key : String) (value : NISAStorage.StoredText)
    (h : store.any (fun p => p.1 == key) = true) :
    List.lookup key (store.map (fun p => if p.1 = key then (p.1, value) else p))
      = some value := by
  induction store with
  | nil => simp at h
  | cons q rest ih =>
    by_cases hq : q.1 = key
    · simp only [List.map_cons, if_pos hq]
      rw [hq]
      simp [List.lookup]
    · obtain ⟨k, v⟩ := q
      have hq' : (k == key) = false := by
        simp only [beq_eq_false_iff_ne, ne_eq]
        exact hq
      simp only [List.any_cons, hq', Bool.false_or] at h
      simp only [List.map_cons, if_neg hq]
      have hne : (key == k) = false := by
        simp only [beq_eq_false_iff_ne, ne_eq]
        exact fun e => hq e.symm
      simp only [List.lookup, hne]
      exact ih h

theorem lookup_append_fresh (store : NISAStorage.Store) (key : String) (value : NISAStorage.StoredText)
    (h : store.any (fun p => p.1 == key) = false) :
    List.lookup key (store ++ [(key, value)]) = some value := by
  induction store with
  | nil => simp [List.lookup]
  | cons q rest ih =>
    obtain ⟨k, v⟩ := q
    simp only [List.any_cons, Bool.or_eq_false_iff, beq_eq_false_iff_ne, ne_eq] at h
    have hne : (key == k) = false := by
      simp only [beq_eq_false_iff_ne, ne_eq]
      exact fun e => h.1 e.symm
    simp only [List.cons_append, List.lookup, hne]
    exact ih h.2

theorem getItem_setItem (store : NISAStorage.Store) (key : String) (value : NISAStorage.StoredText) :
    NISAStorage.getItem (NISAStorage.setItem store key value) key = some value := by
  unfold NISAStorage.getItem NISAStorage.setItem
  by_cases h : store.any (fun p => p.1 == key) = true
  · rw [if_pos h]; exact lookup_map_replace store key value h
  · rw [if_neg h]
    exact lookup_append_fresh store key value (by
      cases hany : store.any (fun p => p.1 == key)
      · rfl
      · exact absurd hany h)

theorem getItem_removeItem (store : NISAStorage.Store) (key : String) :
    NISAStorage.getItem (NISAStorage.removeItem store key) key = none := by
  unfold NISAStorage.getItem NISAStorage.removeItem
  induction store with
  | nil => rfl
  | cons q rest ih =>
    obtain ⟨k, v⟩ := q
    by_cases hk : k = key
    · subst hk
      simp only [List.filter_cons, bne_self_eq_false, Bool.false_eq_true, if_false]
      exact ih
    · have hne : (k != key) = true := by simpa using hk
      have hne' : (key == k) = false := by
        simp only [beq_eq_false_iff_ne, ne_eq]
        exact fun e => hk e.symm
      simp only [List.filter_cons, hne, if_true, List.lookup, hne']
      exact ih

theorem get_absent (toNumber : JSValue → Option Int) (store : NISAStorage.Store) (now : Int)
    (key : String) (h : NISAStorage.getItem store ("nisa_" ++ key) = none) :
    NISAStorage.get toNumber store now key = (some JSValue.null, store) := by
  unfold NISAStorage.get
  rw [h]

theorem expiresField_finite (now e : Int) (h : e ≠ 0) :
    NISAStorage.expiresField now (some (NISAStorage.JSNumber.finite e))
      = JSValue.num (now + e) := by
  simp [NISAStorage.expiresField, NISAStorage.expiresExpr, h]

theorem expiresField_null (now : Int) (expires : Option NISAStorage.JSNumber)
    (h : ¬ ∃ e : Int, expires = some (NISAStorage.JSNumber.finite e) ∧ e ≠ 0) :
    NISAStorage.expiresField now expires = JSValue.null := by
  cases expires with
  | none => rfl
  | some x =>
    cases x with
    | nan => rfl
    | posInfinity => rfl
    | negInfinity => rfl
    | finite e =>
      by_cases he : e = 0
      · simp [NISAStorage.expiresField, NISAStorage.expiresExpr, he]
      · exact absurd ⟨e, rfl, he⟩ h

theorem get_set_null (toNumber : JSValue → Option Int) (store : NISAStorage.Store)
    (now t : Int) (key : String) (value : JSValue) (expires : Option NISAStorage.JSNumber)
    (h : NISAStorage.expiresField now expires = JSValue.null) :
    NISAStorage.get toNumber (NISAStorage.set store now key value expires) t key
      = (some value, NISAStorage.set store now key value expires) := by
  unfold NISAStorage.get
  have hitem : NISAStorage.getItem (NISAStorage.set store now key value expires) ("nisa_" ++ key)
      = some (NISAStorage.StoredText.json
          (JSValue.obj [("value", value), ("expires", NISAStorage.expiresField now expires)])) :=
    getItem_setItem store ("nisa_" ++ key) _
  rw [hitem, h]
  simp [NISAStorage.StoredText.isEmpty, NISAStorage.getProp, List.lookup, NISAStorage.truthy]

theorem get_set_num (toNumber : JSValue → Option Int) (store : NISAStorage.Store)
    (now t : Int) (key : String) (value : JSValue) (expires : Option NISAStorage.JSNumber)
    (n : Int) (h : NISAStorage.expiresField now expires = JSValue.num n) :
    NISAStorage.get toNumber (NISAStorage.set store now key value expires) t key
      = if n ≠ 0 ∧ t > n then
          (some JSValue.null,
            NISAStorage.remove (NISAStorage.set store now key value expires) key)
        else (some value, NISAStorage.set store now key value expires) := by
  unfold NISAStorage.get
  have hitem : NISAStorage.getItem (NISAStorage.set store now key value expires) ("nisa_" ++ key)
      = some (NISAStorage.StoredText.json
          (JSValue.obj [("value", value), ("expires", NISAStorage.expiresField now expires)])) :=
    getItem_setItem store ("nisa_" ++ key) _
  rw [hitem, h]
  by_cases h0 : n = 0
  · simp [NISAStorage.StoredText.isEmpty, NISAStorage.getProp, List.lookup, NISAStorage.truthy,
      h0]
  · by_cases ht : t > n
    · have hlt : n < t := ht
      simp [NISAStorage.StoredText.isEmpty, NISAStorage.getProp, List.lookup,
        NISAStorage.truthy, NISAStorage.greaterThan, h0, hlt]
    · have hlt : ¬ n < t := ht
      simp [NISAStorage.StoredText.isEmpty, NISAStorage.getProp, List.lookup,
        NISAStorage.truthy, NISAStorage.greaterThan, h0, hlt]

/-- C20: after `NISAStorage.set(k, v)` without expiry, or `set(k, v, e)` with
`e > 0` (finite or `Infinity`), the store holds the item under the key "nisa_"
followed by `k`, and `NISAStorage.get(k)` at any time not later than the time of
the `set` plus `e` returns `v`; `get` of a key that has no entry, in particular
after `NISAStorage.remove(k)`, returns `null`. -/
theorem storage_round_trip (toNumber : JSValue → Option Int) (store : NISAStorage.Store)
    (now t : Int) (key : String) (value : JSValue) (expires : Option NISAStorage.JSNumber) :
    NISAStorage.getItem (NISAStorage.set store now key value expires) ("nisa_" ++ key)
      = some (NISAStorage.StoredText.json (JSValue.obj
          [("value", value), ("expires", NISAStorage.expiresField now expires)]))
    ∧ ((expires = none
          ∨ (∃ e, expires = some (NISAStorage.JSNumber.finite e) ∧ 0 < e ∧ t ≤ now + e)
          ∨ expires = some NISAStorage.JSNumber.posInfinity) →
        (NISAStorage.get toNumber (NISAStorage.set store now key value expires) t key).1
          = some value)
    ∧ (NISAStorage.getItem store ("nisa_" ++ key) = none →
        (NISAStorage.get toNumber store t key).1 = some JSValue.null)
    ∧ (NISAStorage.get toNumber (NISAStorage.remove store key) t key).1
        = some JSValue.null := by
  refine ⟨getItem_setItem store ("nisa_" ++ key) _, ?_, ?_, ?_⟩
  · intro h
    rcases h with h | ⟨e, he, hpos, ht⟩ | h
    · rw [h, get_set_null toNumber store now t key value none rfl]
    · rw [he, get_set_num toNumber store now t key value _ (now + e)
        (expiresField_finite now e (by omega)), if_neg (by omega)]
    · rw [h, get_set_null toNumber store now t key value
        (some NISAStorage.JSNumber.posInfinity) rfl]
  · intro h
    rw [get_absent toNumber store t key h]
  · rw [get_absent toNumber (NISAStorage.remove store key) t key
      (getItem_removeItem store ("nisa_" ++ key))]

/-- Instance of C20: the value "dark" stored under "theme" at time 1000 for 60000
milliseconds, read at time 5000 from a store that held another entry. -/
theorem storage_round_trip_witness :
    ((60000 : Int) > 0 ∧ (5000 : Int) ≤ 1000 + 60000)
    ∧ (NISAStorage.get (fun _ => none)
        (NISAStorage.set [("other", NISAStorage.StoredText.raw "x")] 1000 "theme"
          (JSValue.str "dark") (some (NISAStorage.JSNumber.finite 60000))) 5000 "theme").1
      = some (JSValue.str "dark") :=
  ⟨by decide,
   (storage_round_trip (fun _ => none) [("other", NISAStorage.StoredText.raw "x")] 1000 5000
      "theme" (JSValue.str "dark") (some (NISAStorage.JSNumber.finite 60000))).2.1
     (Or.inr (Or.inl ⟨60000, rfl, by decide, by decide⟩))⟩

/-! ## Claims about expiry and removal in `NISAStorage` -/

theorem clear_foldl (keys : List String) (store : NISAStorage.Store) :
    keys.foldl (fun st key => if jsStartsWith key "nisa_" then NISAStorage.removeItem st key
        else st) store
      = store.filter (fun p => !(decide (p.1 ∈ keys) && jsStartsWith p.1 "nisa_")) := by
  induction keys generalizing store with
  | nil => simp
  | cons k ks ih =>
    rw [List.foldl_cons, ih]
    by_cases hk : jsStartsWith k "nisa_" = true
    · rw [if_pos hk]
      unfold NISAStorage.removeItem
      rw [List.filter_filter]
      apply List.filter_congr
      intro p _
      by_cases hpk : p.1 = k
      · simp [hpk, hk]
      · simp [hpk]
    · rw [if_neg hk]
      apply List.filter_congr
      intro p _
      by_cases hpk : p.1 = k
      · have hk' : jsStartsWith k "nisa_" = false := by
          cases h : jsStartsWith k "nisa_"
          · rfl
          · exact absurd h hk
        simp [hpk, hk']
      · simp [hpk]

theorem clear_eq_filter (store : NISAStorage.Store) :
    NISAStorage.clear store = store.filter (fun p => !jsStartsWith p.1 "nisa_") := by
  unfold NISAStorage.clear
  rw [clear_foldl]
  apply List.filter_congr
  intro p hp
  have : p.1 ∈ store.map Prod.fst := List.mem_map_of_mem _ hp
  simp [this]

theorem getItem_filter (store : NISAStorage.Store) (keep : String → Bool) (key : String) :
    NISAStorage.getItem (store.filter (fun p => keep p.1)) key
      = if keep key then NISAStorage.getItem store key else none := by
  unfold NISAStorage.getItem
  induction store with
  | nil => simp [List.lookup]
  | cons q rest ih =>
    obtain ⟨k, v⟩ := q
    by_cases hk : key = k
    · subst hk
      by_cases hkeep : keep key = true
      · simp [List.filter_cons, hkeep, List.lookup]
      · have hkeep' : keep key = false := by
          cases h : keep key
          · rfl
          · exact absurd h hkeep
        simp only [List.filter_cons, hkeep', Bool.false_eq_true, if_false]
        rw [ih]
        simp [hkeep']
    · have hne : (key == k) = false := by
        simp only [beq_eq_false_iff_ne, ne_eq]; exact hk
      by_cases hkeepk : keep k = true
      · simp only [List.filter_cons, hkeepk, if_true, List.lookup, hne]
        exact ih
      · have hkeepk' : keep k = false := by
          cases h : keep k
          · rfl
          · exact absurd h hkeepk
        simp only [List.filter_cons, hkeepk', Bool.false_eq_true, if_false, List.lookup, hne]
        exact ih


/-- C21 fails on the code in two cases. (1) When the duration is the negative of
the clock value at the time of `set`, the stored expiry time is 0, which `get`
takes as "no expiry": `set` at time 1000 with `e = -1000` and `get` at time 2000
returns the value and keeps the entry, although `e` is non-zero and
`t > t0 + e`. (2) When the duration is `-Infinity`, the expiry time `-Infinity`
is written by `JSON.stringify` as `null`, so `get` at any later time returns the
value and keeps the entry, although `e` is a non-zero number and `t > t0 + e`. -/
theorem get_zero_expiry_counterexample :
    (((-1000 : Int) ≠ 0 ∧ (2000 : Int) > 1000 + (-1000))
      ∧ (NISAStorage.get (fun _ => none)
          (NISAStorage.set [] 1000 "theme" (JSValue.str "dark")
            (some (NISAStorage.JSNumber.finite (-1000)))) 2000 "theme").1
        = some (JSValue.str "dark")
      ∧ NISAStorage.getItem (NISAStorage.get (fun _ => none)
          (NISAStorage.set [] 1000 "theme" (JSValue.str "dark")
            (some (NISAStorage.JSNumber.finite (-1000)))) 2000 "theme").2
          "nisa_theme"
        = some (NISAStorage.StoredText.json
            (JSValue.obj [("value", JSValue.str "dark"), ("expires", JSValue.num 0)])))
    ∧ ((NISAStorage.get (fun _ => none)
          (NISAStorage.set [] 1000 "theme" (JSValue.str "dark")
            (some NISAStorage.JSNumber.negInfinity)) 2000 "theme").1
        = some (JSValue.str "dark")
      ∧ NISAStorage.getItem (NISAStorage.get (fun _ => none)
          (NISAStorage.set [] 1000 "theme" (JSValue.str "dark")
            (some NISAStorage.JSNumber.negInfinity)) 2000 "theme").2
          "nisa_theme"
        = some (NISAStorage.StoredText.json
            (JSValue.obj [("value", JSValue.str "dark"), ("expires", JSValue.null)]))) :=
  ⟨⟨by decide, rfl, rfl⟩, rfl, rfl⟩

/-- C21, amended: for an entry stored by `NISAStorage.set(k, v, e)` at time `t0`,
`NISAStorage.get(k)` at time `t` returns `null` and leaves no entry under "nisa_"
followed by `k` if and only if `e` is a finite non-zero number, the expiry time
`t0 + e` stored by `set` is non-zero and `t` is greater than that stored time,
and in that case the store after `get` is the store with that entry removed;
with `e` omitted, `null`, 0, `NaN` or infinite the entry never expires: at every
time `get` returns `v` and leaves the store as it is. -/
theorem get_expiry (toNumber : JSValue → Option Int) (store : NISAStorage.Store)
    (t0 t : Int) (key : String) (value : JSValue) (expires : Option NISAStorage.JSNumber) :
    (((NISAStorage.get toNumber (NISAStorage.set store t0 key value expires) t key).1
          = some JSValue.null
        ∧ NISAStorage.getItem
            (NISAStorage.get toNumber (NISAStorage.set store t0 key value expires) t key).2
            ("nisa_" ++ key) = none)
      ↔ ∃ e : Int, expires = some (NISAStorage.JSNumber.finite e) ∧ e ≠ 0 ∧ t0 + e ≠ 0
          ∧ t > t0 + e)
    ∧ ((∃ e : Int, expires = some (NISAStorage.JSNumber.finite e) ∧ e ≠ 0 ∧ t0 + e ≠ 0
          ∧ t > t0 + e) →
        (NISAStorage.get toNumber (NISAStorage.set store t0 key value expires) t key).2
          = NISAStorage.remove (NISAStorage.set store t0 key value expires) key)
    ∧ ((expires = none ∨ expires = some (NISAStorage.JSNumber.finite 0)
          ∨ expires = some NISAStorage.JSNumber.nan
          ∨ expires = some NISAStorage.JSNumber.posInfinity
          ∨ expires = some NISAStorage.JSNumber.negInfinity) → ∀ t1 : Int,
        NISAStorage.get toNumber (NISAStorage.set store t0 key value expires) t1 key
          = (some value, NISAStorage.set store t0 key value expires)) := by
  have hexp : ∀ e : Int, e ≠ 0 → t0 + e ≠ 0 → t > t0 + e →
      NISAStorage.get toNumber
          (NISAStorage.set store t0 key value (some (NISAStorage.JSNumber.finite e))) t key
        = (some JSValue.null, NISAStorage.remove
            (NISAStorage.set store t0 key value (some (NISAStorage.JSNumber.finite e))) key) := by
    intro e h0 h1 ht
    rw [get_set_num toNumber store t0 t key value _ (t0 + e) (expiresField_finite t0 e h0),
      if_pos ⟨h1, ht⟩]
  have hlive : (¬ ∃ e : Int, expires = some (NISAStorage.JSNumber.finite e) ∧ e ≠ 0
        ∧ t0 + e ≠ 0 ∧ t > t0 + e) →
      NISAStorage.get toNumber (NISAStorage.set store t0 key value expires) t key
        = (some value, NISAStorage.set store t0 key value expires) := by
    intro h
    by_cases hfin : ∃ e : Int, expires = some (NISAStorage.JSNumber.finite e) ∧ e ≠ 0
    · obtain ⟨e, he, h0⟩ := hfin
      rw [he, get_set_num toNumber store t0 t key value _ (t0 + e)
        (expiresField_finite t0 e h0), if_neg]
      rintro ⟨h1, ht⟩
      exact h ⟨e, he, h0, h1, ht⟩
    · exact get_set_null toNumber store t0 t key value expires
        (expiresField_null t0 expires hfin)
  refine ⟨⟨?_, ?_⟩, ?_, ?_⟩
  · intro h
    by_contra hc
    rw [hlive hc] at h
    have hitem := getItem_setItem store ("nisa_" ++ key)
      (NISAStorage.StoredText.json (JSValue.obj
        [("value", value), ("expires", NISAStorage.expiresField t0 expires)]))
    have h2 := h.2
    unfold NISAStorage.set at h2
    rw [hitem] at h2
    exact Option.noConfusion h2
  · rintro ⟨e, rfl, h0, h1, ht⟩
    rw [hexp e h0 h1 ht]
    exact ⟨rfl, getItem_removeItem _ _⟩
  · rintro ⟨e, rfl, h0, h1, ht⟩
    rw [hexp e h0 h1 ht]
  · intro h t1
    apply get_set_null
    apply expiresField_null
    rintro ⟨e, he, h0⟩
    rcases h with h | h | h | h | h
    · rw [h] at he; exact Option.noConfusion he
    · rw [h] at he
      exact h0 (NISAStorage.JSNumber.finite.inj (Option.some.inj he)).symm
    · rw [h] at he; exact NISAStorage.JSNumber.noConfusion (Option.some.inj he)
    · rw [h] at he; exact NISAStorage.JSNumber.noConfusion (Option.some.inj he)
    · rw [h] at he; exact NISAStorage.JSNumber.noConfusion (Option.some.inj he)

/-- Instance of C21: the value "dark" stored under "theme" at time 1000 for 60000
milliseconds and read at time 70000 is reported as `null` and its entry is
removed, while another entry stays. -/
theorem get_expiry_witness :
    (NISAStorage.get (fun _ => none)
        (NISAStorage.set [("other", NISAStorage.StoredText.raw "x")] 1000 "theme"
          (JSValue.str "dark") (some (NISAStorage.JSNumber.finite 60000))) 70000 "theme").2
      = NISAStorage.remove
          (NISAStorage.set [("other", NISAStorage.StoredText.raw "x")] 1000 "theme"
            (JSValue.str "dark") (some (NISAStorage.JSNumber.finite 60000))) "theme" :=
  (get_expiry (fun _ => none) [("other", NISAStorage.StoredText.raw "x")] 1000 70000
      "theme" (JSValue.str "dark") (some (NISAStorage.JSNumber.finite 60000))).2.1
    ⟨60000, rfl, by decide, by decide, by decide⟩

/-- C22: `NISAStorage.clear()` leaves exactly the entries whose key does not
start with "nisa_", each with its key and value and in the same order, so that
afterwards a key starting with "nisa_" has no entry and every other key reads as
before; `NISAStorage.remove(k)` leaves exactly the entries whose key is not
"nisa_" followed by `k`, so that afterwards that key has no entry and every
other key reads as before. -/
theorem clear_remove_frame (store : NISAStorage.Store) (k : String) :
    NISAStorage.clear store = store.filter (fun p => !jsStartsWith p.1 "nisa_")
    ∧ (∀ p : String × NISAStorage.StoredText, p ∈ NISAStorage.clear store
        ↔ p ∈ store ∧ jsStartsWith p.1 "nisa_" = false)
    ∧ (∀ key : String, NISAStorage.getItem (NISAStorage.clear store) key
        = if jsStartsWith key "nisa_" then none else NISAStorage.getItem store key)
    ∧ NISAStorage.remove store k = store.filter (fun p => p.1 != "nisa_" ++ k)
    ∧ (∀ p : String × NISAStorage.StoredText, p ∈ NISAStorage.remove store k
        ↔ p ∈ store ∧ p.1 ≠ "nisa_" ++ k)
    ∧ (∀ key : String, NISAStorage.getItem (NISAStorage.remove store k) key
        = if key = "nisa_" ++ k then none else NISAStorage.getItem store key) := by
  refine ⟨clear_eq_filter store, ?_, ?_, rfl, ?_, ?_⟩
  · intro p
    rw [clear_eq_filter, List.mem_filter]
    simp
  · intro key
    rw [clear_eq_filter, getItem_filter store (fun k => !jsStartsWith k "nisa_") key]
    cases jsStartsWith key "nisa_" <;> simp
  · intro p
    unfold NISAStorage.remove NISAStorage.removeItem
    rw [List.mem_filter]
    simp
  · intro key
    unfold NISAStorage.remove NISAStorage.removeItem
    rw [getItem_filter store (fun q => q != "nisa_" ++ k) key]
    by_cases h : key = "nisa_" ++ k
    · simp [h]
    · simp [h]

/-! ## Claims about the registration form -/

theorem matchAtoms_single_unbounded (cls : Nat → Bool) (min : Nat) (units : List Nat) :
    matchAtoms true [{ cls := cls, min := min, max := none }] units = true
      ↔ (min ≤ units.length ∧ ∀ u ∈ units, cls u = true) := by
  simp only [matchAtoms, List.any_eq_true, List.mem_range, Bool.and_eq_true, decide_eq_true_eq,
    List.all_eq_true, Bool.not_true, Bool.false_or, List.isEmpty_iff, List.drop_eq_nil_iff,
    and_true]
  constructor
  · rintro ⟨k, hk, ⟨hmin, hall⟩, hdrop⟩
    have hk' : k = units.length := by omega
    subst hk'
    rw [List.take_length] at hall
    exact ⟨hmin, hall⟩
  · rintro ⟨hmin, hall⟩
    exact ⟨units.length, by omega, ⟨hmin, by rw [List.take_length]; exact hall⟩, le_refl _⟩

theorem clsDigit_toNat (c : Char) : clsDigit c.toNat = c.isDigit := by
  simp only [clsDigit, Char.isDigit, Char.toNat, uint32_le_iff, ge_iff_le]
  have e5 : (48 : UInt32).toNat = 48 := rfl
  have e6 : (57 : UInt32).toNat = 57 := rfl
  rw [e5, e6]

theorem jsUnits_all_digit (s : String) :
    (∀ u ∈ jsUnits s, clsDigit u = true) ↔ (∀ c ∈ s.toList, c.isDigit = true) := by
  have hlt : ∀ u, clsDigit u = true → u < 0x80 := by
    intro u h
    simp only [clsDigit, Bool.and_eq_true, decide_eq_true_eq] at h
    omega
  unfold jsUnits
  constructor
  · intro h c hc
    rw [← clsDigit_toNat]
    by_cases hb : c.toNat < 0x10000
    · apply h
      rw [List.mem_flatMap]
      exact ⟨c, hc, by simp [hb]⟩
    · exfalso
      have hmem : 0xD800 + (c.toNat - 0x10000) / 0x400 ∈ s.toList.flatMap fun c =>
          if c.toNat < 0x10000 then [c.toNat]
          else [0xD800 + (c.toNat - 0x10000) / 0x400, 0xDC00 + (c.toNat - 0x10000) % 0x400] := by
        rw [List.mem_flatMap]
        exact ⟨c, hc, by simp [hb]⟩
      have := hlt _ (h _ hmem)
      omega
  · intro h u hu
    rw [List.mem_flatMap] at hu
    obtain ⟨c, hc, hu⟩ := hu
    have hd : clsDigit c.toNat = true := by rw [clsDigit_toNat]; exact h c hc
    have hl := hlt _ hd
    rw [if_pos (by omega), List.mem_singleton] at hu
    rw [hu]; exact hd

theorem stuIdPattern_test (stuId : String) :
    RegisterHandler.stuIdPattern.test stuId = true
      ↔ stuId ≠ "" ∧ ∀ c ∈ stuId.toList, c.isDigit = true := by
  unfold RegisterHandler.stuIdPattern Regex.test
  simp only [if_true]
  rw [matchAtoms_single_unbounded, jsUnits_all_digit]
  have h0 := jsLength_eq_zero_iff stuId
  unfold jsLength at h0
  constructor
  · rintro ⟨h1, h2⟩
    refine ⟨fun he => ?_, h2⟩
    have := h0.2 he
    omega
  · rintro ⟨h1, h2⟩
    refine ⟨?_, h2⟩
    by_contra hc
    exact h1 (h0.1 (by omega))


/-- C23: `RegisterHandler.validateForm` returns true if and only if the student
id is non-empty and consists only of ASCII digits, the password has at least 6
UTF-16 code units, the password differs from the student id, and the
confirmation equals the password, and then it shows nothing; otherwise it shows
the error of the first failing check and focuses the input of that check, in the
order: empty student id, non-digit student id, empty password, password shorter
than 6, password equal to student id, empty confirmation, mismatched
confirmation. -/
theorem validateForm_spec (s : RegisterHandler.State) (stuId password confirmPassword : String) :
    ((RegisterHandler.validateForm s stuId password confirmPassword).1 = true
      ↔ (stuId ≠ "" ∧ (∀ c ∈ stuId.toList, c.isDigit = true) ∧ 6 ≤ jsLength password
          ∧ password ≠ stuId ∧ confirmPassword = password))
    ∧ ((RegisterHandler.validateForm s stuId password confirmPassword).1 = true →
        (RegisterHandler.validateForm s stuId password confirmPassword).2 = s)
    ∧ (stuId = "" →
        RegisterHandler.validateForm s stuId password confirmPassword
          = (false, { s with errorText := "请输入学号", errorDisplayed := true,
                             focused := some RegisterHandler.Input.stuIdInput }))
    ∧ (stuId ≠ "" → (∃ c ∈ stuId.toList, c.isDigit = false) →
        RegisterHandler.validateForm s stuId password confirmPassword
          = (false, { s with errorText := "学号格式不正确，请输入数字", errorDisplayed := true,
                             focused := some RegisterHandler.Input.stuIdInput }))
    ∧ (stuId ≠ "" → (∀ c ∈ stuId.toList, c.isDigit = true) → password = "" →
        RegisterHandler.validateForm s stuId password confirmPassword
          = (false, { s with errorText := "请输入密码", errorDisplayed := true,
                             focused := some RegisterHandler.Input.passwordInput }))
    ∧ (stuId ≠ "" → (∀ c ∈ stuId.toList, c.isDigit = true) → password ≠ "" →
        jsLength password < 6 →
        RegisterHandler.validateForm s stuId password confirmPassword
          = (false, { s with errorText := "密码长度至少为6位", errorDisplayed := true,
                             focused := some RegisterHandler.Input.passwordInput }))
    ∧ (stuId ≠ "" → (∀ c ∈ stuId.toList, c.isDigit = true) → 6 ≤ jsLength password →
        password = stuId →
        RegisterHandler.validateForm s stuId password confirmPassword
          = (false, { s with errorText := "密码不能与学号相同", errorDisplayed := true,
                             focused := some RegisterHandler.Input.passwordInput }))
    ∧ (stuId ≠ "" → (∀ c ∈ stuId.toList, c.isDigit = true) → 6 ≤ jsLength password →
        password ≠ stuId → confirmPassword = "" →
        RegisterHandler.validateForm s stuId password confirmPassword
          = (false, { s with errorText := "请确认密码", errorDisplayed := true,
                             focused := some RegisterHandler.Input.confirmPasswordInput }))
    ∧ (stuId ≠ "" → (∀ c ∈ stuId.toList, c.isDigit = true) → 6 ≤ jsLength password →
        password ≠ stuId → confirmPassword ≠ "" → password ≠ confirmPassword →
        RegisterHandler.validateForm s stuId password confirmPassword
          = (false, { s with errorText := "两次输入的密码不一致", errorDisplayed := true,
                             focused := some RegisterHandler.Input.confirmPasswordInput })) := by
  have hpat := stuIdPattern_test stuId
  have hE : (∃ c ∈ stuId.toList, c.isDigit = false) ↔ ¬ ∀ c ∈ stuId.toList, c.isDigit = true := by
    constructor
    · rintro ⟨c, hc, hf⟩ hall
      rw [hall c hc] at hf
      exact Bool.noConfusion hf
    · intro hn
      by_contra hc
      apply hn
      intro c hcm
      cases hdc : c.isDigit
      · exact absurd ⟨c, hcm, hdc⟩ hc
      · rfl
  have hlen0 : password = "" ↔ jsLength password = 0 := (jsLength_eq_zero_iff _).symm
  unfold RegisterHandler.validateForm RegisterHandler.showError RegisterHandler.focus
  generalize (∀ c ∈ stuId.toList, c.isDigit = true) = D at hpat hE ⊢
  generalize (∃ c ∈ stuId.toList, c.isDigit = false) = E at hE ⊢
  generalize hL : jsLength password = L at hlen0 ⊢
  by_cases h1 : stuId = ""
  · simp only [if_pos h1]
    simp [h1]
  · rw [if_neg h1]
    by_cases hd : D
    · have htest : RegisterHandler.stuIdPattern.test stuId = true := hpat.2 ⟨h1, hd⟩
      have hnE : ¬ E := fun h => (hE.1 h) hd
      rw [htest]
      simp only [Bool.not_true, Bool.false_eq_true, if_false]
      by_cases h3 : password = ""
      · have hl : L = 0 := hlen0.1 h3
        rw [if_pos h3]
        simp [h1, hd, hnE, h3, hl]
      · rw [if_neg h3]
        by_cases h4 : L < 6
        · have h6 : ¬ 6 ≤ L := by omega
          rw [if_pos h4]
          simp [h1, hd, hnE, h3, h4, h6]
        · have h6 : 6 ≤ L := by omega
          rw [if_neg h4]
          by_cases h5 : password = stuId
          · rw [if_pos h5]
            simp [h1, hd, hnE, h3, h4, h6, h5]
          · rw [if_neg h5]
            by_cases h7 : confirmPassword = ""
            · have h8 : ¬ confirmPassword = password := fun h => h3 (h ▸ h7)
              have h8b : ¬ "" = password := fun h => h3 h.symm
              rw [if_pos h7]
              simp [h1, hd, hnE, h3, h4, h6, h5, h7, h8b]
            · rw [if_neg h7]
              by_cases h9 : password = confirmPassword
              · have h8 : confirmPassword = password := h9.symm
                rw [if_neg (not_not.2 h9)]
                simp [h1, hd, hnE, h3, h4, h6, h5, h7, h8]
              · have h8 : ¬ confirmPassword = password := fun h => h9 h.symm
                rw [if_pos h9]
                simp [h1, hd, hnE, h3, h4, h6, h5, h7, h8, h9]
    · have htest : RegisterHandler.stuIdPattern.test stuId = false := by
        cases h : RegisterHandler.stuIdPattern.test stuId
        · rfl
        · exact absurd (hpat.1 h).2 hd
      have hnd : E := hE.2 hd
      rw [htest]
      simp [h1, hnd, hd]

/-- Instance of C23: the student id "2023001" with the password "secret1" and the
confirmation "secret2" fails at the last check. -/
theorem validateForm_spec_witness :
    RegisterHandler.validateForm
        { errorText := "", errorDisplayed := false, focused := none }
        "2023001" "secret1" "secret2"
      = (false, { errorText := "两次输入的密码不一致", errorDisplayed := true,
                  focused := some RegisterHandler.Input.confirmPasswordInput }) :=
  (validateForm_spec { errorText := "", errorDisplayed := false, focused := none }
      "2023001" "secret1" "secret2").2.2.2.2.2.2.2.2
    (by decide) (by decide) (by decide) (by decide) (by decide) (by decide)

/-! ## Claims about the navigation bar -/

theorem allowedPages_mem (currentUser : Option NavigationBar.User) (page : String) :
    page ∈ NavigationBar.allowedPages currentUser
      ↔ ∃ u p pages, currentUser = some u ∧ u.permissions = some p ∧ p.pages = some pages
          ∧ page ∈ pages := by
  unfold NavigationBar.allowedPages NavigationBar.userPermissions
  cases currentUser with
  | none => simp
  | some u =>
    obtain ⟨role, permissions⟩ := u
    cases permissions with
    | none => simp
    | some p =>
      obtain ⟨pages⟩ := p
      cases pages with
      | none => simp
      | some pages => simp

/-- C24: for every value of `currentUser`, `getNavigationConfig` returns the seven
navigation items in their fixed order, with the labels, icons and addresses of
the source; an item is marked visible if and only if the user has a
`permissions.pages` list and the item's `requiredPage` is in it; with no user, no
permissions, no pages list or an empty one, no item is visible; the role has no
influence on the result; and `render` keeps the visible items in that order. -/
theorem getNavigationConfig_spec (currentUser : Option NavigationBar.User) :
    (NavigationBar.getNavigationConfig currentUser).map (fun nav => nav.id)
      = ["info", "lottery", "levelintroduction", "modifypoints", "membermanagement",
         "levelmanagement", "prizemanagement"]
    ∧ (NavigationBar.getNavigationConfig currentUser).map
        (fun nav => (nav.id, nav.label, nav.icon, nav.href, nav.requiredPage))
      = NavigationBar.allNavigationItems.map
        (fun item => (item.id, item.label, item.icon, item.href, item.requiredPage))
    ∧ (∀ nav ∈ NavigationBar.getNavigationConfig currentUser, nav.requiredPage = nav.id)
    ∧ (∀ nav ∈ NavigationBar.getNavigationConfig currentUser,
        (nav.visible = true
          ↔ ∃ u p pages, currentUser = some u ∧ u.permissions = some p ∧ p.pages = some pages
              ∧ nav.requiredPage ∈ pages))
    ∧ ((currentUser = none
          ∨ (∃ u, currentUser = some u ∧ u.permissions = none)
          ∨ (∃ u p, currentUser = some u ∧ u.permissions = some p
              ∧ (p.pages = none ∨ p.pages = some []))) →
        (∀ nav ∈ NavigationBar.getNavigationConfig currentUser, nav.visible = false)
        ∧ NavigationBar.visibleNavs currentUser = [])
    ∧ (∀ (u : NavigationBar.User) (role : Option String),
        NavigationBar.getNavigationConfig (some { u with role := role })
          = NavigationBar.getNavigationConfig (some u))
    ∧ List.Sublist (NavigationBar.visibleNavs currentUser)
        (NavigationBar.getNavigationConfig currentUser)
    ∧ (∀ nav, nav ∈ NavigationBar.visibleNavs currentUser
        ↔ nav ∈ NavigationBar.getNavigationConfig currentUser ∧ nav.visible = true) := by
  have hvis : ∀ nav ∈ NavigationBar.getNavigationConfig currentUser,
      (nav.visible = true
        ↔ ∃ u p pages, currentUser = some u ∧ u.permissions = some p ∧ p.pages = some pages
            ∧ nav.requiredPage ∈ pages) := by
    intro nav hnav
    rw [← allowedPages_mem]
    unfold NavigationBar.getNavigationConfig at hnav
    simp only [List.mem_map] at hnav
    obtain ⟨item, _, rfl⟩ := hnav
    simp
  refine ⟨rfl, rfl, ?_, hvis, ?_, ?_, List.filter_sublist _, ?_⟩
  · intro nav hnav
    unfold NavigationBar.getNavigationConfig at hnav
    simp only [List.mem_map] at hnav
    obtain ⟨item, hitem, rfl⟩ := hnav
    simp only [NavigationBar.allNavigationItems, List.mem_cons, List.mem_singleton,
      List.not_mem_nil, or_false] at hitem
    rcases hitem with h | h | h | h | h | h | h <;> rw [h]
  · intro h
    have hall : ∀ nav ∈ NavigationBar.getNavigationConfig currentUser, nav.visible = false := by
      intro nav hnav
      cases hv : nav.visible
      · rfl
      · exfalso
        obtain ⟨u, p, pages, hu, hp, hpages, hmem⟩ := (hvis nav hnav).1 hv
        rcases h with h | ⟨u1, hu1, hp1⟩ | ⟨u1, p1, hu1, hp1, hpages1⟩
        · rw [h] at hu; exact Option.noConfusion hu
        · rw [hu1] at hu
          obtain rfl := Option.some.inj hu
          rw [hp1] at hp; exact Option.noConfusion hp
        · rw [hu1] at hu
          obtain rfl := Option.some.inj hu
          rw [hp1] at hp
          obtain rfl := Option.some.inj hp
          rcases hpages1 with h2 | h2
          · rw [h2] at hpages; exact Option.noConfusion hpages
          · rw [h2] at hpages
            obtain rfl := Option.some.inj hpages
            exact absurd hmem (List.not_mem_nil _)
    refine ⟨hall, ?_⟩
    unfold NavigationBar.visibleNavs
    rw [List.filter_eq_nil_iff]
    intro nav hnav
    rw [hall nav hnav]
    exact Bool.noConfusion
  · intro u role
    obtain ⟨r, p⟩ := u
    cases p <;> rfl
  · intro nav
    unfold NavigationBar.visibleNavs
    rw [List.mem_filter]

/-- Instance of C24: an administrator whose pages list is empty sees no item. -/
theorem getNavigationConfig_spec_witness :
    NavigationBar.visibleNavs
        (some { role := some "admin", permissions := some { pages := some [] } }) = [] :=
  ((getNavigationConfig_spec
      (some { role := some "admin", permissions := some { pages := some [] } })).2.2.2.2.1
    (Or.inr (Or.inr ⟨_, _, rfl, rfl, Or.inr rfl⟩))).2

/-! ## Claims about the prize table and the probability summary -/

/-- C25: `renderPrizesTable` shows, in the order of `prizesData`, exactly the
prizes that pass the current filter: with "available" those whose `isActive` is
not `false` and whose `isDefault` is `true` or whose numeric total is positive;
with "out_of_stock" those whose numeric total (0 when missing) is 0; with any
other filter all of them. It writes the empty state exactly when that list is
empty, the rows of that list otherwise, and changes nothing but the table. -/
theorem renderPrizesTable_spec (s : Prizes.State) :
    (s.currentFilter = "available" →
      Prizes.filtered s = s.prizesData.filter (fun p =>
        decide (p.isActive ≠ some false ∧ (p.isDefault = some true ∨ 0 < p.total.getD 0))))
    ∧ (s.currentFilter = "out_of_stock" →
      Prizes.filtered s = s.prizesData.filter (fun p => decide (p.total.getD 0 = 0)))
    ∧ (s.currentFilter ≠ "available" → s.currentFilter ≠ "out_of_stock" →
      Prizes.filtered s = s.prizesData)
    ∧ List.Sublist (Prizes.filtered s) s.prizesData
    ∧ ((Prizes.renderPrizesTable s).prizesTableBody = TableView.emptyState
        ↔ Prizes.filtered s = [])
    ∧ (Prizes.filtered s ≠ [] →
        (Prizes.renderPrizesTable s).prizesTableBody = TableView.rows (Prizes.filtered s))
    ∧ Prizes.renderPrizesTable s
        = { s with prizesTableBody := (Prizes.renderPrizesTable s).prizesTableBody } := by
  refine ⟨?_, ?_, ?_, ?_, ?_, ?_, ?_⟩
  · intro h
    unfold Prizes.filtered
    rw [if_pos h]
    apply List.filter_congr
    intro p _
    unfold Prizes.totalNum
    rcases p.isActive with _ | (_ | _) <;> rcases p.isDefault with _ | (_ | _) <;> simp
  · intro h
    have hne : s.currentFilter ≠ "available" := by rw [h]; decide
    unfold Prizes.filtered
    rw [if_neg hne, if_pos h]
    apply List.filter_congr
    intro p _
    unfold Prizes.totalNum
    rfl
  · intro h1 h2
    unfold Prizes.filtered
    rw [if_neg h1, if_neg h2]
  · unfold Prizes.filtered
    split
    · exact List.filter_sublist _
    · split
      · exact List.filter_sublist _
      · exact List.Sublist.refl _
  · unfold Prizes.renderPrizesTable Prizes.showEmptyState
    by_cases h : (Prizes.filtered s).length = 0
    · rw [if_pos h]
      exact ⟨fun _ => List.length_eq_zero.1 h, fun _ => rfl⟩
    · rw [if_neg h]
      constructor
      · intro hc
        exact TableView.noConfusion hc
      · intro hc
        exact absurd (by rw [hc]; rfl) h
  · intro hne
    unfold Prizes.renderPrizesTable
    rw [if_neg (fun h => hne (List.length_eq_zero.1 h))]
  · unfold Prizes.renderPrizesTable Prizes.showEmptyState
    split <;> rfl

/-- Instance of C25: with the filter "out_of_stock", of a prize without a total,
a prize with 3 left and a prize with total 0, the first and the third are shown. -/
theorem renderPrizesTable_spec_witness :
    (Prizes.renderPrizesTable { Prizes.init with
        currentFilter := "out_of_stock",
        prizesData :=
          [ { _id := "a", Name := "pen", photo := none, total := none, weight := Prizes.ParsedFloat.finite 10,
              isActive := some true, isDefault := none },
            { _id := "b", Name := "cup", photo := none, total := some 3, weight := Prizes.ParsedFloat.finite 5,
              isActive := some true, isDefault := none },
            { _id := "c", Name := "bag", photo := none, total := some 0, weight := Prizes.ParsedFloat.finite 1,
              isActive := some false, isDefault := none } ] }).prizesTableBody
      = TableView.rows
          [ { _id := "a", Name := "pen", photo := none, total := none, weight := Prizes.ParsedFloat.finite 10,
              isActive := some true, isDefault := none },
            { _id := "c", Name := "bag", photo := none, total := some 0, weight := Prizes.ParsedFloat.finite 1,
              isActive := some false, isDefault := none } ] :=
  ((renderPrizesTable_spec { Prizes.init with
        currentFilter := "out_of_stock",
        prizesData :=
          [ { _id := "a", Name := "pen", photo := none, total := none, weight := Prizes.ParsedFloat.finite 10,
              isActive := some true, isDefault := none },
            { _id := "b", Name := "cup", photo := none, total := some 3, weight := Prizes.ParsedFloat.finite 5,
              isActive := some true, isDefault := none },
            { _id := "c", Name := "bag", photo := none, total := some 0, weight := Prizes.ParsedFloat.finite 1,
              isActive := some false, isDefault := none } ] }).2.2.2.2.2.1
    (by decide)).trans rfl

theorem log_two_eq (r : ℚ) (k : Int) (hr : 0 < r) (h1 : (2 : ℚ) ^ k ≤ r)
    (h2 : r < (2 : ℚ) ^ (k + 1)) : Int.log 2 r = k := by
  have a : k ≤ Int.log 2 r := (Int.zpow_le_iff_le_log (by norm_num) hr).1 (by exact_mod_cast h1)
  have b : Int.log 2 r < k + 1 := (Int.lt_zpow_iff_log_lt (by norm_num) hr).1 (by exact_mod_cast h2)
  omega

theorem roundHalfEven_intCast (n : Int) : Prizes.roundHalfEven (n : ℚ) = n := by
  unfold Prizes.roundHalfEven
  simp

theorem roundHalfEven_near_even (y : ℚ) (N : Int) (heven : N % 2 = 0)
    (h : |y - N| ≤ 1 / 2) : Prizes.roundHalfEven y = N := by
  rw [abs_le] at h
  obtain ⟨hlo, hhi⟩ := h
  unfold Prizes.roundHalfEven
  by_cases hge : (N : ℚ) ≤ y
  · have hf : ⌊y⌋ = N := by
      rw [Int.floor_eq_iff]
      constructor
      · exact hge
      · linarith
    simp only [hf]
    by_cases h1 : y - N < 1 / 2
    · rw [if_pos h1]
    · rw [if_neg h1]
      have h2 : ¬ (1 / 2 < y - (N : ℚ)) := by linarith
      rw [if_neg h2, if_pos heven]
  · have hf : ⌊y⌋ = N - 1 := by
      rw [Int.floor_eq_iff]
      push_cast
      constructor
      · linarith
      · linarith
    simp only [hf]
    push_cast
    by_cases h1 : 1 / 2 < y - ((N : ℚ) - 1)
    · have h0 : ¬ (y - ((N : ℚ) - 1) < 1 / 2) := by linarith
      rw [if_neg h0, if_pos h1]
      ring
    · have h0 : ¬ (y - ((N : ℚ) - 1) < 1 / 2) := by linarith
      rw [if_neg h0, if_neg h1]
      have hodd : ¬ ((N - 1) % 2 = 0) := by omega
      rw [if_neg hodd]
      ring

theorem roundHalfEven_abs_sub_le (y : ℚ) : |(Prizes.roundHalfEven y : ℚ) - y| ≤ 1 / 2 := by
  have h1 := Int.floor_le y
  have h2 := Int.lt_floor_add_one y
  unfold Prizes.roundHalfEven
  dsimp only
  rw [abs_le]
  split_ifs with a b c
  · constructor <;> linarith
  · push_cast; constructor <;> linarith
  · constructor <;> linarith
  · push_cast; constructor <;> linarith

theorem roundHalfEven_nonneg (y : ℚ) (h : 0 ≤ y) : 0 ≤ Prizes.roundHalfEven y := by
  have h1 : 0 ≤ ⌊y⌋ := Int.floor_nonneg.2 h
  unfold Prizes.roundHalfEven
  dsimp only
  split_ifs <;> omega


theorem roundHalfEven_of_lt (y : ℚ) (f : Int) (h1 : (f : ℚ) ≤ y) (h2 : y - f < 1 / 2) :
    Prizes.roundHalfEven y = f := by
  have hf : ⌊y⌋ = f := by
    rw [Int.floor_eq_iff]
    constructor
    · exact h1
    · linarith
  unfold Prizes.roundHalfEven
  simp only [hf]
  rw [if_pos h2]

theorem two_zpow_pos (e : Int) : (0 : ℚ) < 2 ^ e := zpow_pos (by norm_num) e

theorem roundDouble_of_log (x : ℚ) (k e m : Int) (hx : x ≠ 0) (h1 : (2 : ℚ) ^ k ≤ |x|)
    (h2 : |x| < (2 : ℚ) ^ (k + 1)) (he : e = max (k - 52) (-1074))
    (hm : Prizes.roundHalfEven (x / 2 ^ e) = m)
    (hfin : |(m : ℚ) * 2 ^ e| < (2 : ℚ) ^ (1024 : ℤ)) :
    Prizes.roundDouble x = Prizes.ParsedFloat.finite ((m : ℚ) * 2 ^ e) := by
  have hlog : Int.log 2 |x| = k := log_two_eq |x| k (abs_pos.2 hx) h1 h2
  unfold Prizes.roundDouble Prizes.ulpExponent
  rw [hlog, ← he]
  dsimp only
  rw [hm, if_neg (not_le.2 hfin)]

theorem roundDouble_zero : Prizes.roundDouble 0 = Prizes.ParsedFloat.finite 0 := by
  unfold Prizes.roundDouble Prizes.ulpExponent
  simp [Prizes.roundHalfEven]
  positivity

/-- A number of the form `m * 2 ^ k` with `|m| < 2 ^ 53` and `k ≥ -1074` below the
overflow threshold is a double: rounding leaves it as it is. -/
theorem roundDouble_exact (m k : Int) (hm : |m| < 2 ^ 53) (hk : -1074 ≤ k)
    (hfin : |(m : ℚ) * 2 ^ k| < (2 : ℚ) ^ (1024 : ℤ)) :
    Prizes.roundDouble ((m : ℚ) * 2 ^ k) = Prizes.ParsedFloat.finite ((m : ℚ) * 2 ^ k) := by
  by_cases hm0 : m = 0
  · subst hm0
    simp [roundDouble_zero]
  have hx : (m : ℚ) * 2 ^ k ≠ 0 :=
    mul_ne_zero (by exact_mod_cast hm0) (ne_of_gt (two_zpow_pos k))
  have habs : |(m : ℚ) * 2 ^ k| < (2 : ℚ) ^ (k + 53) := by
    rw [abs_mul, abs_of_pos (two_zpow_pos k), zpow_add₀ (by norm_num : (2 : ℚ) ≠ 0), mul_comm]
    apply mul_lt_mul_of_pos_left _ (two_zpow_pos k)
    have : ((|m| : Int) : ℚ) < ((2 ^ 53 : Int) : ℚ) := by exact_mod_cast hm
    rw [Int.cast_abs] at this
    calc |(m : ℚ)| < ((2 ^ 53 : Int) : ℚ) := this
      _ = (2 : ℚ) ^ (53 : ℤ) := by norm_num
  have hlog : Int.log 2 |(m : ℚ) * 2 ^ k| < k + 53 :=
    (Int.lt_zpow_iff_log_lt (by norm_num) (abs_pos.2 hx)).1 (by exact_mod_cast habs)
  have he : Prizes.ulpExponent ((m : ℚ) * 2 ^ k) ≤ k := by
    unfold Prizes.ulpExponent
    omega
  unfold Prizes.roundDouble
  dsimp only
  generalize Prizes.ulpExponent ((m : ℚ) * 2 ^ k) = E at he ⊢
  obtain ⟨d, hd⟩ : ∃ d : Nat, k = E + d := ⟨(k - E).toNat, by omega⟩
  have h2 : (2 : ℚ) ^ k = 2 ^ E * 2 ^ d := by
    rw [hd, zpow_add₀ (by norm_num : (2 : ℚ) ≠ 0), zpow_natCast]
  have hE := two_zpow_pos E
  have hdiv : (m : ℚ) * 2 ^ k / 2 ^ E = ((m * 2 ^ d : Int) : ℚ) := by
    rw [h2]
    push_cast
    field_simp
    ring
  have hv : ((m * 2 ^ d : Int) : ℚ) * 2 ^ E = (m : ℚ) * 2 ^ k := by
    rw [← hdiv]
    field_simp
  rw [hdiv, roundHalfEven_intCast, hv, if_neg (not_le.2 hfin)]

theorem roundDouble_intCast (n : Int) (hn : |n| < 2 ^ 53) :
    Prizes.roundDouble (n : ℚ) = Prizes.ParsedFloat.finite (n : ℚ) := by
  have h := roundDouble_exact n 0 hn (by norm_num) (by
    rw [zpow_zero, mul_one]
    have : ((|n| : Int) : ℚ) < ((2 ^ 53 : Int) : ℚ) := by exact_mod_cast hn
    rw [Int.cast_abs] at this
    calc |(n : ℚ)| < ((2 ^ 53 : Int) : ℚ) := this
      _ < (2 : ℚ) ^ (1024 : ℤ) := by norm_num)
  rw [zpow_zero, mul_one] at h
  exact h

/-- Rounding a number from 0 to below 128 gives a non-negative double at most
`2 ^ (-47)` away. -/
theorem roundDouble_small (x : ℚ) (h0 : 0 ≤ x) (h1 : x < 128) :
    ∃ v : ℚ, Prizes.roundDouble x = Prizes.ParsedFloat.finite v ∧ 0 ≤ v
      ∧ |v - x| ≤ (2 : ℚ) ^ (-47 : ℤ) := by
  by_cases hx : x = 0
  · subst hx
    exact ⟨0, roundDouble_zero, le_refl _, by norm_num⟩
  have hpos : 0 < x := lt_of_le_of_ne h0 (Ne.symm hx)
  have hlog : Int.log 2 |x| < 7 :=
    (Int.lt_zpow_iff_log_lt (by norm_num) (abs_pos.2 hx)).1 (by
      rw [abs_of_pos hpos]
      norm_num
      exact h1)
  have he : Prizes.ulpExponent x ≤ -46 := by
    unfold Prizes.ulpExponent
    omega
  have hpow : (2 : ℚ) ^ Prizes.ulpExponent x ≤ 2 ^ (-46 : ℤ) :=
    zpow_le_zpow_right₀ (by norm_num) he
  have hpp := two_zpow_pos (Prizes.ulpExponent x)
  have hr := roundHalfEven_abs_sub_le (x / 2 ^ Prizes.ulpExponent x)
  have hnn := roundHalfEven_nonneg (x / 2 ^ Prizes.ulpExponent x) (div_nonneg h0 (le_of_lt hpp))
  have hdist : |(Prizes.roundHalfEven (x / 2 ^ Prizes.ulpExponent x) : ℚ)
      * 2 ^ Prizes.ulpExponent x - x| ≤ (2 : ℚ) ^ (-47 : ℤ) := by
    have hx2 : x = x / 2 ^ Prizes.ulpExponent x * 2 ^ Prizes.ulpExponent x := by
      field_simp
    have : (Prizes.roundHalfEven (x / 2 ^ Prizes.ulpExponent x) : ℚ)
        * 2 ^ Prizes.ulpExponent x - x
        = ((Prizes.roundHalfEven (x / 2 ^ Prizes.ulpExponent x) : ℚ)
            - x / 2 ^ Prizes.ulpExponent x) * 2 ^ Prizes.ulpExponent x := by
      rw [sub_mul, ← hx2]
    rw [this, abs_mul, abs_of_pos hpp]
    calc |(Prizes.roundHalfEven (x / 2 ^ Prizes.ulpExponent x) : ℚ)
          - x / 2 ^ Prizes.ulpExponent x| * 2 ^ Prizes.ulpExponent x
        ≤ 1 / 2 * 2 ^ (-46 : ℤ) := mul_le_mul hr hpow (le_of_lt hpp) (by norm_num)
      _ = (2 : ℚ) ^ (-47 : ℤ) := by norm_num
  have hvnn : 0 ≤ (Prizes.roundHalfEven (x / 2 ^ Prizes.ulpExponent x) : ℚ)
      * 2 ^ Prizes.ulpExponent x :=
    mul_nonneg (by exact_mod_cast hnn) (le_of_lt hpp)
  refine ⟨(Prizes.roundHalfEven (x / 2 ^ Prizes.ulpExponent x) : ℚ)
      * 2 ^ Prizes.ulpExponent x, ?_, hvnn, hdist⟩
  unfold Prizes.roundDouble
  dsimp only
  rw [if_neg]
  rw [not_le, abs_of_nonneg hvnn]
  have h3 := (abs_le.1 hdist).2
  have h4 : (2 : ℚ) ^ (-47 : ℤ) < 1 := by norm_num
  have h5 : (129 : ℚ) < 2 ^ (1024 : ℤ) := by norm_num
  linarith

/-- Every number at most `2 ^ (-47)` away from 100 rounds to the double 100. -/
theorem roundDouble_near_100 (y : ℚ) (h : |y - 100| ≤ (2 : ℚ) ^ (-47 : ℤ)) :
    Prizes.roundDouble y = Prizes.ParsedFloat.finite 100 := by
  have hb := abs_le.1 h
  have h47 : (2 : ℚ) ^ (-47 : ℤ) < 1 := by norm_num
  have hpos : 0 < y := by linarith
  have hm : Prizes.roundHalfEven (y / 2 ^ (-46 : ℤ)) = 100 * 2 ^ 46 := by
    apply roundHalfEven_near_even
    · norm_num
    · have : y / 2 ^ (-46 : ℤ) - ((100 * 2 ^ 46 : Int) : ℚ) = (y - 100) * 2 ^ (46 : ℤ) := by
        norm_num
        ring
      rw [this, abs_mul, abs_of_pos (two_zpow_pos 46)]
      calc |y - 100| * 2 ^ (46 : ℤ) ≤ 2 ^ (-47 : ℤ) * 2 ^ (46 : ℤ) :=
            mul_le_mul_of_nonneg_right h (le_of_lt (two_zpow_pos 46))
        _ = 1 / 2 := by norm_num
  have hr := roundDouble_of_log y 6 (-46) (100 * 2 ^ 46) (ne_of_gt hpos)
    (by rw [abs_of_pos hpos]; norm_num; linarith)
    (by rw [abs_of_pos hpos]; norm_num; linarith)
    (by norm_num) hm (by norm_num)
  rw [hr]
  norm_num

theorem roundDouble_ne_nan (x : ℚ) : Prizes.roundDouble x ≠ Prizes.ParsedFloat.nan := by
  unfold Prizes.roundDouble
  dsimp only
  split_ifs <;> exact Prizes.ParsedFloat.noConfusion

theorem foldl_add_intCast (ns : List Int) (a : Int) (ha : 0 ≤ a) (hnn : ∀ n ∈ ns, 0 ≤ n)
    (hsum : a + ns.sum < 2 ^ 53) :
    (ns.map (fun (n : Int) => Prizes.ParsedFloat.finite (n : ℚ))).foldl Prizes.ParsedFloat.add
        (Prizes.ParsedFloat.finite (a : ℚ))
      = Prizes.ParsedFloat.finite ((a + ns.sum : Int) : ℚ) := by
  induction ns generalizing a with
  | nil => simp
  | cons n rest ih =>
    have hn : 0 ≤ n := hnn n (List.mem_cons_self _ _)
    have hrest : 0 ≤ rest.sum := List.sum_nonneg (fun x hx => hnn x (List.mem_cons_of_mem _ hx))
    rw [List.sum_cons] at hsum
    have hstep : (Prizes.ParsedFloat.finite (a : ℚ)).add (Prizes.ParsedFloat.finite (n : ℚ))
        = Prizes.ParsedFloat.finite ((a + n : Int) : ℚ) := by
      show Prizes.roundDouble ((a : ℚ) + (n : ℚ)) = _
      rw [← Int.cast_add]
      apply roundDouble_intCast
      rw [abs_of_nonneg (by omega)]
      omega
    rw [List.map_cons, List.foldl_cons, hstep,
      ih (a + n) (by omega) (fun x hx => hnn x (List.mem_cons_of_mem _ hx)) (by omega),
      List.sum_cons]
    congr 2
    ring

theorem localTotalProbability_eq (prizesData : List Prizes.Prize) :
    Prizes.localTotalProbability prizesData
      = ((prizesData.filter (fun p =>
            decide (p.isActive ≠ some false ∧ p.isDefault ≠ some true))).map
          (fun p => p.weight.orZero)).foldl Prizes.ParsedFloat.add
          (Prizes.ParsedFloat.finite 0) := by
  unfold Prizes.localTotalProbability
  have hf : prizesData.filter (fun prize =>
        prize.isActive != some false && prize.isDefault != some true)
      = prizesData.filter (fun p =>
          decide (p.isActive ≠ some false ∧ p.isDefault ≠ some true)) := by
    apply List.filter_congr
    intro p _
    rcases p.isActive with _ | (_ | _) <;> rcases p.isDefault with _ | (_ | _) <;> simp
  by_cases h : prizesData.length > 0
  · rw [if_pos h]
    dsimp only
    rw [hf, List.foldl_map]
    rfl
  · rw [if_neg h]
    have : prizesData = [] := List.length_eq_zero.1 (by omega)
    rw [this]
    rfl

theorem thanks_cases (total : Prizes.ParsedFloat) :
    (Prizes.ParsedFloat.max (Prizes.ParsedFloat.finite 0)
        ((Prizes.ParsedFloat.finite 100).sub total) = Prizes.ParsedFloat.nan
      ↔ total = Prizes.ParsedFloat.nan)
    ∧ (total ≠ Prizes.ParsedFloat.nan →
        Prizes.ParsedFloat.max (Prizes.ParsedFloat.finite 0)
            ((Prizes.ParsedFloat.finite 100).sub total) = Prizes.ParsedFloat.posInfinity
        ∨ ∃ q : ℚ, Prizes.ParsedFloat.max (Prizes.ParsedFloat.finite 0)
            ((Prizes.ParsedFloat.finite 100).sub total) = Prizes.ParsedFloat.finite q
          ∧ 0 ≤ q) := by
  cases total with
  | nan => exact ⟨⟨fun _ => rfl, fun _ => rfl⟩, fun h => absurd rfl h⟩
  | posInfinity =>
    refine ⟨⟨fun h => ?_, fun h => Prizes.ParsedFloat.noConfusion h⟩,
      fun _ => Or.inr ⟨0, rfl, le_refl _⟩⟩
    exact Prizes.ParsedFloat.noConfusion (show Prizes.ParsedFloat.finite 0 = _ from h)
  | negInfinity =>
    refine ⟨⟨fun h => ?_, fun h => Prizes.ParsedFloat.noConfusion h⟩, fun _ => Or.inl rfl⟩
    exact Prizes.ParsedFloat.noConfusion (show Prizes.ParsedFloat.posInfinity = _ from h)
  | finite t =>
    have hsub : (Prizes.ParsedFloat.finite 100).sub (Prizes.ParsedFloat.finite t)
        = Prizes.roundDouble (100 + -t) := rfl
    rw [hsub]
    have hnn := roundDouble_ne_nan (100 + -t)
    cases hr : Prizes.roundDouble (100 + -t) with
    | nan => exact absurd hr hnn
    | posInfinity =>
      exact ⟨⟨fun h => Prizes.ParsedFloat.noConfusion h,
        fun h => Prizes.ParsedFloat.noConfusion h⟩, fun _ => Or.inl rfl⟩
    | negInfinity =>
      exact ⟨⟨fun h => Prizes.ParsedFloat.noConfusion h,
        fun h => Prizes.ParsedFloat.noConfusion h⟩, fun _ => Or.inr ⟨0, rfl, le_refl _⟩⟩
    | finite v =>
      exact ⟨⟨fun h => Prizes.ParsedFloat.noConfusion h,
        fun h => Prizes.ParsedFloat.noConfusion h⟩,
        fun _ => Or.inr ⟨Max.max 0 v, rfl, le_max_left _ _⟩⟩

theorem add_thanks_eq_100 (t : ℚ) (h0 : 0 ≤ t) (h100 : t ≤ 100) :
    (Prizes.ParsedFloat.finite t).add
        (Prizes.ParsedFloat.max (Prizes.ParsedFloat.finite 0)
          ((Prizes.ParsedFloat.finite 100).sub (Prizes.ParsedFloat.finite t)))
      = Prizes.ParsedFloat.finite 100 := by
  have hsub : (Prizes.ParsedFloat.finite 100).sub (Prizes.ParsedFloat.finite t)
      = Prizes.roundDouble (100 + -t) := rfl
  obtain ⟨v, hv, hvnn, hdist⟩ := roundDouble_small (100 + -t) (by linarith) (by linarith)
  rw [hsub, hv]
  show Prizes.roundDouble (t + Max.max 0 v) = _
  rw [max_eq_right hvnn]
  apply roundDouble_near_100
  have : t + v - 100 = v - (100 + -t) := by ring
  rw [this]
  exact hdist


theorem add_finite (a b : ℚ) :
    (Prizes.ParsedFloat.finite a).add (Prizes.ParsedFloat.finite b)
      = Prizes.roundDouble (a + b) := rfl

theorem sub_finite (a b : ℚ) :
    (Prizes.ParsedFloat.finite a).sub (Prizes.ParsedFloat.finite b)
      = Prizes.roundDouble (a + -b) := rfl

theorem max_finite (a b : ℚ) :
    Prizes.ParsedFloat.max (Prizes.ParsedFloat.finite a) (Prizes.ParsedFloat.finite b)
      = Prizes.ParsedFloat.finite (Max.max a b) := rfl

theorem roundHalfEven_of_gt (y : ℚ) (f : Int) (h1 : 1 / 2 < y - f) (h2 : y < f + 1) :
    Prizes.roundHalfEven y = f + 1 := by
  have hf : ⌊y⌋ = f := by
    rw [Int.floor_eq_iff]
    constructor
    · linarith
    · exact h2
  unfold Prizes.roundHalfEven
  simp only [hf]
  rw [if_neg (by linarith), if_pos h1]

theorem updateProbabilityInfo_of_failed (prizesData : List Prizes.Prize)
    (d : Prizes.ProbabilityDisplay) (r : Prizes.SummaryOutcome)
    (hfail : r = Prizes.SummaryOutcome.networkError
      ∨ ∃ status body, r = Prizes.SummaryOutcome.http status body ∧ responseOk status = false) :
    Prizes.updateProbabilityInfo prizesData d r
      = { totalProbability := some (Prizes.localTotalProbability prizesData),
          thanksProbability := some (Prizes.ParsedFloat.max (Prizes.ParsedFloat.finite 0)
            ((Prizes.ParsedFloat.finite 100).sub (Prizes.localTotalProbability prizesData))) } := by
  rcases hfail with rfl | ⟨status, body, rfl, hs⟩
  · rfl
  · simp only [Prizes.updateProbabilityInfo, Prizes.updateProbabilityInfoTry, hs,
      Bool.false_eq_true, if_false]
    rfl

theorem roundDouble_1e17_plus_100 :
    Prizes.roundDouble (100 + 100000000000000000)
      = Prizes.ParsedFloat.finite 100000000000000096 := by
  have hm : Prizes.roundHalfEven ((100 + 100000000000000000 : ℚ) / 2 ^ (4 : ℤ))
      = 6250000000000006 :=
    roundHalfEven_of_lt _ _ (by norm_num) (by norm_num)
  have h := roundDouble_of_log (100 + 100000000000000000) 56 4 6250000000000006
    (by norm_num) (by norm_num) (by norm_num) (by norm_num) hm (by norm_num)
  rw [h]
  norm_num

theorem roundDouble_sum_tenths :
    Prizes.roundDouble
        (3602879701896397 / 36028797018963968 + 3602879701896397 / 18014398509481984)
      = Prizes.ParsedFloat.finite (1351079888211149 / 4503599627370496) := by
  have hm : Prizes.roundHalfEven
      ((3602879701896397 / 36028797018963968 + 3602879701896397 / 18014398509481984 : ℚ)
        / 2 ^ (-54 : ℤ)) = 5404319552844596 :=
    roundHalfEven_near_even _ _ (by norm_num) (by norm_num [abs_le])
  have h := roundDouble_of_log
    (3602879701896397 / 36028797018963968 + 3602879701896397 / 18014398509481984)
    (-2) (-54) 5404319552844596
    (by norm_num) (by rw [abs_of_pos] <;> norm_num) (by rw [abs_of_pos] <;> norm_num)
    (by norm_num) hm (by rw [abs_of_pos] <;> norm_num)
  rw [h]
  norm_num

theorem roundDouble_neg_1e17 :
    Prizes.roundDouble (-100000000000000000)
      = Prizes.ParsedFloat.finite (-100000000000000000) := by
  have h := roundDouble_exact (-6250000000000000) 4 (by norm_num) (by norm_num)
    (by rw [abs_of_neg] <;> norm_num)
  norm_num at h ⊢
  exact h

theorem roundDouble_96 : Prizes.roundDouble 96 = Prizes.ParsedFloat.finite 96 := by
  have h := roundDouble_intCast 96 (by norm_num)
  norm_num at h ⊢
  exact h

theorem roundDouble_tenth :
    Prizes.roundDouble (3602879701896397 / 36028797018963968)
      = Prizes.ParsedFloat.finite (3602879701896397 / 36028797018963968) := by
  have h := roundDouble_exact 3602879701896397 (-55) (by norm_num) (by norm_num)
    (by rw [abs_of_pos] <;> norm_num)
  norm_num at h ⊢
  exact h

/-- C26 as stated fails on the code, which computes with doubles. (1) With one
prize of weight -1e17 the total is at most 100, the "thanks" probability is
100000000000000096 (the double nearest to 1e17 + 100) and their sum is 96, not
100. (2) With the weights `Infinity` and `-Infinity` the total and the "thanks"
probability are both `NaN`, so the latter is not at least 0. (3) With the
doubles nearest to 0.1 and 0.2 the total is the double 0.30000000000000004,
which is not the sum of the two weights. -/
theorem updateProbabilityInfo_double_counterexample :
    (Prizes.updateProbabilityInfo
          [ { _id := "a", Name := "pen", photo := none, total := some 4,
              weight := Prizes.ParsedFloat.finite (-100000000000000000),
              isActive := some true, isDefault := none } ]
          { totalProbability := none, thanksProbability := none }
          (Prizes.SummaryOutcome.http 500 none)
        = { totalProbability := some (Prizes.ParsedFloat.finite (-100000000000000000)),
            thanksProbability := some (Prizes.ParsedFloat.finite 100000000000000096) }
      ∧ (-100000000000000000 : ℚ) ≤ 100
      ∧ (Prizes.ParsedFloat.finite (-100000000000000000)).add
            (Prizes.ParsedFloat.finite 100000000000000096)
          = Prizes.ParsedFloat.finite 96)
    ∧ Prizes.updateProbabilityInfo
          [ { _id := "a", Name := "pen", photo := none, total := some 4,
              weight := Prizes.ParsedFloat.posInfinity,
              isActive := some true, isDefault := none },
            { _id := "b", Name := "cup", photo := none, total := some 4,
              weight := Prizes.ParsedFloat.negInfinity,
              isActive := some true, isDefault := none } ]
          { totalProbability := none, thanksProbability := none }
          Prizes.SummaryOutcome.networkError
        = { totalProbability := some Prizes.ParsedFloat.nan,
            thanksProbability := some Prizes.ParsedFloat.nan }
    ∧ ((Prizes.updateProbabilityInfo
          [ { _id := "a", Name := "pen", photo := none, total := some 4,
              weight := Prizes.ParsedFloat.finite (3602879701896397 / 36028797018963968),
              isActive := some true, isDefault := none },
            { _id := "b", Name := "cup", photo := none, total := some 4,
              weight := Prizes.ParsedFloat.finite (3602879701896397 / 18014398509481984),
              isActive := some true, isDefault := none } ]
          { totalProbability := none, thanksProbability := none }
          Prizes.SummaryOutcome.networkError).totalProbability
        = some (Prizes.ParsedFloat.finite (1351079888211149 / 4503599627370496))
      ∧ (1351079888211149 / 4503599627370496 : ℚ)
          ≠ 3602879701896397 / 36028797018963968 + 3602879701896397 / 18014398509481984) := by
  refine ⟨⟨?_, by norm_num, ?_⟩, ?_, ?_, by norm_num⟩
  · have hlist : (List.filter
          (fun p : Prizes.Prize => decide (p.isActive ≠ some false ∧ p.isDefault ≠ some true))
          [ { _id := "a", Name := "pen", photo := none, total := some 4,
              weight := Prizes.ParsedFloat.finite (-100000000000000000),
              isActive := some true, isDefault := none } ]).map (fun p => p.weight.orZero)
        = [Prizes.ParsedFloat.finite (-100000000000000000)] := rfl
    rw [updateProbabilityInfo_of_failed _ _ _ (Or.inr ⟨500, none, rfl, by decide⟩),
      localTotalProbability_eq, hlist, List.foldl_cons, List.foldl_nil, add_finite, zero_add,
      roundDouble_neg_1e17, sub_finite, neg_neg, roundDouble_1e17_plus_100, max_finite,
      max_eq_right (by norm_num)]
  · rw [add_finite]
    norm_num
    exact roundDouble_96
  · rfl
  · have hlist : (List.filter
          (fun p : Prizes.Prize => decide (p.isActive ≠ some false ∧ p.isDefault ≠ some true))
          [ { _id := "a", Name := "pen", photo := none, total := some 4,
              weight := Prizes.ParsedFloat.finite (3602879701896397 / 36028797018963968),
              isActive := some true, isDefault := none },
            { _id := "b", Name := "cup", photo := none, total := some 4,
              weight := Prizes.ParsedFloat.finite (3602879701896397 / 18014398509481984),
              isActive := some true, isDefault := none } ]).map (fun p => p.weight.orZero)
        = [Prizes.ParsedFloat.finite (3602879701896397 / 36028797018963968),
           Prizes.ParsedFloat.finite (3602879701896397 / 18014398509481984)] := rfl
    rw [updateProbabilityInfo_of_failed _ _ _ (Or.inl rfl), localTotalProbability_eq, hlist,
      List.foldl_cons, List.foldl_cons, List.foldl_nil, add_finite, zero_add,
      roundDouble_tenth, add_finite, roundDouble_sum_tenths]

/-- C26, amended: when the probability-summary request fails (the `fetch`
rejects or the status is not a success status), `updateProbabilityInfo` shows as
total the floating-point sum, taken in list order from 0, of the weights (0 for
a weight that parses to `NaN`) of exactly the loaded prizes whose `isActive` is
not `false` and whose `isDefault` is not `true`; for whole-number weights that
are not negative and add up to less than `2 ^ 53` this is their exact sum. As
"thanks" probability it shows `Math.max(0, 100 - total)`, which is `NaN` exactly
when the total is `NaN` and otherwise at least 0; and the total and the "thanks"
probability add up to exactly 100 whenever the total is from 0 to 100. -/
theorem updateProbabilityInfo_fallback (prizesData : List Prizes.Prize)
    (d : Prizes.ProbabilityDisplay) (r : Prizes.SummaryOutcome)
    (hfail : r = Prizes.SummaryOutcome.networkError
      ∨ ∃ status body, r = Prizes.SummaryOutcome.http status body ∧ responseOk status = false) :
    ∃ total thanks : Prizes.ParsedFloat,
      Prizes.updateProbabilityInfo prizesData d r
        = { totalProbability := some total, thanksProbability := some thanks }
      ∧ total = ((prizesData.filter (fun p =>
            decide (p.isActive ≠ some false ∧ p.isDefault ≠ some true))).map
          (fun p => p.weight.orZero)).foldl Prizes.ParsedFloat.add
          (Prizes.ParsedFloat.finite 0)
      ∧ (∀ ns : List Int,
          (prizesData.filter (fun p =>
              decide (p.isActive ≠ some false ∧ p.isDefault ≠ some true))).map
            (fun p => p.weight.orZero)
            = ns.map (fun (n : Int) => Prizes.ParsedFloat.finite (n : ℚ)) →
          (∀ n ∈ ns, 0 ≤ n) → ns.sum < 2 ^ 53 →
          total = Prizes.ParsedFloat.finite ((ns.sum : Int) : ℚ))
      ∧ thanks = Prizes.ParsedFloat.max (Prizes.ParsedFloat.finite 0)
          ((Prizes.ParsedFloat.finite 100).sub total)
      ∧ (thanks = Prizes.ParsedFloat.nan ↔ total = Prizes.ParsedFloat.nan)
      ∧ (total ≠ Prizes.ParsedFloat.nan →
          thanks = Prizes.ParsedFloat.posInfinity
          ∨ ∃ q : ℚ, thanks = Prizes.ParsedFloat.finite q ∧ 0 ≤ q)
      ∧ (∀ t : ℚ, total = Prizes.ParsedFloat.finite t → 0 ≤ t → t ≤ 100 →
          total.add thanks = Prizes.ParsedFloat.finite 100) := by
  refine ⟨Prizes.localTotalProbability prizesData,
    Prizes.ParsedFloat.max (Prizes.ParsedFloat.finite 0)
      ((Prizes.ParsedFloat.finite 100).sub (Prizes.localTotalProbability prizesData)),
    updateProbabilityInfo_of_failed prizesData d r hfail,
    localTotalProbability_eq prizesData, ?_, rfl,
    (thanks_cases _).1, (thanks_cases _).2, ?_⟩
  · intro ns hns hnn hsum
    rw [localTotalProbability_eq, hns]
    have h := foldl_add_intCast ns 0 (le_refl _) hnn (by omega)
    rw [Int.cast_zero, zero_add] at h
    exact h
  · intro t ht h0 h100
    rw [ht]
    exact add_thanks_eq_100 t h0 h100

/-- Instance of C26: the request is answered with status 500 while three prizes
are loaded, one of them the default prize and one whose weight parses to `NaN`;
the total shown is 10, and the total and the "thanks" probability add up to
100. -/
theorem updateProbabilityInfo_fallback_witness :
    ∃ total thanks : Prizes.ParsedFloat,
      Prizes.updateProbabilityInfo
          [ { _id := "a", Name := "pen", photo := none, total := some 4,
              weight := Prizes.ParsedFloat.finite 10,
              isActive := some true, isDefault := none },
            { _id := "b", Name := "thanks", photo := none, total := none,
              weight := Prizes.ParsedFloat.finite 50,
              isActive := some true, isDefault := some true },
            { _id := "c", Name := "bag", photo := none, total := some 1,
              weight := Prizes.ParsedFloat.nan,
              isActive := none, isDefault := some false } ]
          { totalProbability := none, thanksProbability := none }
          (Prizes.SummaryOutcome.http 500 none)
        = { totalProbability := some total, thanksProbability := some thanks }
      ∧ total = Prizes.ParsedFloat.finite 10
      ∧ total.add thanks = Prizes.ParsedFloat.finite 100 := by
  obtain ⟨total, thanks, h1, _, h3, _, _, _, h7⟩ := updateProbabilityInfo_fallback
    [ { _id := "a", Name := "pen", photo := none, total := some 4,
        weight := Prizes.ParsedFloat.finite 10,
        isActive := some true, isDefault := none },
      { _id := "b", Name := "thanks", photo := none, total := none,
        weight := Prizes.ParsedFloat.finite 50,
        isActive := some true, isDefault := some true },
      { _id := "c", Name := "bag", photo := none, total := some 1,
        weight := Prizes.ParsedFloat.nan,
        isActive := none, isDefault := some false } ]
    { totalProbability := none, thanksProbability := none }
    (Prizes.SummaryOutcome.http 500 none) (Or.inr ⟨500, none, rfl, by decide⟩)
  have ht : total = Prizes.ParsedFloat.finite 10 := by
    have h := h3 [10, 0] rfl (by decide) (by decide)
    rw [h]
    norm_num
  exact ⟨total, thanks, h1, ht, h7 10 ht (by norm_num) (by norm_num)⟩

/-! ## Claims about `savePrize` -/

/-- C27: `savePrize` only shows an error, and calls `fetch` for neither the
probability validation nor the create or update, when the prize name is empty
or when the parsed weight is below 0 or above 100 (infinite values included); a
weight that parses to `NaN` and a total that parses to `NaN` are taken as 0; and
with a non-empty name every weight from 0 to 100, or an unparsable one, passes
the checks: the first effect is then the validation request, carrying that
weight and `editingPrizeId`. -/
theorem savePrize_client_checks (editingPrizeId : Option String) (lotteryModalOpen : Bool)
    (form : Prizes.PrizeForm) (validation : Prizes.ValidationOutcome) (confirmAnswer : Bool)
    (save : Prizes.SaveOutcome) :
    (form.Name = "" →
      Prizes.savePrize editingPrizeId lotteryModalOpen form validation confirmAnswer save
        = [Prizes.Effect.showMessage "请填写奖品名称" "error"])
    ∧ (form.Name ≠ "" →
        ((∃ q : ℚ, form.weight = Prizes.ParsedFloat.finite q ∧ (q < 0 ∨ 100 < q))
          ∨ form.weight = Prizes.ParsedFloat.posInfinity
          ∨ form.weight = Prizes.ParsedFloat.negInfinity) →
        Prizes.savePrize editingPrizeId lotteryModalOpen form validation confirmAnswer save
          = [Prizes.Effect.showMessage "中奖概率必须在0%到100%之间" "error"])
    ∧ ((form.Name = ""
          ∨ (∃ q : ℚ, form.weight = Prizes.ParsedFloat.finite q ∧ (q < 0 ∨ 100 < q))
          ∨ form.weight = Prizes.ParsedFloat.posInfinity
          ∨ form.weight = Prizes.ParsedFloat.negInfinity) →
        ∀ e ∈ Prizes.savePrize editingPrizeId lotteryModalOpen form validation confirmAnswer
            save, e.isFetch = false)
    ∧ (form.weight = Prizes.ParsedFloat.nan →
        (Prizes.prizeData form).weight = Prizes.ParsedFloat.finite 0)
    ∧ (form.total = none → (Prizes.prizeData form).total = 0)
    ∧ (∀ q : ℚ, form.weight = Prizes.ParsedFloat.finite q →
        (Prizes.prizeData form).weight = Prizes.ParsedFloat.finite q)
    ∧ (∀ n : Int, form.total = some n → (Prizes.prizeData form).total = n)
    ∧ (form.Name ≠ "" →
        (form.weight = Prizes.ParsedFloat.nan
          ∨ ∃ q : ℚ, form.weight = Prizes.ParsedFloat.finite q ∧ 0 ≤ q ∧ q ≤ 100) →
        ∃ rest, Prizes.savePrize editingPrizeId lotteryModalOpen form validation
            confirmAnswer save
          = Prizes.Effect.fetch "POST" "/api/admin/prizes/validate-probability"
              (Prizes.Body.validate (Prizes.prizeData form).weight editingPrizeId) :: rest) := by
  have hbad : form.Name ≠ "" →
      ((∃ q : ℚ, form.weight = Prizes.ParsedFloat.finite q ∧ (q < 0 ∨ 100 < q))
        ∨ form.weight = Prizes.ParsedFloat.posInfinity
        ∨ form.weight = Prizes.ParsedFloat.negInfinity) →
      Prizes.savePrize editingPrizeId lotteryModalOpen form validation confirmAnswer save
        = [Prizes.Effect.showMessage "中奖概率必须在0%到100%之间" "error"] := by
    intro hn hw
    have hcond : ((Prizes.prizeData form).weight.ltNum 0
        || (Prizes.prizeData form).weight.gtNum 100) = true := by
      rcases hw with ⟨q, hq, hlt | hgt⟩ | hw | hw
      · simp [Prizes.prizeData, hq, Prizes.ParsedFloat.orZero, Prizes.ParsedFloat.ltNum, hlt]
      · simp [Prizes.prizeData, hq, Prizes.ParsedFloat.orZero, Prizes.ParsedFloat.gtNum, hgt]
      · simp [Prizes.prizeData, hw, Prizes.ParsedFloat.orZero, Prizes.ParsedFloat.gtNum]
      · simp [Prizes.prizeData, hw, Prizes.ParsedFloat.orZero, Prizes.ParsedFloat.ltNum]
    unfold Prizes.savePrize
    have hn2 : ¬ (Prizes.prizeData form).Name = "" := hn
    simp only [if_neg hn2, hcond, if_true]
  have hempty : form.Name = "" →
      Prizes.savePrize editingPrizeId lotteryModalOpen form validation confirmAnswer save
        = [Prizes.Effect.showMessage "请填写奖品名称" "error"] := by
    intro h
    unfold Prizes.savePrize
    have h2 : (Prizes.prizeData form).Name = "" := h
    simp only [if_pos h2]
  refine ⟨hempty, hbad, ?_, ?_, ?_, ?_, ?_, ?_⟩
  · intro h e he
    by_cases hn : form.Name = ""
    · rw [hempty hn, List.mem_singleton] at he
      rw [he]; rfl
    · rcases h with h | h
      · exact absurd h hn
      · rw [hbad hn h, List.mem_singleton] at he
        rw [he]; rfl
  · intro h
    simp [Prizes.prizeData, h, Prizes.ParsedFloat.orZero]
  · intro h
    simp [Prizes.prizeData, h]
  · intro q h
    simp [Prizes.prizeData, h, Prizes.ParsedFloat.orZero]
  · intro n h
    simp [Prizes.prizeData, h]
  · intro hn hw
    have hcond : ((Prizes.prizeData form).weight.ltNum 0
        || (Prizes.prizeData form).weight.gtNum 100) = false := by
      rcases hw with hw | ⟨q, hq, h0, h100⟩
      · simp [Prizes.prizeData, hw, Prizes.ParsedFloat.orZero, Prizes.ParsedFloat.ltNum,
          Prizes.ParsedFloat.gtNum]
      · simp [Prizes.prizeData, hq, Prizes.ParsedFloat.orZero, Prizes.ParsedFloat.ltNum,
          Prizes.ParsedFloat.gtNum, h0, h100]
    unfold Prizes.savePrize
    have hn2 : ¬ (Prizes.prizeData form).Name = "" := hn
    simp only [if_neg hn2, hcond, Bool.false_eq_true, if_false]
    exact ⟨_, rfl⟩

/-- Instance of C27: a prize named "pen" with the weight 150 is refused before
any request. -/
theorem savePrize_client_checks_witness :
    Prizes.savePrize none false
        { Name := "pen", total := some 3, weight := Prizes.ParsedFloat.finite 150,
          photo := none }
        (Prizes.ValidationOutcome.http 200
          (some { valid := true, message := "", totalProbability := some 50 }))
        true (Prizes.SaveOutcome.http 200 (Except.ok none))
      = [Prizes.Effect.showMessage "中奖概率必须在0%到100%之间" "error"] :=
  (savePrize_client_checks none false
      { Name := "pen", total := some 3, weight := Prizes.ParsedFloat.finite 150,
        photo := none }
      (Prizes.ValidationOutcome.http 200
        (some { valid := true, message := "", totalProbability := some 50 }))
      true (Prizes.SaveOutcome.http 200 (Except.ok none))).2.1
    (by decide) (Or.inl ⟨150, rfl, Or.inr (by norm_num)⟩)

/-! ## Claims about the keyboard handler of the level page -/

theorem keydown_escape_modals (targetId : String) (p : Levels.Page) :
    (Levels.keydown { key := "Escape", targetId := targetId } p).1.modals
      = { p.modals with levelModal := false, editingLevelId := none,
                        levelDetailModal := false }
    ∧ (Levels.keydown { key := "Escape", targetId := targetId } p).2
      = some "ReferenceError: closeParticipantsModal is not defined" := by
  constructor <;> rfl

/-- C28 fails on the code: with the delete confirmation open for the level "L1",
pressing Escape closes the level modal and the detail modal and resets
`editingLevelId`, then the call of the undeclared `closeParticipantsModal` throws
and `closeDeleteModal` is not reached, so the delete confirmation stays open and
`deletingLevelId` stays "L1". -/
theorem keydown_escape_delete_modal_example :
    (Levels.keydown { key := "Escape", targetId := "" }
        { list := Levels.init,
          modals := Levels.deleteLevel "L1" "first"
            { editingLevelId := some "L2", deletingLevelId := none, levelModal := true,
              levelDetailModal := true, deleteModal := false, deleteMessage := "" } }).1.modals
      = { editingLevelId := none, deletingLevelId := some "L1", levelModal := false,
          levelDetailModal := false, deleteModal := true,
          deleteMessage := "确定要删除关卡 \"first\" 吗？此操作不可恢复！" }
    ∧ (Levels.keydown { key := "Escape", targetId := "" }
        { list := Levels.init,
          modals := Levels.deleteLevel "L1" "first"
            { editingLevelId := some "L2", deletingLevelId := none, levelModal := true,
              levelDetailModal := true, deleteModal := false, deleteMessage := "" } }).2
      = some "ReferenceError: closeParticipantsModal is not defined" :=
  ⟨by decide, by decide⟩

end WelcomeSystem
